import Mathlib

/-!
Shallow embedding of the treason Coup game engine (`src/game.js`) and
verification of its stated properties.

The engine is a closure over a mutable `state` object plus parallel arrays
`players` (connection objects), `proxies` (per-seat handles) and `allows`,
with a seeded RNG.  We embed that closure state as the structure `Game`
below, and every engine function as a pure function on `Game`.  A thrown
`GameException` is embedded as `Except.error`; in the source no exception is
thrown after a mutation of the game state inside a single entry point, so an
error result with the caller keeping the old state is a faithful rendering.

Randomness (`random-seed`) is embedded as a stream of naturals carried in
the state: drawing `rand(n)` consumes the head of the stream modulo `n`.
History messages and the external analytics collaborators (`gameStats`,
`gameTracker`, `dataAccess`) do not feed back into the game state and are
not modelled; the history group counters, which are part of the closure
state, are kept.
-/

namespace Treason

/-- Role cards are strings in the source. -/
abbrev Role := String

/-- One influence slot: a role tag plus a permanent `revealed` flag. -/
structure Influence where
  role : Role
  revealed : Bool
deriving DecidableEq, Repr

/-- The public per-seat record (`state.players[i]` in the source).
Epithet de-duplication of colliding names is cosmetic and not modelled:
the joining name is stored as given. -/
structure PlayerState where
  name : String
  cash : Nat
  influenceCount : Nat
  influence : List Influence
  isObserver : Bool
  ai : Bool
deriving DecidableEq, Repr

/-- The tag of the current state variant (`state.state.name`). -/
inductive StateName where
  | waitingForPlayers
  | startOfTurn
  | actionResponse
  | blockResponse
  | finalActionResponse
  | revealInfluence
  | exchange
  | interrogate
  | gameWon
  | destroyed
deriving DecidableEq, Repr

/-- The `state.state` object.  The source stores a plain object whose
fields other than `name` are present only for some variants; absent fields
(JS `undefined`) are embedded as `none` / `[]`.  `setState` replaces the
whole object, so constructing a `StateRec` with defaults mirrors it. -/
structure StateRec where
  name : StateName
  playerIdx : Option Nat := none
  action : Option String := none
  target : Option Nat := none
  blockingRole : Option Role := none
  message : String := ""
  reason : Option String := none
  playerToReveal : Option Nat := none
  exchangeOptions : List Role := []
  confession : Option Role := none
deriving DecidableEq, Repr

/-- A connection object in the `players` array; only the `ai` flag feeds
back into the engine (`onlyAiLeft`). -/
structure Conn where
  ai : Bool
deriving DecidableEq, Repr

/-- The behaviour of a per-seat handle (`proxies[i]`).  `createGameProxy`
installs a `command` closing over a seat index; `playerJoined` overwrites an
observer's `command` with a no-op function. -/
inductive ProxyB where
  | noop
  | real (idx : Nat)
deriving DecidableEq, Repr

/-- A join request: the fields of the connection object the engine reads. -/
structure JoinInfo where
  name : String
  ai : Bool
deriving DecidableEq, Repr

/-- A command payload (the fields the dispatcher reads).  A field the
client did not send is `none`; in particular a missing `stateId` compares
unequal to the current state id, exactly as `undefined != n` does. -/
structure Payload where
  stateId : Option Nat := none
  command : String
  action : Option String := none
  target : Option Nat := none
  role : Option Role := none
  blockingRole : Option Role := none
  roles : Option (List Role) := none
  forceExchange : Bool := false
  gameType : Option String := none
deriving DecidableEq, Repr

/-- The whole closure state of one game instance. -/
structure Game where
  stateId : Nat
  players : List PlayerState
  numPlayers : Nat
  roles : List Role
  st : StateRec
  deck : List Role
  conns : List (Option Conn)
  proxies : List ProxyB
  allows : List Bool
  rng : List Nat
  turnHistGroup : Nat
  adhocHistGroup : Nat
  optFirstPlayer : Option Nat
deriving DecidableEq, Repr

/-- The static description of an action.  Modelled from the spec: the
`actions` table lives in `web/shared.js`, which is not under `src/`; §4.2 of
the spec fixes per action its cash cost, optional gain, role gating,
targeting, and blocking roles (base Coup rules with the ambassador or
inquisitor variant). -/
structure ActionDef where
  cost : Nat
  gain : Nat := 0
  roles : Option (List Role) := none
  blockedBy : Option (List Role) := none
  targeted : Bool := false
deriving DecidableEq, Repr, Inhabited

/-- Modelled from the spec: the shared action table (`shared.actions`),
keyed by action name. -/
def actions : String → Option ActionDef
  | "income" => some { cost := 0, gain := 1 }
  | "foreign-aid" => some { cost := 0, gain := 2, blockedBy := some ["duke"] }
  | "tax" => some { cost := 0, gain := 3, roles := some ["duke"] }
  | "steal" =>
    some { cost := 0, roles := some ["captain"],
           blockedBy := some ["captain", "ambassador", "inquisitor"], targeted := true }
  | "assassinate" =>
    some { cost := 3, roles := some ["assassin"],
           blockedBy := some ["contessa"], targeted := true }
  | "coup" => some { cost := 7, targeted := true }
  | "exchange" => some { cost := 0, roles := some ["ambassador", "inquisitor"] }
  | "interrogate" => some { cost := 0, roles := some ["inquisitor"], targeted := true }
  | _ => none

/-- `MIN_PLAYERS`. -/
def MIN_PLAYERS : Nat := 2

/-- `MAX_PLAYERS`. -/
def MAX_PLAYERS : Nat := 6

/-- Update the element at index `i` if it exists (in-place field mutation
on an array element in the source). -/
def listModify {α : Type} (l : List α) (i : Nat) (f : α → α) : List α :=
  match l.get? i with
  | some x => l.set i (f x)
  | none => l

/-- Reading `state.players[i]` where the source has already established the
index is in range; out-of-range reads would crash the source and are
unreachable, so a default player is returned. -/
def defaultPlayer : PlayerState :=
  { name := "", cash := 0, influenceCount := 0, influence := [], isObserver := true, ai := false }

/-- `state.players[i]` (total). -/
def getP (g : Game) (i : Nat) : PlayerState :=
  g.players.getD i defaultPlayer

/-- Draw from the seeded generator: `rand(n)` yields a value in `[0, n)`
and advances the stream. -/
def randStep (rng : List Nat) (n : Nat) : Nat × List Nat :=
  (if n = 0 then 0 else rng.headD 0 % n, rng.tail)

/-- The loop body of `shuffle(array)`: repeatedly splice a random index and
append the element to the result.  Each splice shortens the array by one, so
a fuel equal to the initial length runs the loop to completion; structural
recursion on the fuel keeps the definition kernel-reducible. -/
def shuffleGo : Nat → List Nat → List Role → List Role × List Nat
  | 0, rng, _ => ([], rng)
  | _ + 1, rng, [] => ([], rng)
  | fuel + 1, rng, x :: xs =>
    let p := randStep rng (x :: xs).length
    let e := (x :: xs).getD p.1 "undefined"
    let q := shuffleGo fuel p.2 ((x :: xs).eraseIdx p.1)
    (e :: q.1, q.2)

/-- `shuffle(array)`.  The test-only fixed-deck mode is a test hook and not
modelled. -/
def shuffleL (rng : List Nat) (l : List Role) : List Role × List Nat :=
  shuffleGo l.length rng l

/-- `deck.pop()`: remove and return the last card.  Popping an empty deck
yields JS `undefined`, embedded as the string `"undefined"`. -/
def popDeck (d : List Role) : Role × List Role :=
  match d.getLast? with
  | some r => (r, d.dropLast)
  | none => ("undefined", d)

/-- `getInfluence(player)`: the unrevealed roles, in slot order. -/
def getInfluence (p : PlayerState) : List Role :=
  (p.influence.filter (fun s => !s.revealed)).map (·.role)

/-- `indexOfInfluence(player, role)`. -/
def indexOfInfluence (p : PlayerState) (role : Role) : Option Nat :=
  p.influence.findIdx? (fun s => s.role == role && !s.revealed)

/-- `revealFirstInfluence(player)`: reveal the first unrevealed slot and
return its role. -/
def revealFirstInfluence (p : PlayerState) : Option Role × PlayerState :=
  match p.influence.findIdx? (fun s => !s.revealed) with
  | some j =>
    (some ((p.influence.getD j ⟨"", true⟩).role),
     { p with influence := listModify p.influence j (fun s => { s with revealed := true }),
              influenceCount := p.influenceCount - 1 })
  | none => (none, p)

/-- `arrayDifference(array, subarray)`: remove one occurrence of each
element of `subarray`; `none` when some element is missing. -/
def arrayDifference (array : List Role) (subarray : List Role) : Option (List Role) :=
  match subarray with
  | [] => some array
  | r :: rs =>
    match array.indexOf? r with
    | some i => arrayDifference (array.eraseIdx i) rs
    | none => none

/-- The exchange assignment loop: every unrevealed slot, in slot order,
receives `command.roles.pop()` (taken from the end of the chosen list). -/
def assignRoles : List Influence → List Role → List Influence × List Role
  | [], rs => ([], rs)
  | s :: ss, rs =>
    if s.revealed then
      let (ss', rs') := assignRoles ss rs
      (s :: ss', rs')
    else
      let r := rs.getLast?.getD "undefined"
      let (ss', rs') := assignRoles ss rs.dropLast
      ({ s with role := r } :: ss', rs')

/-- Write `true` at index `i` of the (sparse in JS) `allows` array. -/
def setAllow (l : List Bool) (i : Nat) : List Bool :=
  (l ++ List.replicate (i + 1 - l.length) false).set i true

/-- `resetAllows(initiatingPlayerIdx)`. -/
def resetAllows (g : Game) (initiatingPlayerIdx : Nat) : Game :=
  { g with allows := setAllow [] initiatingPlayerIdx }

/-- `everyoneAllows()`: dead seats are skipped. -/
def everyoneAllows (g : Game) : Bool :=
  (List.range g.numPlayers).all fun i =>
    (getP g i).influenceCount == 0 || g.allows.getD i false

/-- `getGameRole(roles)`: first role of `state.roles` among the action's
roles (lodash `intersection` keeps the first array's order). -/
def getGameRole (g : Game) (roles : List Role) : Option Role :=
  (g.roles.filter (· ∈ roles)).head?

/-- `canJoin()`. -/
def canJoin (g : Game) : Bool :=
  g.st.name == StateName.waitingForPlayers && g.players.length < MAX_PLAYERS

/-- `onlyAiLeft()`. -/
def onlyAiLeft (g : Game) : Bool :=
  g.conns.all fun c =>
    match c with
    | none => true
    | some c => c.ai

/-- `setState(s)`. -/
def setState (g : Game) (s : StateRec) : Game :=
  { g with st := s }

/-- `emitState()`: bump the broadcast id; the per-seat snapshots are the
function `maskState` below. -/
def emitState (g : Game) : Game :=
  { g with stateId := g.stateId + 1 }

/-- The viewer-specific snapshot produced by `maskState(playerIdx)`. -/
structure Masked where
  stateId : Nat
  players : List PlayerState
  numPlayers : Nat
  roles : List Role
  st : StateRec
  playerIdx : Nat
deriving DecidableEq, Repr

/-- `maskState(playerIdx)`: other seats' unrevealed roles become
`"unknown"`; `exchangeOptions` and `confession` are cleared unless the
viewer is `state.state.playerIdx`. -/
def maskState (g : Game) (playerIdx : Nat) : Masked :=
  let players := g.players.mapIdx fun i p =>
    if i = playerIdx then p
    else { p with influence := p.influence.map fun s =>
            if s.revealed then s else { s with role := "unknown" } }
  let st := if g.st.playerIdx ≠ some playerIdx then
      { g.st with exchangeOptions := [], confession := none }
    else g.st
  { stateId := g.stateId, players := players, numPlayers := g.numPlayers,
    roles := g.roles, st := st, playerIdx := playerIdx }

/-- `nextPlayerIdx()`: nearest clockwise seat with influence. -/
def nextPlayerIdx (g : Game) : Option Nat :=
  let playerIdx := g.st.playerIdx.getD 0
  ((List.range (g.numPlayers - 1)).map fun i => (playerIdx + i + 1) % g.numPlayers).find?
    fun c => (getP g c).influenceCount > 0

/-- `nextTurn()`. -/
def nextTurn (g : Game) : Game :=
  if g.st.name ≠ StateName.gameWon then
    setState { g with turnHistGroup := g.turnHistGroup + 1 }
      { name := StateName.startOfTurn, playerIdx := nextPlayerIdx g }
  else g

/-- `checkForGameEnd()`: if exactly one seat retains influence, enter
`GameWon` (the analytics recording is external). -/
def checkForGameEnd (g : Game) : Game × Bool :=
  let live := (List.range g.players.length).filter fun i => (getP g i).influenceCount > 0
  match live with
  | [winnerIdx] =>
    (setState g { name := StateName.gameWon, playerIdx := some winnerIdx }, true)
  | _ => (g, false)

/-- `afterPlayerDeath(playerIdx)`: an ad-hoc history entry plus the
game-end check (ranking statistics are external). -/
def afterPlayerDeath (g : Game) (_playerIdx : Nat) : Game :=
  ((checkForGameEnd { g with adhocHistGroup := g.adhocHistGroup + 1 }).1)

/-- `destroyGame()`. -/
def destroyGame (g : Game) : Game :=
  { g with conns := [], proxies := [], st := { name := StateName.destroyed } }

/-- `swapRole(role)`: return the card to the deck, reshuffle, draw a
replacement. -/
def swapRole (g : Game) (role : Role) : Role × Game :=
  let (shuffled, rng) := shuffleL g.rng (g.deck ++ [role])
  let (r, deck) := popDeck shuffled
  (r, { g with deck := deck, rng := rng })

/-- `buildDeck()`: three copies of each role in play, shuffled. -/
def buildDeck (g : Game) : List Role × List Nat :=
  shuffleL g.rng (g.roles ++ g.roles ++ g.roles)

/-- `g.players[i] = p` (in-place mutation of the seat record). -/
def setP (g : Game) (i : Nat) (p : PlayerState) : Game :=
  { g with players := g.players.set i p }

/-- The fields of an `actionState` argument that `playAction` reads; both a
`play-action` payload and a stored `state.state` are passed in the source. -/
structure ActionState where
  action : Option String := none
  target : Option Nat := none
  blockingRole : Option Role := none
deriving DecidableEq, Repr

/-- View of `state.state` as a `playAction` argument. -/
def StateRec.toActionState (s : StateRec) : ActionState :=
  { action := s.action, target := s.target, blockingRole := s.blockingRole }

/-- View of a command payload as a `playAction` argument. -/
def Payload.toActionState (p : Payload) : ActionState :=
  { action := p.action, target := p.target, blockingRole := p.blockingRole }

/-- Render an optional seat index the way `format('%d', undefined)` would. -/
def fmtOptIdx (t : Option Nat) : String :=
  match t with
  | some n => toString n
  | none => "undefined"

/-- The attempt message built in the `play-action` branch. -/
def actionAttemptMessage (playerIdx : Nat) (p : Payload) : String :=
  if p.action = some "steal" then
    toString playerIdx ++ " attempted to steal from " ++ fmtOptIdx p.target
  else if p.action = some "assassinate" then
    toString playerIdx ++ " attempted to assassinate " ++ fmtOptIdx p.target
  else if p.action = some "exchange" then
    toString playerIdx ++ " attempted to exchange"
  else if p.action = some "interrogate" then
    toString playerIdx ++ " attempted to interrogate " ++ fmtOptIdx p.target
  else
    toString playerIdx ++ " attempted to draw " ++ p.action.getD "undefined"

/-- `playAction(playerIdx, actionState)`: apply the effect of an allowed
action.  Returns the new game and whether the turn is over (`true`) or a
follow-up state was entered (`false`). -/
def playAction (g : Game) (playerIdx : Nat) (aS : ActionState) : Game × Bool :=
  let player := getP g playerIdx
  let action := (actions (aS.action.getD "")).getD default
  let g := setP g playerIdx { player with cash := player.cash + action.gain }
  if aS.action = some "assassinate" then
    let t := aS.target.getD 0
    let message := toString playerIdx ++ " assassinated " ++ fmtOptIdx aS.target
    let target := getP g t
    if target.influenceCount = 1 then
      let (_, target') := revealFirstInfluence target
      (afterPlayerDeath (setP g t target') t, true)
    else if target.influenceCount > 1 then
      (setState g { name := StateName.revealInfluence, playerIdx := g.st.playerIdx,
                    action := aS.action, target := aS.target,
                    blockingRole := aS.blockingRole, message := message,
                    reason := some "assassinate", playerToReveal := aS.target }, false)
    else (g, true)
  else if aS.action = some "coup" then
    let t := aS.target.getD 0
    let message := toString playerIdx ++ " staged a coup on " ++ fmtOptIdx aS.target
    let target := getP g t
    if target.influenceCount ≤ 1 then
      let (_, target') := revealFirstInfluence target
      (afterPlayerDeath (setP g t target') t, true)
    else
      (setState g { name := StateName.revealInfluence, playerIdx := g.st.playerIdx,
                    action := aS.action, target := aS.target,
                    blockingRole := aS.blockingRole, message := message,
                    reason := some "coup", playerToReveal := aS.target }, false)
  else if aS.action = some "steal" then
    let t := aS.target.getD 0
    let target := getP g t
    if target.cash ≥ 2 then
      let g := setP g t { target with cash := target.cash - 2 }
      let player := getP g playerIdx
      (setP g playerIdx { player with cash := player.cash + 2 }, true)
    else
      let stolen := target.cash
      let g := setP g t { target with cash := 0 }
      let player := getP g playerIdx
      (setP g playerIdx { player with cash := player.cash + stolen }, true)
  else if aS.action = some "exchange" then
    let (c1, d1) := popDeck g.deck
    let opts1 := c1 :: getInfluence player
    let (opts, deck) :=
      if "ambassador" ∈ g.roles then
        let (c2, d2) := popDeck d1
        (c2 :: opts1, d2)
      else (opts1, d1)
    (setState { g with deck := deck }
       { name := StateName.exchange, playerIdx := g.st.playerIdx,
         action := aS.action, exchangeOptions := opts }, false)
  else if aS.action = some "interrogate" then
    let t := aS.target.getD 0
    let target := getP g t
    let influence := getInfluence target
    let (i, rng') := randStep g.rng influence.length
    (setState { g with rng := rng' }
       { name := StateName.interrogate, playerIdx := g.st.playerIdx,
         action := aS.action, target := g.st.target,
         confession := influence.get? i }, false)
  else
    (g, true)

/-- `afterSuccessfulChallenge()`. -/
def afterSuccessfulChallenge (g : Game) : Game × Bool :=
  if g.st.blockingRole.isSome then
    playAction g (g.st.playerIdx.getD 0) g.st.toActionState
  else (g, true)

/-- `afterIncorrectChallenge()`. -/
def afterIncorrectChallenge (g : Game) : Game × Bool :=
  let action := (actions (g.st.action.getD "")).getD default
  if g.st.blockingRole.isSome then (g, true)
  else
    let target := getP g (g.st.target.getD 0)
    if action.blockedBy.isSome ∧ target.influenceCount > 0 then
      (setState g { name := StateName.finalActionResponse, playerIdx := g.st.playerIdx,
                    action := g.st.action, target := g.st.target,
                    message := g.st.message }, false)
    else
      playAction g (g.st.playerIdx.getD 0) g.st.toActionState

/-- `challenge(playerIdx, challengedPlayerIdx, challegedRole)`. -/
def challenge (g : Game) (playerIdx challengedPlayerIdx : Nat) (challegedRole : Role) :
    Except String Game :=
  match g.players.get? challengedPlayerIdx with
  | none => Except.error "Cannot identify challenged player"
  | some challengedPlayer =>
    match indexOfInfluence challengedPlayer challegedRole with
    | some influenceIdx =>
      let oldRole := ((challengedPlayer.influence.getD influenceIdx ⟨"", false⟩)).role
      let (newRole, g1) := swapRole g oldRole
      let infl2 := listModify challengedPlayer.influence influenceIdx
        fun s => { s with role := newRole }
      let g2 := setP g1 challengedPlayerIdx { challengedPlayer with influence := infl2 }
      let message := toString playerIdx ++ " incorrectly challenged " ++
        toString challengedPlayerIdx ++ "; " ++ toString challengedPlayerIdx ++
        " exchanged " ++ oldRole ++ " for a new role"
      let player := getP g2 playerIdx
      if player.influenceCount ≤ 1 then
        let (_, player') := revealFirstInfluence player
        let g3 := setP g2 playerIdx player'
        let (g4, endOfTurn) := afterIncorrectChallenge g3
        let g5 := afterPlayerDeath g4 playerIdx
        Except.ok (if endOfTurn then nextTurn g5 else g5)
      else
        Except.ok (setState g2
          { name := StateName.revealInfluence, playerIdx := g2.st.playerIdx,
            action := g2.st.action, target := g2.st.target,
            blockingRole := g2.st.blockingRole, message := message,
            reason := some "incorrect-challenge", playerToReveal := some playerIdx })
    | none =>
      let message := toString playerIdx ++ " successfully challenged " ++
        toString challengedPlayerIdx
      let wouldLoseTwoInfluences :=
        g.st.name == StateName.blockResponse && g.st.action == some "assassinate" &&
          g.st.target == some challengedPlayerIdx
      if challengedPlayer.influenceCount ≤ 1 || wouldLoseTwoInfluences then
        let (_, cp') := revealFirstInfluence challengedPlayer
        let g1 := setP g challengedPlayerIdx cp'
        let g2 := if cp'.influenceCount = 0 then afterPlayerDeath g1 challengedPlayerIdx else g1
        let (g3, endOfTurn) := afterSuccessfulChallenge g2
        Except.ok (if endOfTurn then nextTurn g3 else g3)
      else
        Except.ok (setState g
          { name := StateName.revealInfluence, playerIdx := g.st.playerIdx,
            action := g.st.action, target := g.st.target,
            blockingRole := g.st.blockingRole, message := message,
            reason := some "successful-challenge", playerToReveal := some challengedPlayerIdx })

/-- `allow(playerIdx)`: records an allow, resolving the pending action or
block when everyone (or, in `FinalActionResponse`, the target) has allowed.
Returns the new game and the `stateChanged` flag. -/
def allow (g : Game) (playerIdx : Nat) : Except String (Game × Bool) :=
  if g.st.name = StateName.blockResponse then
    if g.st.target = some playerIdx then Except.error "Cannot allow your own block"
    else
      let g1 := { g with allows := setAllow g.allows playerIdx }
      if everyoneAllows g1 then Except.ok (nextTurn g1, true)
      else Except.ok (g1, false)
  else if g.st.name = StateName.actionResponse ∨ g.st.name = StateName.finalActionResponse then
    if g.st.playerIdx = some playerIdx then Except.error "Cannot allow your own action"
    else if g.st.name = StateName.finalActionResponse then
      if g.st.target ≠ some playerIdx then
        Except.error "Only the targetted player can allow the action"
      else
        let (g2, endOfTurn) := playAction g (g.st.playerIdx.getD 0) g.st.toActionState
        Except.ok (if endOfTurn then nextTurn g2 else g2, true)
    else
      let g1 := { g with allows := setAllow g.allows playerIdx }
      if ¬everyoneAllows g1 then Except.ok (g1, false)
      else
        let (g2, endOfTurn) := playAction g1 (g1.st.playerIdx.getD 0) g1.st.toActionState
        Except.ok (if endOfTurn then nextTurn g2 else g2, true)
  else Except.error "Incorrect state"

/-- The dealing loop of `start`: each non-observer's two slots receive
`deck.pop()` in order. -/
def dealPlayers : List PlayerState → List Role → List PlayerState × List Role
  | [], d => ([], d)
  | p :: ps, d =>
    if p.isObserver then
      let (ps', d') := dealPlayers ps d
      (p :: ps', d')
    else
      let (r0, d0) := popDeck d
      let (r1, d1) := popDeck d0
      let i0 := listModify p.influence 0 fun s => { s with role := r0 }
      let i1 := listModify i0 1 fun s => { s with role := r1 }
      let p' := { p with influence := i1 }
      let (ps', d') := dealPlayers ps d1
      (p' :: ps', d')

/-- `start(gameType)`: deal and enter `StartOfTurn` when at least
`MIN_PLAYERS` seats exist; with fewer seats the call does nothing (the
source has no `else`), and from any other state it throws. -/
def start (g : Game) (gameType : Option String) : Except String Game :=
  if g.st.name ≠ StateName.waitingForPlayers then Except.error "Incorrect state"
  else if g.numPlayers ≥ MIN_PLAYERS then
    let gt := gameType.getD "original"
    let g := { g with roles := ["duke", "captain", "assassin", "contessa"] ++
      [if gt = "inquisitors" then "inquisitor" else "ambassador"] }
    let (deck0, rng0) := buildDeck g
    let g := { g with deck := deck0, rng := rng0 }
    let (players', deck') := dealPlayers g.players g.deck
    let g := { g with players := players', deck := deck' }
    let nonObservers := (List.range g.numPlayers).filter fun i => !(getP g i).isObserver
    let (firstPlayer, rng') :=
      match g.optFirstPlayer with
      | some n => (some n, g.rng)
      | none =>
        let (i, rng') := randStep g.rng nonObservers.length
        (nonObservers.get? i, rng')
    let g := { g with rng := rng', turnHistGroup := g.turnHistGroup + 1 }
    Except.ok (setState g { name := StateName.startOfTurn, playerIdx := firstPlayer })
  else Except.ok g

/-- `playerJoined(player)`: append the seat, broadcast, and hand back a
per-seat proxy whose `command` is a no-op for observers. -/
def playerJoined (g : Game) (info : JoinInfo) : Game × ProxyB :=
  let isObserver := !canJoin g
  let ps : PlayerState :=
    if isObserver then
      { name := info.name, cash := 0, influenceCount := 0, influence := [],
        isObserver := true, ai := info.ai }
    else
      { name := info.name, cash := 2, influenceCount := 2,
        influence := [⟨"not dealt", false⟩, ⟨"not dealt", false⟩],
        isObserver := false, ai := info.ai }
  let playerIdx := g.players.length
  let g := { g with players := g.players ++ [ps], conns := g.conns ++ [some ⟨info.ai⟩],
                    numPlayers := g.numPlayers + 1,
                    adhocHistGroup := g.adhocHistGroup + 1 }
  let g := emitState g
  let proxy := if isObserver then ProxyB.noop else ProxyB.real playerIdx
  ({ g with proxies := g.proxies ++ [proxy] }, proxy)

/-- The tail of `playerLeft`: ad-hoc history entry, destruction when only
AI connections remain, broadcast. -/
def playerLeftFinish (g : Game) : Game :=
  let g := { g with adhocHistGroup := g.adhocHistGroup + 1 }
  emitState (if onlyAiLeft g then destroyGame g else g)

/-- `playerLeft(playerIdx, rejoined)`: remove (pre-start or observer) or
disconnect a seat, revealing its influence and forcing the game forward
when it held the turn, owed a reveal, or owed an allow in an action or
block response window. -/
def playerLeft (g : Game) (playerIdx : Nat) (_rejoined : Bool) : Except String Game :=
  if playerIdx ≥ g.numPlayers then Except.error "Unknown player disconnected"
  else match g.players.get? playerIdx with
  | none => Except.error "Unknown player disconnected"
  | some player =>
    match g.conns.getD playerIdx none with
    | none => Except.error "TypeError: reading playerId of null"
    | some _conn =>
      if g.st.name = StateName.waitingForPlayers ∨ player.isObserver then
        Except.ok (playerLeftFinish
          { g with players := g.players.eraseIdx playerIdx,
                   conns := g.conns.eraseIdx playerIdx,
                   proxies := (g.proxies.eraseIdx playerIdx).mapIdx fun i p =>
                     if i ≥ playerIdx then ProxyB.real i else p,
                   numPlayers := g.numPlayers - 1 })
      else
        let g1 := { g with conns := g.conns.set playerIdx none }
        if g1.st.name ≠ StateName.gameWon then
          let player1 := { player with
            influence := player.influence.map fun s => { s with revealed := true },
            influenceCount := 0 }
          let g2 := setP g1 playerIdx player1
          let (g3, isEnd) := checkForGameEnd g2
          if ¬isEnd then
            if g3.st.playerIdx = some playerIdx then
              Except.ok (playerLeftFinish (nextTurn g3))
            else if g3.st.name = StateName.revealInfluence ∧
                g3.st.playerToReveal = some playerIdx then
              Except.ok (playerLeftFinish (nextTurn g3))
            else if (g3.st.name = StateName.actionResponse ∨
                g3.st.name = StateName.blockResponse) ∧ ¬(g3.allows.getD playerIdx false) then
              match allow g3 playerIdx with
              | Except.error e => Except.error e
              | Except.ok (g4, _) => Except.ok (playerLeftFinish g4)
            else Except.ok (playerLeftFinish g3)
          else Except.ok (playerLeftFinish g3)
        else Except.ok (playerLeftFinish g1)

/-- `removeAiPlayer()`: disconnect the highest-indexed AI seat above 0. -/
def removeAiPlayer (g : Game) : Except String Game :=
  match ((List.range g.conns.length).reverse.filter fun i => 0 < i).find?
      (fun i => match g.conns.getD i none with
        | some c => c.ai
        | none => false) with
  | some i => playerLeft g i false
  | none => Except.ok g

/-- `command(playerIdx, command)`: the sole mutator.  An
`Except.error` is a thrown `GameException`: in the source no branch throws
after mutating game state, so the caller keeps the old state on error. -/
def command (g : Game) (playerIdx : Nat) (p : Payload) : Except String Game :=
  match g.players.get? playerIdx with
  | none => Except.error "Unknown player"
  | some player =>
  if p.stateId ≠ some g.stateId then Except.error "Stale state"
  else if p.command = "start" then
    match start g p.gameType with
    | Except.error e => Except.error e
    | Except.ok g1 => Except.ok (emitState g1)
  else if p.command = "add-ai" then
    if g.st.name ≠ StateName.waitingForPlayers then Except.error "Incorrect state"
    else Except.ok (emitState (playerJoined g { name := "Computer", ai := true }).1)
  else if p.command = "remove-ai" then
    if g.st.name ≠ StateName.waitingForPlayers then Except.error "Incorrect state"
    else match removeAiPlayer g with
      | Except.error e => Except.error e
      | Except.ok g1 => Except.ok (emitState g1)
  else if p.command = "play-action" then
    if g.st.name ≠ StateName.startOfTurn then Except.error "Incorrect state"
    else if g.st.playerIdx ≠ some playerIdx then Except.error "Not your turn"
    else match actions (p.action.getD "") with
      | none => Except.error "Unknown action"
      | some action =>
        if action.roles.isSome ∧ (getGameRole g (action.roles.getD [])).isNone then
          Except.error "Action not allowed in this game"
        else if player.cash ≥ 10 ∧ p.action ≠ some "coup" then
          Except.error "You must coup with 10 or more cash"
        else if player.cash < action.cost then Except.error "Not enough cash"
        else if action.targeted ∧ p.target = none then Except.error "No target specified"
        else if action.targeted ∧ p.target.getD 0 ≥ g.numPlayers then
          Except.error "Invalid target specified"
        else if action.targeted ∧ (getP g (p.target.getD 0)).influenceCount = 0 then
          Except.error "Cannot target dead player"
        else
          let g1 := setP g playerIdx { player with cash := player.cash - action.cost }
          if action.roles = none ∧ action.blockedBy = none then
            let (g2, endOfTurn) := playAction g1 playerIdx p.toActionState
            Except.ok (emitState (if endOfTurn then nextTurn g2 else g2))
          else
            let g2 := setState g1
              { name := StateName.actionResponse, playerIdx := some playerIdx,
                action := p.action, target := p.target,
                message := actionAttemptMessage playerIdx p }
            Except.ok (emitState (resetAllows g2 playerIdx))
  else if p.command = "challenge" then
    if player.influenceCount = 0 then Except.error "Dead players cannot challenge"
    else if g.st.name = StateName.actionResponse then
      if some playerIdx = g.st.playerIdx then Except.error "Cannot challenge your own action"
      else match actions (g.st.action.getD "") with
        | none => Except.error "Unknown action"
        | some action =>
          if action.roles = none then Except.error "Action cannot be challenged"
          else match challenge g playerIdx (g.st.playerIdx.getD 0)
              ((getGameRole g (action.roles.getD [])).getD "undefined") with
            | Except.error e => Except.error e
            | Except.ok g1 => Except.ok (emitState g1)
    else if g.st.name = StateName.blockResponse then
      if some playerIdx = g.st.target then Except.error "Cannot challenge your own block"
      else match challenge g playerIdx (g.st.target.getD 0)
          (g.st.blockingRole.getD "undefined") with
        | Except.error e => Except.error e
        | Except.ok g1 => Except.ok (emitState g1)
    else Except.error "Incorrect state"
  else if p.command = "reveal" then
    if g.st.name ≠ StateName.revealInfluence then Except.error "Incorrect state"
    else if g.st.playerToReveal ≠ some playerIdx then
      Except.error "Not your turn to reveal an influence"
    else match player.influence.findIdx? (fun s => some s.role == p.role && !s.revealed) with
      | none => Except.error "Could not reveal role"
      | some i =>
        let player1 := { player with
          influence := listModify player.influence i fun s => { s with revealed := true },
          influenceCount := player.influenceCount - 1 }
        let g1 := setP g playerIdx player1
        if g1.st.reason = some "incorrect-challenge" then
          let (g2, endOfTurn) := afterIncorrectChallenge g1
          Except.ok (emitState (if endOfTurn then nextTurn g2 else g2))
        else if g1.st.reason = some "successful-challenge" then
          let (g2, endOfTurn) := afterSuccessfulChallenge g1
          Except.ok (emitState (if endOfTurn then nextTurn g2 else g2))
        else
          Except.ok (emitState (nextTurn g1))
  else if p.command = "block" then
    if player.influenceCount = 0 then Except.error "Dead players cannot block"
    else if g.st.name ≠ StateName.actionResponse ∧
        g.st.name ≠ StateName.finalActionResponse then Except.error "Incorrect state"
    else match actions (g.st.action.getD "") with
      | none => Except.error "Unknown action"
      | some action =>
        if some playerIdx = g.st.playerIdx then Except.error "Cannot block your own action"
        else if action.blockedBy = none then Except.error "Action cannot be blocked"
        else if p.blockingRole = none then Except.error "No blocking role specified"
        else if p.blockingRole.getD "" ∉ g.roles then
          Except.error "Role not valid in this game"
        else if p.blockingRole.getD "" ∉ action.blockedBy.getD [] then
          Except.error "Action cannot be blocked by that role"
        else
          let g1 := setState g
            { name := StateName.blockResponse, playerIdx := g.st.playerIdx,
              action := g.st.action, target := some playerIdx,
              blockingRole := p.blockingRole,
              message := toString playerIdx ++ " attempted to block with " ++
                p.blockingRole.getD "" }
          Except.ok (emitState (resetAllows g1 playerIdx))
  else if p.command = "allow" then
    if player.influenceCount = 0 then Except.error "Dead players cannot allow actions"
    else match allow g playerIdx with
      | Except.error e => Except.error e
      | Except.ok (g1, stateChanged) =>
        if stateChanged then Except.ok (emitState g1) else Except.ok g1
  else if p.command = "exchange" then
    if g.st.name ≠ StateName.exchange then Except.error "Incorrect state"
    else if g.st.playerIdx ≠ some playerIdx then Except.error "Not your turn"
    else match p.roles with
      | none => Except.error "Must specify roles to exchange"
      | some roles =>
        if roles.length ≠ player.influenceCount then Except.error "Wrong number of roles"
        else match arrayDifference g.st.exchangeOptions roles with
          | none => Except.error "Invalid choice of roles"
          | some unchosen =>
            let (infl', _) := assignRoles player.influence roles
            let g1 := setP g playerIdx { player with influence := infl' }
            let (deck', rng') := shuffleL g1.rng (g1.deck ++ unchosen)
            Except.ok (emitState (nextTurn { g1 with deck := deck', rng := rng' }))
  else if p.command = "interrogate" then
    if g.st.name ≠ StateName.interrogate then Except.error "Incorrect state"
    else if g.st.playerIdx ≠ some playerIdx then Except.error "Not your turn"
    else if p.forceExchange then
      let t := g.st.target.getD 0
      let target := getP g t
      match indexOfInfluence target (g.st.confession.getD "undefined") with
      | none => Except.error "Target does not have the confessed role"
      | some idx =>
        let (newRole, g1) := swapRole g (g.st.confession.getD "undefined")
        let infl2 := listModify target.influence idx fun s => { s with role := newRole }
        let g2 := setP g1 t { target with influence := infl2 }
        Except.ok (emitState (nextTurn g2))
    else Except.ok (emitState (nextTurn g))
  else Except.error "Unknown command"

/-- The transport-side view of one `command` call: the engine state the
caller is left with, plus the error delivered back to the submitter if the
command threw. -/
def submit (g : Game) (playerIdx : Nat) (p : Payload) : Game × Option String :=
  match command g playerIdx p with
  | Except.ok g' => (g', none)
  | Except.error e => (g, some e)

/-- Invoking the `command` member of a per-seat handle. -/
def invokeProxy (pr : ProxyB) (g : Game) (p : Payload) : Except String Game :=
  match pr with
  | ProxyB.noop => Except.ok g
  | ProxyB.real i => command g i p

/-- `createGame(options)`: the freshly created game. -/
def initGame (rng : List Nat) (firstPlayer : Option Nat) : Game :=
  { stateId := 1, players := [], numPlayers := 0, roles := [],
    st := { name := StateName.waitingForPlayers }, deck := [], conns := [],
    proxies := [], allows := [], rng := rng, turnHistGroup := 1,
    adhocHistGroup := 1, optFirstPlayer := firstPlayer }

/-! ## Measures over game states -/

/-- Number of unrevealed influence slots across all seats: the quantity the
spec's card-conservation property counts. -/
def unrevealedInfluenceTotal (g : Game) : Nat :=
  (g.players.map fun p => (p.influence.filter fun s => !s.revealed).length).sum

/-- Number of cards in an open exchange offer as the spec counts them: the
length of `exchangeOptions` while an `Exchange` state is open. -/
def exchangeOfferCount (g : Game) : Nat :=
  if g.st.name = StateName.exchange then g.st.exchangeOptions.length else 0

/-- Number of influence slots across all seats, revealed or not. -/
def slotCount (g : Game) : Nat :=
  (g.players.map fun p => p.influence.length).sum

/-- Number of cards held by an open exchange offer beyond the actor's own
unrevealed influence, i.e. the cards actually drawn from the deck into the
offer. -/
def drawnCount (g : Game) : Nat :=
  if g.st.name = StateName.exchange then
    g.st.exchangeOptions.length - (getP g (g.st.playerIdx.getD 0)).influenceCount
  else 0

/-- Number of non-observer seats. -/
def nonObsCount (g : Game) : Nat :=
  (g.players.filter fun p => !p.isObserver).length

/-- A game that has been dealt and is neither waiting for players nor
destroyed. -/
def inPlay (g : Game) : Prop :=
  g.st.name ≠ StateName.waitingForPlayers ∧ g.st.name ≠ StateName.destroyed

instance (g : Game) : Decidable (inPlay g) := by
  unfold inPlay
  infer_instance

/-! ## Reachability

A state is reachable when it arises from a freshly created game by a
sequence of `playerJoined`, `playerLeft` and successful `command` calls
(`add-ai` and `remove-ai`, which join and disconnect seats from inside
`command`, are part of `command`). -/

/-- One externally triggered transition of a game instance. -/
inductive Step : Game → Game → Prop where
  | join (g : Game) (info : JoinInfo) : Step g (playerJoined g info).1
  | leave (g : Game) (i : Nat) (rejoined : Bool) (g' : Game)
      (h : playerLeft g i rejoined = Except.ok g') : Step g g'
  | cmd (g : Game) (i : Nat) (p : Payload) (g' : Game)
      (h : command g i p = Except.ok g') : Step g g'

/-- Reachable states of a game instance. -/
inductive Reachable : Game → Prop where
  | init (rng : List Nat) (firstPlayer : Option Nat) : Reachable (initGame rng firstPlayer)
  | step {g g' : Game} : Reachable g → Step g g' → Reachable g'

/-- One transition, where no seat leaves while an exchange offer is open
(a disconnect during an `Exchange` state permanently discards the cards
drawn into the offer). -/
inductive StepNX : Game → Game → Prop where
  | join (g : Game) (info : JoinInfo) : StepNX g (playerJoined g info).1
  | leave (g : Game) (i : Nat) (rejoined : Bool) (g' : Game)
      (hst : g.st.name ≠ StateName.exchange)
      (h : playerLeft g i rejoined = Except.ok g') : StepNX g g'
  | cmd (g : Game) (i : Nat) (p : Payload) (g' : Game)
      (h : command g i p = Except.ok g') : StepNX g g'

/-- Reachable states along histories with no disconnect during an open
exchange offer. -/
inductive ReachableNX : Game → Prop where
  | init (rng : List Nat) (firstPlayer : Option Nat) : ReachableNX (initGame rng firstPlayer)
  | step {g g' : Game} : ReachableNX g → StepNX g g' → ReachableNX g'

/-- Run one command, keeping the old state if it is rejected (used to name
the states of concrete executions). -/
def stepC (g : Game) (i : Nat) (p : Payload) : Game :=
  match command g i p with
  | Except.ok g' => g'
  | Except.error _ => g

/-- Run one `playerLeft`, keeping the old state if it throws. -/
def stepL (g : Game) (i : Nat) : Game :=
  match playerLeft g i false with
  | Except.ok g' => g'
  | Except.error _ => g

/-! ## Concrete executions

All traces run with an empty RNG stream (every draw reads 0, so `shuffle`
is the identity permutation and random choices pick index 0). -/

/-- Trace A: two seats join and the game starts; deals
`[ambassador, contessa]` to seat 0 and `[assassin, captain]` to seat 1. -/
def tA1 : Game := (playerJoined (initGame [] none) ⟨"P0", false⟩).1

def tA2 : Game := (playerJoined tA1 ⟨"P1", false⟩).1

def pA3 : Payload := { stateId := some 3, command := "start" }

def tA3 : Game := stepC tA2 0 pA3

/-- Seat 0 claims duke (holding none) and collects tax. -/
def pA4 : Payload := { stateId := some 4, command := "play-action", action := some "tax" }

def tA4 : Game := stepC tA3 0 pA4

/-- Seat 1 challenges; seat 0 holds no duke, so the challenge succeeds. -/
def pA5 : Payload := { stateId := some 5, command := "challenge" }

def tA5 : Game := stepC tA4 1 pA5

/-- Seat 0 reveals its ambassador. -/
def pA6 : Payload := { stateId := some 6, command := "reveal", role := some "ambassador" }

def tA6 : Game := stepC tA5 0 pA6

/-- Trace B: a three-seat game reaching `ActionResponse` on a tax claim. -/
def tB1 : Game := (playerJoined (initGame [] none) ⟨"P0", false⟩).1

def tB2 : Game := (playerJoined tB1 ⟨"P1", false⟩).1

def tB3 : Game := (playerJoined tB2 ⟨"P2", false⟩).1

def pB4 : Payload := { stateId := some 4, command := "start" }

def tB4 : Game := stepC tB3 0 pB4

def pB5 : Payload := { stateId := some 5, command := "play-action", action := some "tax" }

def tB5 : Game := stepC tB4 0 pB5

/-- Seat 1 allows the tax; seat 2 has not yet responded. -/
def pB6 : Payload := { stateId := some 6, command := "allow" }

def tB6 : Game := stepC tB5 1 pB6

/-- Trace C: an inquisitor-variant game reaching an `Interrogate` state;
seat 0 is dealt `[inquisitor, contessa]`, seat 1 `[assassin, captain]`. -/
def tC1 : Game := (playerJoined (initGame [] none) ⟨"P0", false⟩).1

def tC2 : Game := (playerJoined tC1 ⟨"P1", false⟩).1

def pC3 : Payload := { stateId := some 3, command := "start", gameType := some "inquisitors" }

def tC3 : Game := stepC tC2 0 pC3

def pC4 : Payload :=
  { stateId := some 4, command := "play-action", action := some "interrogate", target := some 1 }

def tC4 : Game := stepC tC3 0 pC4

def pC5 : Payload := { stateId := some 5, command := "allow" }

/-- The interrogate resolves: the confession drawn from seat 1 is its
unrevealed assassin. -/
def tC5 : Game := stepC tC4 1 pC5

/-- Trace D: a single seat joins; `start` is then submitted. -/
def tD1 : Game := (playerJoined (initGame [] none) ⟨"P0", false⟩).1

def pD2 : Payload := { stateId := some 2, command := "start" }

def tD2 : Game := stepC tD1 0 pD2

/-- Trace E: three seats, first turn forced to seat 1 (the `firstPlayer`
option); seat 1 steals from seat 0, seat 2 challenges incorrectly (seat 1
holds the captain) and reveals, leaving a `FinalActionResponse` whose
target is seat 0. -/
def tE1 : Game := (playerJoined (initGame [] (some 1)) ⟨"P0", false⟩).1

def tE2 : Game := (playerJoined tE1 ⟨"P1", false⟩).1

def tE3 : Game := (playerJoined tE2 ⟨"P2", false⟩).1

def pE4 : Payload := { stateId := some 4, command := "start" }

def tE4 : Game := stepC tE3 0 pE4

def pE5 : Payload :=
  { stateId := some 5, command := "play-action", action := some "steal", target := some 0 }

def tE5 : Game := stepC tE4 1 pE5

def pE6 : Payload := { stateId := some 6, command := "challenge" }

def tE6 : Game := stepC tE5 2 pE6

def pE7 : Payload := { stateId := some 7, command := "reveal", role := some "duke" }

/-- The `FinalActionResponse` state: actor seat 1, target seat 0. -/
def tE7 : Game := stepC tE6 2 pE7

/-- Seat 2 — not the target — claims an ambassador block. -/
def pE8 : Payload := { stateId := some 8, command := "block", blockingRole := some "ambassador" }

def tE8 : Game := stepC tE7 2 pE8

/-- The target, seat 0, disconnects from the `FinalActionResponse`. -/
def tE8L : Game := stepL tE7 0

/-- Trace H: a two-seat game in which seat 1 first loses one influence to
an assassination, then blocks a second assassination with a claimed
contessa it does not hold, and is successfully challenged. -/
def tH2 : Game := (playerJoined tA1 ⟨"P1", false⟩).1

def pH3 : Payload := { stateId := some 3, command := "start" }

def tH3 : Game := stepC tH2 0 pH3

def incomeP (sid : Nat) : Payload :=
  { stateId := some sid, command := "play-action", action := some "income" }

def tH4 : Game := stepC tH3 0 (incomeP 4)

def tH5 : Game := stepC tH4 1 (incomeP 5)

def pH6 : Payload :=
  { stateId := some 6, command := "play-action", action := some "assassinate", target := some 1 }

def tH6 : Game := stepC tH5 0 pH6

def pH7 : Payload := { stateId := some 7, command := "allow" }

def tH7 : Game := stepC tH6 1 pH7

def pH8 : Payload := { stateId := some 8, command := "reveal", role := some "assassin" }

def tH8 : Game := stepC tH7 1 pH8

def tH9 : Game := stepC tH8 1 (incomeP 9)

def tH10 : Game := stepC tH9 0 (incomeP 10)

def tH11 : Game := stepC tH10 1 (incomeP 11)

def tH12 : Game := stepC tH11 0 (incomeP 12)

def tH13 : Game := stepC tH12 1 (incomeP 13)

def tH14 : Game := stepC tH13 0 (incomeP 14)

def tH15 : Game := stepC tH14 1 (incomeP 15)

def pH16 : Payload :=
  { stateId := some 16, command := "play-action", action := some "assassinate", target := some 1 }

def tH16 : Game := stepC tH15 0 pH16

def pH17 : Payload := { stateId := some 17, command := "block", blockingRole := some "contessa" }

/-- The `BlockResponse`: pending assassinate on seat 1, blocked by seat 1
(one unrevealed influence) with a contessa it does not hold. -/
def tH17 : Game := stepC tH16 1 pH17

def pH18 : Payload := { stateId := some 18, command := "challenge" }

def tH18 : Game := stepC tH17 0 pH18

/-- `tH17` with seat 1 given back a second unrevealed influence: a
`BlockResponse` on an assassinate whose blocker-target holds two
unrevealed cards and no contessa. -/
def tH17x : Game :=
  { tH17 with players := [getP tH17 0,
      { getP tH17 1 with
        influence := [⟨"assassin", false⟩, ⟨"captain", false⟩], influenceCount := 2 }] }

/-- Trace W: a started two-seat game; two observers join and the first of
them leaves, splicing the seat arrays and rewiring the proxies. -/
def tW3 : Game := stepC tA2 0 pA3

def tW4j : Game × ProxyB := playerJoined tW3 ⟨"O1", false⟩

def tW4 : Game := tW4j.1

def tW5j : Game × ProxyB := playerJoined tW4 ⟨"O2", false⟩

def tW5 : Game := tW5j.1

def tW6 : Game := stepL tW5 2

/-! ## Basic lemmas -/

/-- Unrevealed slots of one seat. -/
def unrevealedOf (p : PlayerState) : Nat :=
  (p.influence.filter fun s => !s.revealed).length

theorem getP_of_get? {g : Game} {i : Nat} {p : PlayerState}
    (h : g.players.get? i = some p) : getP g i = p := by
  simp only [getP, List.getD_eq_getElem?_getD, ← List.get?_eq_getElem?, h, Option.getD_some]

theorem submit_of_error {g : Game} {i : Nat} {p : Payload} {e : String}
    (h : command g i p = Except.error e) :
    (submit g i p).1 = g ∧ (submit g i p).2.isSome := by
  simp [submit, h]

/-- A command whose `stateId` does not match is rejected before any
dispatch. -/
theorem command_stale {g : Game} {i : Nat} {p : Payload}
    (h : p.stateId ≠ some g.stateId) : ∃ e, command g i p = Except.error e := by
  unfold command
  split
  · exact ⟨_, rfl⟩
  · rw [if_pos h]
    exact ⟨_, rfl⟩

/-- C2: a command whose payload carries any `stateId` other than the
current one is rejected with an error and the submitting transport keeps
the game state entirely unchanged. -/
theorem stale_command_rejected (g : Game) (playerIdx : Nat) (p : Payload)
    (h : p.stateId ≠ some g.stateId) :
    (submit g playerIdx p).1 = g ∧ (submit g playerIdx p).2.isSome := by
  obtain ⟨e, he⟩ := command_stale h
  exact submit_of_error he

theorem stale_command_rejected_witness :
    (some 7 : Option Nat) ≠ some tA3.stateId ∧
      (submit tA3 0 { stateId := some 7, command := "start" }).1 = tA3 ∧
      (submit tA3 0 { stateId := some 7, command := "start" }).2.isSome := by
  refine ⟨by decide, ?_⟩
  exact stale_command_rejected tA3 0 { stateId := some 7, command := "start" } (by decide)

/-- C10: on a seat's turn, once its cash is 10 or more, a `play-action`
command naming any action other than coup is rejected with an error and the
game state is unchanged. -/
theorem must_coup_with_ten_cash (g : Game) (i : Nat) (p : Payload)
    (hst : g.st.name = StateName.startOfTurn)
    (hturn : g.st.playerIdx = some i)
    (hcash : 10 ≤ (getP g i).cash)
    (hcmd : p.command = "play-action")
    (hact : p.action ≠ some "coup") :
    (submit g i p).1 = g ∧ (submit g i p).2.isSome := by
  suffices h : ∃ e, command g i p = Except.error e by
    obtain ⟨e, he⟩ := h
    exact submit_of_error he
  by_cases hsid : p.stateId = some g.stateId
  · unfold command
    split
    · exact ⟨_, rfl⟩
    next player hmem =>
      have hpc : player.cash = (getP g i).cash := by rw [getP_of_get? hmem]
      rw [if_neg (by simp [hsid])]
      rw [if_neg (by simp [hcmd])]
      rw [if_neg (by simp [hcmd])]
      rw [if_neg (by simp [hcmd])]
      rw [if_pos hcmd]
      rw [if_neg (by simp [hst])]
      rw [if_neg (by simp [hturn])]
      split
      · exact ⟨_, rfl⟩
      next action hac =>
        by_cases hroles : action.roles.isSome ∧ (getGameRole g (action.roles.getD [])).isNone
        · rw [if_pos hroles]
          exact ⟨_, rfl⟩
        · rw [if_neg hroles, if_pos ⟨by omega, hact⟩]
          exact ⟨_, rfl⟩
  · exact command_stale hsid

theorem must_coup_with_ten_cash_witness :
    ∃ g10 : Game,
      g10.st.name = StateName.startOfTurn ∧ g10.st.playerIdx = some 0 ∧
      10 ≤ (getP g10 0).cash ∧
      (submit g10 0 { stateId := some 4, command := "play-action", action := some "tax" }).1 =
        g10 ∧
      (submit g10 0 { stateId := some 4, command := "play-action", action := some "tax" }).2.isSome := by
  refine ⟨{ tA3 with players := [{ getP tA3 0 with cash := 12 }, getP tA3 1] }, by decide,
    by decide, by decide, ?_⟩
  exact must_coup_with_ten_cash _ 0 _ (by decide) (by decide) (by decide) (by decide) (by decide)

/-! ## Reachability of the concrete executions -/

theorem reach_tA2 : Reachable tA2 := by
  have h0 : Reachable (initGame [] none) := Reachable.init [] none
  have h1 : Reachable tA1 := h0.step (Step.join _ ⟨"P0", false⟩)
  exact h1.step (Step.join tA1 ⟨"P1", false⟩)

theorem reach_tA3 : Reachable tA3 := reach_tA2.step (Step.cmd tA2 0 pA3 tA3 rfl)

theorem reach_tA6 : Reachable tA6 := by
  have h4 : Reachable tA4 := reach_tA3.step (Step.cmd tA3 0 pA4 tA4 rfl)
  have h5 : Reachable tA5 := h4.step (Step.cmd tA4 1 pA5 tA5 rfl)
  exact h5.step (Step.cmd tA5 0 pA6 tA6 rfl)

theorem reach_tB5 : Reachable tB5 := by
  have h0 : Reachable (initGame [] none) := Reachable.init [] none
  have h1 : Reachable tB1 := h0.step (Step.join _ ⟨"P0", false⟩)
  have h2 : Reachable tB2 := h1.step (Step.join tB1 ⟨"P1", false⟩)
  have h3 : Reachable tB3 := h2.step (Step.join tB2 ⟨"P2", false⟩)
  have h4 : Reachable tB4 := h3.step (Step.cmd tB3 0 pB4 tB4 rfl)
  exact h4.step (Step.cmd tB4 0 pB5 tB5 rfl)

theorem reach_tC5 : Reachable tC5 := by
  have h0 : Reachable (initGame [] none) := Reachable.init [] none
  have h1 : Reachable tC1 := h0.step (Step.join _ ⟨"P0", false⟩)
  have h2 : Reachable tC2 := h1.step (Step.join tC1 ⟨"P1", false⟩)
  have h3 : Reachable tC3 := h2.step (Step.cmd tC2 0 pC3 tC3 rfl)
  have h4 : Reachable tC4 := h3.step (Step.cmd tC3 0 pC4 tC4 rfl)
  exact h4.step (Step.cmd tC4 1 pC5 tC5 rfl)

theorem reach_tD1 : Reachable tD1 :=
  (Reachable.init [] none).step (Step.join _ ⟨"P0", false⟩)

theorem reach_tE7 : Reachable tE7 := by
  have h0 : Reachable (initGame [] (some 1)) := Reachable.init [] (some 1)
  have h1 : Reachable tE1 := h0.step (Step.join _ ⟨"P0", false⟩)
  have h2 : Reachable tE2 := h1.step (Step.join tE1 ⟨"P1", false⟩)
  have h3 : Reachable tE3 := h2.step (Step.join tE2 ⟨"P2", false⟩)
  have h4 : Reachable tE4 := h3.step (Step.cmd tE3 0 pE4 tE4 rfl)
  have h5 : Reachable tE5 := h4.step (Step.cmd tE4 1 pE5 tE5 rfl)
  have h6 : Reachable tE6 := h5.step (Step.cmd tE5 2 pE6 tE6 rfl)
  exact h6.step (Step.cmd tE6 2 pE7 tE7 rfl)

theorem reach_tH17 : Reachable tH17 := by
  have h2 : Reachable tH2 := reach_tA2
  have h3 : Reachable tH3 := h2.step (Step.cmd tH2 0 pH3 tH3 rfl)
  have h4 : Reachable tH4 := h3.step (Step.cmd tH3 0 (incomeP 4) tH4 rfl)
  have h5 : Reachable tH5 := h4.step (Step.cmd tH4 1 (incomeP 5) tH5 rfl)
  have h6 : Reachable tH6 := h5.step (Step.cmd tH5 0 pH6 tH6 rfl)
  have h7 : Reachable tH7 := h6.step (Step.cmd tH6 1 pH7 tH7 rfl)
  have h8 : Reachable tH8 := h7.step (Step.cmd tH7 1 pH8 tH8 rfl)
  have h9 : Reachable tH9 := h8.step (Step.cmd tH8 1 (incomeP 9) tH9 rfl)
  have h10 : Reachable tH10 := h9.step (Step.cmd tH9 0 (incomeP 10) tH10 rfl)
  have h11 : Reachable tH11 := h10.step (Step.cmd tH10 1 (incomeP 11) tH11 rfl)
  have h12 : Reachable tH12 := h11.step (Step.cmd tH11 0 (incomeP 12) tH12 rfl)
  have h13 : Reachable tH13 := h12.step (Step.cmd tH12 1 (incomeP 13) tH13 rfl)
  have h14 : Reachable tH14 := h13.step (Step.cmd tH13 0 (incomeP 14) tH14 rfl)
  have h15 : Reachable tH15 := h14.step (Step.cmd tH14 1 (incomeP 15) tH15 rfl)
  have h16 : Reachable tH16 := h15.step (Step.cmd tH15 0 pH16 tH16 rfl)
  exact h16.step (Step.cmd tH16 1 pH17 tH17 rfl)

theorem reach_tW5 : Reachable tW5 := by
  have h3 : Reachable tW3 := reach_tA2.step (Step.cmd tA2 0 pA3 tW3 rfl)
  have h4 : Reachable tW4 := h3.step (Step.join tW3 ⟨"O1", false⟩)
  exact h4.step (Step.join tW4 ⟨"O2", false⟩)

/-! ## Counterexamples and corrected statements -/

/-- C1 counterexample: a reachable state of a started game — two seats,
seat 0's false tax claim successfully challenged and one influence
revealed — where unrevealed influence (3) plus deck (11) plus open
exchange offer (0) is 14, not 3 × |roles| = 15.  A revealed influence
stays in its seat's slot and never returns to the deck, so the claimed sum
shrinks with every reveal. -/
theorem card_conservation_counterexample :
    Reachable tA6 ∧ inPlay tA6 ∧
      unrevealedInfluenceTotal tA6 + tA6.deck.length + exchangeOfferCount tA6 ≠
        3 * tA6.roles.length :=
  ⟨reach_tA6, by decide, by decide⟩

/-- C3 counterexample: in a reachable three-seat `ActionResponse`, an
`allow` from seat 1 (with seat 2 still outstanding) succeeds — it is not
rejected, and it records the allow — yet `stateId` is unchanged because the
engine deliberately skips the broadcast. -/
theorem stateId_increment_counterexample :
    Reachable tB5 ∧ command tB5 1 pB6 = Except.ok tB6 ∧
      tB6.stateId = tB5.stateId ∧ tB6.allows.getD 1 false = true :=
  ⟨reach_tB5, rfl, by decide, by decide⟩

/-- C4 counterexample: in a reachable `Interrogate` state the masked
snapshot delivered to the interrogator (seat 0) carries the confession
`"assassin"`, which is exactly the live target seat 1's unrevealed
first influence — seat 0 does observe another live seat's unrevealed role
value in its snapshot. -/
theorem masking_counterexample :
    Reachable tC5 ∧ tC5.st.name = StateName.interrogate ∧
      (maskState tC5 0).playerIdx = 0 ∧
      (maskState tC5 0).st.confession = some "assassin" ∧
      (getP tC5 1).influence.getD 0 ⟨"", true⟩ = ⟨"assassin", false⟩ ∧
      (getP tC5 1).influenceCount > 0 :=
  ⟨reach_tC5, by decide, by decide, by decide, by decide, by decide⟩

/-- C5 counterexample: from a reachable `WaitingForPlayers` with a single
seat, the `start` command is not rejected: it succeeds, changes nothing but
the broadcast id, and still broadcasts (`stateId` increments). -/
theorem start_counterexample :
    Reachable tD1 ∧ tD1.st.name = StateName.waitingForPlayers ∧ tD1.numPlayers = 1 ∧
      command tD1 0 pD2 = Except.ok tD2 ∧
      tD2.st.name = StateName.waitingForPlayers ∧ tD2.stateId = tD1.stateId + 1 :=
  ⟨reach_tD1, by decide, by decide, rfl, by decide, by decide⟩

/-- C6 counterexample: in a reachable `FinalActionResponse` whose original
target is seat 0, a block from seat 2 — a seat other than the target — is
not rejected: it is accepted and moves the game to `BlockResponse` with
seat 2 as the blocker. -/
theorem final_response_counterexample :
    Reachable tE7 ∧ tE7.st.name = StateName.finalActionResponse ∧
      tE7.st.target = some 0 ∧
      command tE7 2 pE8 = Except.ok tE8 ∧
      tE8.st.name = StateName.blockResponse ∧ tE8.st.target = some 2 :=
  ⟨reach_tE7, by decide, by decide, rfl, by decide, by decide⟩

/-- C7 counterexample: a reachable `BlockResponse` where the pending
action is assassinate, the blocker (seat 1) is its target and holds a
single unrevealed influence and no contessa; the successful challenge
costs that seat one influence — from 1 unrevealed to 0 — not two. -/
theorem double_loss_counterexample :
    Reachable tH17 ∧ tH17.st.name = StateName.blockResponse ∧
      tH17.st.action = some "assassinate" ∧ tH17.st.target = some 1 ∧
      indexOfInfluence (getP tH17 1) "contessa" = none ∧
      command tH17 0 pH18 = Except.ok tH18 ∧
      unrevealedOf (getP tH17 1) = 1 ∧ unrevealedOf (getP tH18 1) = 0 ∧
      unrevealedOf (getP tH17 1) - unrevealedOf (getP tH18 1) ≠ 2 :=
  ⟨reach_tH17, by decide, by decide, by decide, by decide, rfl, by decide, by decide, by decide⟩

/-- C8: the code stalls on a departed seat.  In a reachable
`FinalActionResponse` whose target is seat 0, seat 0's disconnect leaves
the state in `FinalActionResponse` still naming the departed seat as
target, and every seat's `allow` — including the two remaining live
seats' — is rejected, so no allow can ever resolve the window. -/
theorem far_disconnect_stalls_game :
    Reachable tE7 ∧ tE7.st.name = StateName.finalActionResponse ∧
      tE7.st.target = some 0 ∧
      playerLeft tE7 0 false = Except.ok tE8L ∧
      tE8L.st.name = StateName.finalActionResponse ∧ tE8L.st.target = some 0 ∧
      tE8L.conns.getD 0 none = none ∧
      (submit tE8L 0 { stateId := some 9, command := "allow" }).2.isSome ∧
      (submit tE8L 1 { stateId := some 9, command := "allow" }).2.isSome ∧
      (submit tE8L 2 { stateId := some 9, command := "allow" }).2.isSome :=
  ⟨reach_tE7, by decide, by decide, rfl, by decide, by decide, by decide,
    by decide, by decide, by decide⟩

/-- C9 counterexample: in a reachable started game, the observer who
joined fourth receives a no-op handle; after the observer in seat 2 leaves,
the splice rewires the surviving observer's handle (now at index 2) into
the real dispatcher for seat 2, and invoking it raises a stale-state
error — so the handle is not a no-op for the whole game lifetime. -/
theorem observer_noop_counterexample :
    Reachable tW5 ∧ tW5j.2 = ProxyB.noop ∧ (getP tW5 3).isObserver = true ∧
      tW5.proxies.getD 3 ProxyB.noop = ProxyB.noop ∧
      playerLeft tW5 2 false = Except.ok tW6 ∧
      tW6.proxies.getD 2 (ProxyB.real 99) = ProxyB.real 2 ∧
      invokeProxy (tW6.proxies.getD 2 ProxyB.noop) tW6 { stateId := some 1, command := "allow" } =
        Except.error "Stale state" :=
  ⟨reach_tW5, by decide, by decide, by decide, rfl, by decide, rfl⟩

/-- C9 amended: a seat that joins as an observer is handed a no-op
`command` handle, and invoking a no-op handle never raises an error,
never mutates the game and never broadcasts (the state, including
`stateId`, is returned untouched).  This holds only while no lower-indexed
seat removal has rewired the handle (see the counterexample). -/
theorem observer_command_noop (g : Game) (info : JoinInfo) (p : Payload)
    (hfull : canJoin g = false) :
    (playerJoined g info).2 = ProxyB.noop ∧
      ∀ g' : Game, invokeProxy ProxyB.noop g' p = Except.ok g' := by
  refine ⟨?_, fun g' => rfl⟩
  unfold playerJoined
  simp [hfull]

theorem observer_command_noop_witness :
    canJoin tW3 = false ∧ (playerJoined tW3 ⟨"O1", false⟩).2 = ProxyB.noop ∧
      invokeProxy ProxyB.noop tW3 { stateId := some 1, command := "allow" } =
        Except.ok tW3 := by
  refine ⟨by decide, ?_, ?_⟩
  · exact (observer_command_noop tW3 ⟨"O1", false⟩
      { stateId := some 1, command := "allow" } (by decide)).1
  · exact (observer_command_noop tW3 ⟨"O1", false⟩
      { stateId := some 1, command := "allow" } (by decide)).2 tW3

/-- C4 amended: in every masked snapshot, every unrevealed influence slot
of every seat other than the viewer reads the sentinel `"unknown"`; and
unless the viewer is the seat named by `state.playerIdx`, the snapshot's
`exchangeOptions` and `confession` are cleared.  The one remaining channel
by which a snapshot carries another live seat's unrevealed role is the
interrogate confession delivered to the interrogator (the counterexample),
which is by design. -/
theorem masking_correct (g : Game) (a b : Nat) (hab : b ≠ a) (pb : PlayerState)
    (hb : g.players.get? b = some pb) :
    (∃ mb, (maskState g a).players.get? b = some mb ∧
        ∀ s ∈ mb.influence, s.revealed = false → s.role = "unknown") ∧
      (g.st.playerIdx ≠ some a →
        (maskState g a).st.exchangeOptions = [] ∧ (maskState g a).st.confession = none) := by
  constructor
  · have hmb : (maskState g a).players.get? b =
        some (if b = a then pb else { pb with influence := pb.influence.map fun s =>
          if s.revealed then s else { s with role := "unknown" } }) := by
      show (g.players.mapIdx _).get? b = _
      rw [List.get?_eq_getElem?, List.getElem?_mapIdx, ← List.get?_eq_getElem?, hb]
      rfl
    rw [if_neg hab] at hmb
    refine ⟨_, hmb, ?_⟩
    intro s hs hrev
    obtain ⟨s0, _, rfl⟩ := List.mem_map.mp hs
    by_cases h0 : s0.revealed = true
    · rw [if_pos h0] at hrev
      exact absurd hrev (by simp [h0])
    · rw [if_neg h0]
  · intro hne
    unfold maskState
    rw [if_pos hne]
    exact ⟨rfl, rfl⟩

theorem masking_correct_witness :
    (∃ mb, (maskState tC5 1).players.get? 0 = some mb ∧
        ∀ s ∈ mb.influence, s.revealed = false → s.role = "unknown") ∧
      ((maskState tC5 1).st.exchangeOptions = [] ∧ (maskState tC5 1).st.confession = none) := by
  have h := masking_correct tC5 1 0 (by decide) (getP tC5 0) rfl
  exact ⟨h.1, h.2 (by decide)⟩

/-- `start` throws outside `WaitingForPlayers`. -/
theorem start_incorrect_state {g : Game} {gt : Option String}
    (h : g.st.name ≠ StateName.waitingForPlayers) :
    start g gt = Except.error "Incorrect state" := by
  unfold start
  rw [if_pos h]

/-- `start` with fewer than `MIN_PLAYERS` seats silently does nothing. -/
theorem start_too_few {g : Game} {gt : Option String}
    (h1 : g.st.name = StateName.waitingForPlayers) (h2 : g.numPlayers < 2) :
    start g gt = Except.ok g := by
  unfold start
  rw [if_neg (by simp [h1]), if_neg (by simp [MIN_PLAYERS]; omega)]

/-- `start` with at least `MIN_PLAYERS` seats deals and enters
`StartOfTurn` without touching the broadcast id. -/
theorem start_enough {g : Game} {gt : Option String}
    (h1 : g.st.name = StateName.waitingForPlayers) (h2 : 2 ≤ g.numPlayers) :
    ∃ g', start g gt = Except.ok g' ∧ g'.st.name = StateName.startOfTurn ∧
      g'.stateId = g.stateId := by
  unfold start
  rw [if_neg (by simp [h1]), if_pos (by simpa [MIN_PLAYERS] using h2)]
  exact ⟨_, rfl, rfl, rfl⟩

/-- Reduction of `command` to `start` in the start branch. -/
theorem command_start_eq {g : Game} {i : Nat} {pl : PlayerState} {p : Payload}
    (hmem : g.players.get? i = some pl) (hsid : p.stateId = some g.stateId)
    (hcmd : p.command = "start") :
    command g i p =
      match start g p.gameType with
      | Except.error e => Except.error e
      | Except.ok g1 => Except.ok (emitState g1) := by
  unfold command
  split
  next hnone => rw [hmem] at hnone; cases hnone
  next pl' hmem' =>
    rw [if_neg (by simp [hsid]), if_pos hcmd]

/-- C5 amended: with a matching `stateId`, the `start` command from
`WaitingForPlayers` with at least 2 seats (observers included — the guard
counts all seats) succeeds and enters `StartOfTurn`; from
`WaitingForPlayers` with fewer than 2 seats it is NOT rejected — it
changes nothing but still broadcasts, incrementing `stateId`; from any
other state it is rejected with an error and the state is unchanged. -/
theorem start_rules (g : Game) (i : Nat) (pl : PlayerState) (p : Payload)
    (hmem : g.players.get? i = some pl)
    (hsid : p.stateId = some g.stateId)
    (hcmd : p.command = "start") :
    (g.st.name ≠ StateName.waitingForPlayers →
      (submit g i p).1 = g ∧ (submit g i p).2.isSome) ∧
      (g.st.name = StateName.waitingForPlayers → 2 ≤ g.numPlayers →
        ∃ g', command g i p = Except.ok g' ∧ g'.st.name = StateName.startOfTurn ∧
          g'.stateId = g.stateId + 1) ∧
      (g.st.name = StateName.waitingForPlayers → g.numPlayers < 2 →
        command g i p = Except.ok (emitState g)) := by
  have hc := command_start_eq hmem hsid hcmd
  refine ⟨fun hne => ?_, fun hw h2 => ?_, fun hw h2 => ?_⟩
  · rw [start_incorrect_state hne] at hc
    exact submit_of_error hc
  · obtain ⟨g', hg', hname, hsidq⟩ := @start_enough g p.gameType hw h2
    rw [hg'] at hc
    exact ⟨emitState g', hc, hname, by simp [emitState, hsidq]⟩
  · rw [start_too_few hw h2] at hc
    exact hc

theorem start_rules_witness :
    (∃ g', command tA2 0 pA3 = Except.ok g' ∧ g'.st.name = StateName.startOfTurn ∧
        g'.stateId = tA2.stateId + 1) ∧
      command tD1 0 pD2 = Except.ok (emitState tD1) := by
  constructor
  · exact (start_rules tA2 0 (getP tA2 0) pA3 rfl (by decide) (by decide)).2.1
      (by decide) (by decide)
  · exact (start_rules tD1 0 (getP tD1 0) pD2 rfl (by decide) (by decide)).2.2
      (by decide) (by decide)

/-! ## Lemmas about the response-window machinery -/

theorem nextTurn_st_name {g : Game} (h : g.st.name ≠ StateName.gameWon) :
    (nextTurn g).st.name = StateName.startOfTurn := by
  unfold nextTurn
  rw [if_pos h]
  rfl

theorem playAction_steal (g : Game) (i : Nat) (aS : ActionState)
    (h : aS.action = some "steal") :
    (playAction g i aS).2 = true ∧ (playAction g i aS).1.st = g.st := by
  unfold playAction
  rw [if_neg (by simp [h]), if_neg (by simp [h]), if_pos h]
  dsimp only
  constructor
  · split <;> rfl
  · split <;> rfl

/-- Reduction of `command` to the `allow` branch. -/
theorem command_allow_eq {g : Game} {j : Nat} {pj : PlayerState} {p : Payload}
    (hmem : g.players.get? j = some pj) (hsid : p.stateId = some g.stateId)
    (hcmd : p.command = "allow") (halive : pj.influenceCount ≠ 0) :
    command g j p =
      match allow g j with
      | Except.error e => Except.error e
      | Except.ok (g1, stateChanged) =>
        if stateChanged then Except.ok (emitState g1) else Except.ok g1 := by
  unfold command
  split
  next hnone => rw [hmem] at hnone; cases hnone
  next pl' hmem' =>
    have hpl : pl' = pj := by rw [hmem] at hmem'; exact (Option.some.inj hmem').symm
    rw [if_neg (by simp [hsid]), if_neg (by simp [hcmd]), if_neg (by simp [hcmd]),
      if_neg (by simp [hcmd]), if_neg (by simp [hcmd]), if_neg (by simp [hcmd]),
      if_neg (by simp [hcmd]), if_neg (by simp [hcmd]), if_pos hcmd,
      if_neg (by rw [hpl]; exact halive)]

theorem allow_own_action {g : Game} {j : Nat}
    (hBRn : g.st.name ≠ StateName.blockResponse)
    (hor : g.st.name = StateName.actionResponse ∨ g.st.name = StateName.finalActionResponse)
    (hj : g.st.playerIdx = some j) :
    allow g j = Except.error "Cannot allow your own action" := by
  unfold allow
  rw [if_neg hBRn, if_pos hor, if_pos hj]

theorem allow_far_other {g : Game} {j : Nat}
    (hFAR : g.st.name = StateName.finalActionResponse)
    (hj : g.st.playerIdx ≠ some j) (hjt : g.st.target ≠ some j) :
    allow g j = Except.error "Only the targetted player can allow the action" := by
  unfold allow
  rw [if_neg (by simp [hFAR]), if_pos (Or.inr hFAR), if_neg hj, if_pos hFAR, if_pos hjt]

theorem allow_far_target {g : Game} {t : Nat}
    (hFAR : g.st.name = StateName.finalActionResponse)
    (hja : g.st.playerIdx ≠ some t) (htg : g.st.target = some t) :
    allow g t = Except.ok
      (if (playAction g (g.st.playerIdx.getD 0) g.st.toActionState).2 = true then
        nextTurn (playAction g (g.st.playerIdx.getD 0) g.st.toActionState).1
      else (playAction g (g.st.playerIdx.getD 0) g.st.toActionState).1, true) := by
  unfold allow
  rw [if_neg (by simp [hFAR]), if_pos (Or.inr hFAR), if_neg hja, if_pos hFAR,
    if_neg (by simp [htg])]

theorem actions_steal : actions "steal" = some
    { cost := 0, roles := some ["captain"],
      blockedBy := some ["captain", "ambassador", "inquisitor"], targeted := true } := rfl

/-- C6 amended: in every `FinalActionResponse` state, an `allow` is
accepted only from the original target — any other live seat's allow, the
actor's included, is rejected with an error and no state change; the
target's allow resolves the pending action (playing it and advancing the
turn when it ends).  A block, however, is NOT restricted to the target:
any live seat other than the actor claiming any valid blocking role (one
in the game's roles that blocks the pending action) enters
`BlockResponse` as the blocker. -/
theorem final_response_rules (g : Game) (a t : Nat) (action : ActionDef)
    (hFAR : g.st.name = StateName.finalActionResponse)
    (ha : g.st.playerIdx = some a)
    (ht : g.st.target = some t)
    (hat : a ≠ t)
    (hact : actions (g.st.action.getD "") = some action) :
    (∀ j pj p, g.players.get? j = some pj → pj.influenceCount ≠ 0 → j ≠ t →
        p.command = "allow" → p.stateId = some g.stateId →
        (submit g j p).1 = g ∧ (submit g j p).2.isSome) ∧
      (∀ pt p, g.players.get? t = some pt → pt.influenceCount ≠ 0 →
        p.command = "allow" → p.stateId = some g.stateId →
        command g t p = Except.ok (emitState
          (if (playAction g (g.st.playerIdx.getD 0) g.st.toActionState).2 = true then
            nextTurn (playAction g (g.st.playerIdx.getD 0) g.st.toActionState).1
          else (playAction g (g.st.playerIdx.getD 0) g.st.toActionState).1))) ∧
      (∀ j pj p r, g.players.get? j = some pj → pj.influenceCount ≠ 0 → j ≠ a →
        p.command = "block" → p.stateId = some g.stateId →
        p.blockingRole = some r → r ∈ g.roles → r ∈ action.blockedBy.getD [] →
        ∃ g', command g j p = Except.ok g' ∧ g'.st.name = StateName.blockResponse ∧
          g'.st.target = some j ∧ g'.st.blockingRole = some r) := by
  refine ⟨?_, ?_, ?_⟩
  · intro j pj p hmem halive hjt hcmd hsid
    have hc := command_allow_eq hmem hsid hcmd halive
    by_cases hja : j = a
    · rw [allow_own_action (by simp [hFAR]) (Or.inr hFAR) (by rw [ha, hja])] at hc
      exact submit_of_error hc
    · rw [allow_far_other hFAR (by simp [ha]; exact fun hh => hja hh.symm)
        (by simp [ht]; exact fun hh => hjt hh.symm)] at hc
      exact submit_of_error hc
  · intro pt p hmem halive hcmd hsid
    have hc := command_allow_eq hmem hsid hcmd halive
    rw [allow_far_target hFAR (by simp [ha]; exact fun hh => hat hh) ht] at hc
    exact hc
  · intro j pj p r hmem halive hja hcmd hsid hrole hrg hrb
    have hbne : action.blockedBy ≠ none := by
      intro hn
      rw [hn] at hrb
      simp at hrb
    unfold command
    split
    next hnone => rw [hmem] at hnone; cases hnone
    next pl' hmem' =>
      have hpl : pl' = pj := by rw [hmem] at hmem'; exact (Option.some.inj hmem').symm
      subst hpl
      rw [if_neg (by simp [hsid]), if_neg (by simp [hcmd]), if_neg (by simp [hcmd]),
        if_neg (by simp [hcmd]), if_neg (by simp [hcmd]), if_neg (by simp [hcmd]),
        if_neg (by simp [hcmd]), if_pos hcmd, if_neg halive,
        if_neg (by simp [hFAR])]
      rw [hact]
      dsimp only
      rw [if_neg (by rw [ha]; simp; exact fun hh => hja hh),
        if_neg hbne,
        if_neg (by simp [hrole]),
        if_neg (by rw [hrole]; simp only [Option.getD_some]; exact not_not_intro hrg),
        if_neg (by rw [hrole]; simp only [Option.getD_some]; exact not_not_intro hrb)]
      exact ⟨_, rfl, rfl, rfl, hrole⟩

/-! ## Influence-reveal machinery -/

theorem listModify_cons_zero {α : Type} (x : α) (xs : List α) (f : α → α) :
    listModify (x :: xs) 0 f = f x :: xs := rfl

theorem listModify_cons_succ {α : Type} (x : α) (xs : List α) (n : Nat) (f : α → α) :
    listModify (x :: xs) (n + 1) f = x :: listModify xs n f := by
  unfold listModify
  cases h : xs[n]? <;>
    simp [List.get?_eq_getElem?, h, List.getElem?_cons_succ, List.set_cons_succ]

/-- Revealing the first unrevealed slot removes exactly one slot from the
unrevealed count and preserves the slot count. -/
theorem revealList (l : List Influence)
    (h : (l.filter fun s => !s.revealed).length ≠ 0) :
    ∃ j, l.findIdx? (fun s => !s.revealed) = some j ∧
      ((listModify l j fun s => { s with revealed := true }).filter
          fun s => !s.revealed).length = (l.filter fun s => !s.revealed).length - 1 ∧
      (listModify l j fun s => { s with revealed := true }).length = l.length := by
  induction l with
  | nil => simp at h
  | cons s l ih =>
    by_cases hs : s.revealed = true
    · have h' : (l.filter fun s => !s.revealed).length ≠ 0 := by
        simpa [List.filter_cons, hs] using h
      obtain ⟨j, hj, hlen, hl⟩ := ih h'
      refine ⟨j + 1, ?_, ?_, ?_⟩
      · rw [List.findIdx?_cons]
        simp [hs, hj]
      · rw [listModify_cons_succ]
        simp only [List.filter_cons, hs]
        simpa using hlen
      · rw [listModify_cons_succ]
        simp [hl]
    · refine ⟨0, ?_, ?_, ?_⟩
      · rw [List.findIdx?_cons]
        simp [hs]
      · rw [listModify_cons_zero]
        simp [List.filter_cons, hs]
      · rw [listModify_cons_zero]
        simp

theorem revealFirst_spec (p : PlayerState) (h : unrevealedOf p ≠ 0) :
    (revealFirstInfluence p).2.influenceCount = p.influenceCount - 1 ∧
      unrevealedOf (revealFirstInfluence p).2 = unrevealedOf p - 1 ∧
      (revealFirstInfluence p).2.influence.length = p.influence.length := by
  obtain ⟨j, hj, hlen, hl⟩ := revealList p.influence h
  unfold revealFirstInfluence
  rw [hj]
  exact ⟨rfl, hlen, hl⟩

theorem getP_players_eq {g g' : Game} (h : g'.players = g.players) (i : Nat) :
    getP g' i = getP g i := by
  unfold getP
  rw [h]

theorem getP_setP_ne {g : Game} {i j : Nat} {x : PlayerState} (h : j ≠ i) :
    getP (setP g i x) j = getP g j := by
  unfold getP setP
  simp only [List.getD_eq_getElem?_getD]
  rw [List.getElem?_set_ne (fun hh => h hh.symm)]

theorem getP_setP_self {g : Game} {i : Nat} {x : PlayerState} (h : i < g.players.length) :
    getP (setP g i x) i = x := by
  unfold getP setP
  simp only [List.getD_eq_getElem?_getD]
  rw [List.getElem?_set_self h]
  rfl

theorem lt_length_of_get? {l : List PlayerState} {i : Nat} {x : PlayerState}
    (h : l.get? i = some x) : i < l.length := by
  rw [List.get?_eq_getElem?] at h
  by_contra hge
  rw [List.getElem?_eq_none (by omega)] at h
  cases h

theorem get?_setP_self {g : Game} {b : Nat} {x : PlayerState} (h : b < g.players.length) :
    (setP g b x).players.get? b = some x := by
  unfold setP
  rw [List.get?_eq_getElem?, List.getElem?_set_self h]

theorem afterPlayerDeath_players (g : Game) (i : Nat) :
    (afterPlayerDeath g i).players = g.players := by
  unfold afterPlayerDeath checkForGameEnd
  dsimp only
  split <;> rfl

theorem nextTurn_players (g : Game) : (nextTurn g).players = g.players := by
  unfold nextTurn
  split <;> rfl

theorem emitState_players (g : Game) : (emitState g).players = g.players := rfl

theorem setP_st (g : Game) (i : Nat) (x : PlayerState) : (setP g i x).st = g.st := rfl

theorem setP_players_length (g : Game) (i : Nat) (x : PlayerState) :
    (setP g i x).players.length = g.players.length := by
  unfold setP
  simp

/-- Resolving an allowed assassination against a target with a single
unrevealed influence reveals it and ends the turn. -/
theorem playAction_assassinate_kill (g : Game) (a' b : Nat) (aS : ActionState)
    (hact : aS.action = some "assassinate") (htq : aS.target = some b)
    (hne : a' ≠ b) (pb : PlayerState) (hmemb : g.players.get? b = some pb)
    (hcount1 : pb.influenceCount = 1) (hunrev : unrevealedOf pb = 1) :
    (playAction g a' aS).2 = true ∧
      (getP (playAction g a' aS).1 b).influenceCount = 0 ∧
      unrevealedOf (getP (playAction g a' aS).1 b) = 0 := by
  have hblt : b < g.players.length := lt_length_of_get? hmemb
  unfold playAction
  rw [if_pos hact]
  dsimp only
  rw [htq]
  simp only [Option.getD_some]
  have hgb : getP (setP g a' { getP g a' with
      cash := (getP g a' ).cash + ((actions (aS.action.getD "")).getD default).gain }) b = pb := by
    rw [getP_setP_ne (fun hh => hne hh.symm)]
    exact getP_of_get? hmemb
  simp only [hgb]
  rw [if_pos hcount1]
  obtain ⟨hc, hu, hl⟩ := revealFirst_spec pb (by rw [hunrev]; omega)
  refine ⟨rfl, ?_, ?_⟩
  · rw [getP_players_eq (afterPlayerDeath_players _ b) b]
    show (getP (setP _ b _) b).influenceCount = 0
    rw [getP_setP_self (by rw [setP_players_length]; exact hblt)]
    omega
  · rw [getP_players_eq (afterPlayerDeath_players _ b) b]
    show unrevealedOf (getP (setP _ b _) b) = 0
    rw [getP_setP_self (by rw [setP_players_length]; exact hblt)]
    omega

/-- A successful challenge of a contessa-style block of an assassinate
targeting the blocker: a blocker with two unrevealed influences loses
both. -/
theorem challenge_won_two_influences (g : Game) (i b a' : Nat) (pb : PlayerState) (br : Role)
    (hBR : g.st.name = StateName.blockResponse)
    (hact : g.st.action = some "assassinate")
    (ht : g.st.target = some b)
    (hbr : g.st.blockingRole = some br)
    (ha : g.st.playerIdx = some a') (hab : a' ≠ b)
    (hmemb : g.players.get? b = some pb)
    (hcnt : pb.influenceCount = 2) (hunrev : unrevealedOf pb = 2)
    (hnorole : indexOfInfluence pb br = none) :
    ∃ g1, challenge g i b br = Except.ok g1 ∧
      (getP g1 b).influenceCount = 0 ∧ unrevealedOf (getP g1 b) = 0 := by
  have hblt : b < g.players.length := lt_length_of_get? hmemb
  obtain ⟨hc', hu', hl'⟩ := revealFirst_spec pb (by rw [hunrev]; omega)
  unfold challenge
  split
  next hnone => rw [hmemb] at hnone; cases hnone
  next pb' hmemb' =>
    have hpb : pb' = pb := by rw [hmemb] at hmemb'; exact (Option.some.inj hmemb').symm
    rw [hpb]
    split
    next j hj => rw [hnorole] at hj; cases hj
    next hj =>
      rw [if_pos (by simp [hBR, hact, ht])]
      dsimp only
      have hne0 : ¬((revealFirstInfluence pb).2.influenceCount = 0) := by
        rw [hc', hcnt]
        omega
      rw [if_neg hne0]
      have hsucc : afterSuccessfulChallenge (setP g b (revealFirstInfluence pb).2) =
          playAction (setP g b (revealFirstInfluence pb).2) (g.st.playerIdx.getD 0)
            g.st.toActionState := by
        unfold afterSuccessfulChallenge
        rw [if_pos (by show (setP _ _ _).st.blockingRole.isSome = true; rw [setP_st, hbr]; rfl)]
        rfl
      rw [hsucc]
      obtain ⟨hend, hcnt0, hunrev0⟩ := playAction_assassinate_kill
        (setP g b (revealFirstInfluence pb).2) (g.st.playerIdx.getD 0) b g.st.toActionState
        (by show g.st.action = _; exact hact) (by show g.st.target = _; exact ht)
        (by rw [ha]; exact hab) (revealFirstInfluence pb).2 (get?_setP_self hblt)
        (by rw [hc', hcnt]) (by rw [hu', hunrev])
      rw [hend, if_pos rfl]
      refine ⟨_, rfl, ?_, ?_⟩
      · rw [getP_players_eq (nextTurn_players _) b]
        exact hcnt0
      · rw [getP_players_eq (nextTurn_players _) b]
        exact hunrev0

/-- Reduction of `command` to the `challenge` call in `BlockResponse`. -/
theorem command_challenge_BR_eq {g : Game} {i : Nat} {pi : PlayerState} {p : Payload}
    (hmem : g.players.get? i = some pi) (hsid : p.stateId = some g.stateId)
    (hcmd : p.command = "challenge") (halive : pi.influenceCount ≠ 0)
    (hBR : g.st.name = StateName.blockResponse) (hit : g.st.target ≠ some i) :
    command g i p =
      match challenge g i (g.st.target.getD 0) (g.st.blockingRole.getD "undefined") with
      | Except.error e => Except.error e
      | Except.ok g1 => Except.ok (emitState g1) := by
  unfold command
  split
  next hnone => rw [hmem] at hnone; cases hnone
  next pl' hmem' =>
    have hpl : pl' = pi := by rw [hmem] at hmem'; exact (Option.some.inj hmem').symm
    rw [if_neg (by simp [hsid]), if_neg (by simp [hcmd]), if_neg (by simp [hcmd]),
      if_neg (by simp [hcmd]), if_neg (by simp [hcmd]), if_pos hcmd,
      if_neg (by rw [hpl]; exact halive), if_neg (by simp [hBR]), if_pos hBR,
      if_neg (fun hh => hit hh.symm)]

/-- C7 amended: in a `BlockResponse` where the pending action is
assassinate and the blocking seat is the assassination's target, a
successful challenge of the block costs the blocker two influences when it
holds two unrevealed influences: both are revealed and the seat ends with
none.  (A blocker holding a single unrevealed influence loses only that
one — see the counterexample.) -/
theorem double_loss_on_failed_contessa_block (g : Game) (i b a' : Nat)
    (pi pb : PlayerState) (br : Role) (p : Payload)
    (hBR : g.st.name = StateName.blockResponse)
    (hact : g.st.action = some "assassinate")
    (ht : g.st.target = some b)
    (hbr : g.st.blockingRole = some br)
    (ha : g.st.playerIdx = some a') (hab : a' ≠ b)
    (hmem : g.players.get? i = some pi) (halive : pi.influenceCount ≠ 0) (hib : i ≠ b)
    (hmemb : g.players.get? b = some pb)
    (hcnt : pb.influenceCount = 2) (hunrev : unrevealedOf pb = 2)
    (hnorole : indexOfInfluence pb br = none)
    (hcmd : p.command = "challenge") (hsid : p.stateId = some g.stateId) :
    ∃ g', command g i p = Except.ok g' ∧
      (getP g' b).influenceCount = 0 ∧ unrevealedOf (getP g' b) = 0 := by
  have hc := command_challenge_BR_eq hmem hsid hcmd halive hBR
    (by rw [ht]; exact fun hh => hib (Option.some.inj hh).symm)
  obtain ⟨g1, hg1, hcnt0, hunrev0⟩ := challenge_won_two_influences g i b a' pb br
    hBR hact ht hbr ha hab hmemb hcnt hunrev hnorole
  rw [ht] at hc
  simp only [Option.getD_some] at hc
  rw [hbr] at hc
  simp only [Option.getD_some] at hc
  rw [hg1] at hc
  refine ⟨emitState g1, hc, ?_, ?_⟩
  · rw [getP_players_eq (emitState_players g1) b]
    exact hcnt0
  · rw [getP_players_eq (emitState_players g1) b]
    exact hunrev0

theorem double_loss_on_failed_contessa_block_witness :
    ∃ g', command tH17x 0 pH18 = Except.ok g' ∧
      (getP g' 1).influenceCount = 0 ∧ unrevealedOf (getP g' 1) = 0 :=
  double_loss_on_failed_contessa_block tH17x 0 1 0 (getP tH17x 0) (getP tH17x 1)
    "contessa" pH18 (by decide) (by decide) (by decide) (by decide) (by decide)
    (by decide) rfl (by decide) (by decide) rfl (by decide) (by decide) (by decide)
    rfl (by decide)

theorem final_response_rules_witness :
    ((submit tE7 2 { stateId := some 8, command := "allow" }).1 = tE7 ∧
        (submit tE7 2 { stateId := some 8, command := "allow" }).2.isSome) ∧
      (∃ g', command tE7 0 { stateId := some 8, command := "allow" } = Except.ok g' ∧
        g'.st.name = StateName.startOfTurn) ∧
      (∃ g', command tE7 2 pE8 = Except.ok g' ∧ g'.st.name = StateName.blockResponse ∧
        g'.st.target = some 2 ∧ g'.st.blockingRole = some "ambassador") := by
  obtain ⟨h1, h2, h3⟩ := final_response_rules tE7 1 0
    { cost := 0, roles := some ["captain"],
      blockedBy := some ["captain", "ambassador", "inquisitor"], targeted := true }
    (by decide) (by decide) (by decide) (by decide) rfl
  refine ⟨h1 2 (getP tE7 2) _ rfl (by decide) (by decide) rfl (by decide), ?_, ?_⟩
  · exact ⟨_, h2 (getP tE7 0) _ rfl (by decide) rfl (by decide), by decide⟩
  · exact h3 2 (getP tE7 2) _ "ambassador" rfl (by decide) (by decide) rfl (by decide)
      rfl (by decide) (by decide)

/-! ## Broadcast id accounting -/

theorem setP_stateId (g : Game) (i : Nat) (x : PlayerState) :
    (setP g i x).stateId = g.stateId := rfl

theorem setState_stateId (g : Game) (s : StateRec) : (setState g s).stateId = g.stateId := rfl

theorem swapRole_stateId (g : Game) (r : Role) : (swapRole g r).2.stateId = g.stateId := rfl

theorem destroyGame_stateId (g : Game) : (destroyGame g).stateId = g.stateId := rfl

theorem emitState_stateId (g : Game) : (emitState g).stateId = g.stateId + 1 := rfl

theorem resetAllows_stateId (g : Game) (i : Nat) : (resetAllows g i).stateId = g.stateId := rfl

theorem afterPlayerDeath_stateId (g : Game) (i : Nat) :
    (afterPlayerDeath g i).stateId = g.stateId := by
  unfold afterPlayerDeath checkForGameEnd
  dsimp only
  split <;> rfl

theorem checkForGameEnd_stateId (g : Game) : (checkForGameEnd g).1.stateId = g.stateId := by
  unfold checkForGameEnd
  dsimp only
  split <;> rfl

theorem nextTurn_stateId (g : Game) : (nextTurn g).stateId = g.stateId := by
  unfold nextTurn
  split <;> rfl

theorem playAction_stateId (g : Game) (i : Nat) (aS : ActionState) :
    (playAction g i aS).1.stateId = g.stateId := by
  unfold playAction
  dsimp only
  split_ifs <;> simp [afterPlayerDeath_stateId, setState, setP]

theorem afterSuccessfulChallenge_stateId (g : Game) :
    (afterSuccessfulChallenge g).1.stateId = g.stateId := by
  unfold afterSuccessfulChallenge
  split_ifs
  · exact playAction_stateId g _ _
  · rfl

theorem afterIncorrectChallenge_stateId (g : Game) :
    (afterIncorrectChallenge g).1.stateId = g.stateId := by
  unfold afterIncorrectChallenge
  dsimp only
  split_ifs
  · rfl
  · rfl
  · exact playAction_stateId g _ _

theorem challenge_stateId {g : Game} {i c : Nat} {r : Role} {g1 : Game}
    (h : challenge g i c r = Except.ok g1) : g1.stateId = g.stateId := by
  unfold challenge at h
  split at h
  · cases h
  · split at h <;> dsimp only at h <;> split_ifs at h <;>
      simp only [Except.ok.injEq] at h <;> subst h <;>
      simp only [nextTurn_stateId, afterPlayerDeath_stateId, afterIncorrectChallenge_stateId,
        afterSuccessfulChallenge_stateId, setP_stateId, setState_stateId, swapRole_stateId]

theorem allow_stateId {g : Game} {j : Nat} {g1 : Game} {b : Bool}
    (h : allow g j = Except.ok (g1, b)) : g1.stateId = g.stateId := by
  unfold allow at h
  dsimp only at h
  split_ifs at h <;>
    simp only [Except.ok.injEq, Prod.mk.injEq, reduceCtorEq] at h <;>
    (obtain ⟨h1, h2⟩ := h; subst h1) <;>
    first
      | rfl
      | rw [nextTurn_stateId, playAction_stateId]
      | rw [nextTurn_stateId]
      | rw [playAction_stateId]

theorem start_stateId {g : Game} {gt : Option String} {g1 : Game}
    (h : start g gt = Except.ok g1) : g1.stateId = g.stateId := by
  unfold start at h
  split_ifs at h
  any_goals cases h
  all_goals rfl

theorem playerJoined_stateId (g : Game) (info : JoinInfo) :
    (playerJoined g info).1.stateId = g.stateId + 1 := rfl

theorem playerLeftFinish_stateId (g : Game) :
    (playerLeftFinish g).stateId = g.stateId + 1 := by
  unfold playerLeftFinish
  dsimp only
  split <;> rfl

theorem playerLeft_stateId {g : Game} {i : Nat} {rj : Bool} {g1 : Game}
    (h : playerLeft g i rj = Except.ok g1) : g1.stateId = g.stateId + 1 := by
  unfold playerLeft at h
  split at h
  · cases h
  · split at h
    · cases h
    · split at h
      · cases h
      · split at h
        · cases h
          rw [playerLeftFinish_stateId]
        · dsimp only at h
          split at h
          · split at h
            · split at h
              · cases h
                rw [playerLeftFinish_stateId, nextTurn_stateId, checkForGameEnd_stateId]
                rfl
              · split at h
                · cases h
                  rw [playerLeftFinish_stateId, nextTurn_stateId, checkForGameEnd_stateId]
                  rfl
                · split at h
                  · split at h
                    · cases h
                    next g4 hb heq =>
                      cases h
                      rw [playerLeftFinish_stateId, allow_stateId heq, checkForGameEnd_stateId]
                      rfl
                  · cases h
                    rw [playerLeftFinish_stateId, checkForGameEnd_stateId]
                    rfl
            · cases h
              rw [playerLeftFinish_stateId, checkForGameEnd_stateId]
              rfl
          · cases h
            rw [playerLeftFinish_stateId]

theorem removeAiPlayer_stateId {g : Game} {g1 : Game}
    (h : removeAiPlayer g = Except.ok g1) :
    g1.stateId = g.stateId ∨ g1.stateId = g.stateId + 1 := by
  unfold removeAiPlayer at h
  split at h
  · exact Or.inr (playerLeft_stateId h)
  · cases h
    exact Or.inl rfl

set_option maxHeartbeats 2000000 in
/-- C3 amended: a successful command raises `stateId` by exactly 1, with
two exceptions visible in the dispatcher: a successful `allow` that does
not complete its response window broadcasts nothing and leaves `stateId`
unchanged, and `add-ai` / `remove-ai` also broadcast for the seat that
joins or leaves inside the command, raising `stateId` by 2.  In every case
`stateId` never decreases; rejected commands leave the state untouched. -/
theorem stateId_monotonic (g : Game) (i : Nat) (p : Payload) (g' : Game)
    (h : command g i p = Except.ok g') :
    g.stateId ≤ g'.stateId ∧
      (g'.stateId = g.stateId + 1 ∨
        (p.command = "allow" ∧ g'.stateId = g.stateId) ∨
        ((p.command = "add-ai" ∨ p.command = "remove-ai") ∧ g'.stateId = g.stateId + 2)) := by
  suffices hd : g'.stateId = g.stateId + 1 ∨
      (p.command = "allow" ∧ g'.stateId = g.stateId) ∨
      ((p.command = "add-ai" ∨ p.command = "remove-ai") ∧ g'.stateId = g.stateId + 2) by
    refine ⟨?_, hd⟩
    rcases hd with h1 | ⟨_, h2⟩ | ⟨_, h3⟩ <;> omega
  unfold command at h
  split at h
  · cases h
  next player hmem =>
    by_cases hsid : p.stateId ≠ some g.stateId
    · rw [if_pos hsid] at h
      cases h
    rw [if_neg hsid] at h
    by_cases hc1 : p.command = "start"
    · rw [if_pos hc1] at h
      split at h
      · cases h
      next g1 heq =>
        cases h
        rw [emitState_stateId, start_stateId heq]
        exact Or.inl rfl
    rw [if_neg hc1] at h
    by_cases hc2 : p.command = "add-ai"
    · rw [if_pos hc2] at h
      split at h
      · cases h
      · cases h
        refine Or.inr (Or.inr ⟨Or.inl hc2, ?_⟩)
        rw [emitState_stateId, playerJoined_stateId]
    rw [if_neg hc2] at h
    by_cases hc3 : p.command = "remove-ai"
    · rw [if_pos hc3] at h
      split at h
      · cases h
      · split at h
        · cases h
        next g1 heq =>
          cases h
          rw [emitState_stateId]
          rcases removeAiPlayer_stateId heq with h1 | h2
          · rw [h1]
            exact Or.inl rfl
          · rw [h2]
            exact Or.inr (Or.inr ⟨Or.inr hc3, rfl⟩)
    rw [if_neg hc3] at h
    by_cases hc4 : p.command = "play-action"
    · rw [if_pos hc4] at h
      split at h
      · cases h
      split at h
      · cases h
      split at h
      · cases h
      next action hact =>
        split at h
        · cases h
        split at h
        · cases h
        split at h
        · cases h
        split at h
        · cases h
        split at h
        · cases h
        split at h
        · cases h
        dsimp only at h
        split at h
        · cases h
          rw [emitState_stateId]
          refine Or.inl ?_
          congr 1
          split
          · rw [nextTurn_stateId, playAction_stateId]
            rfl
          · rw [playAction_stateId]
            rfl
        · cases h
          exact Or.inl rfl
    rw [if_neg hc4] at h
    by_cases hc5 : p.command = "challenge"
    · rw [if_pos hc5] at h
      split at h
      · cases h
      split at h
      · split at h
        · cases h
        split at h
        · cases h
        next action hact =>
          split at h
          · cases h
          · split at h
            · cases h
            next g1 heq =>
              cases h
              rw [emitState_stateId, challenge_stateId heq]
              exact Or.inl rfl
      split at h
      · split at h
        · cases h
        · split at h
          · cases h
          next g1 heq =>
            cases h
            rw [emitState_stateId, challenge_stateId heq]
            exact Or.inl rfl
      · cases h
    rw [if_neg hc5] at h
    by_cases hc6 : p.command = "reveal"
    · rw [if_pos hc6] at h
      split at h
      · cases h
      split at h
      · cases h
      split at h
      · cases h
      next j hj =>
        dsimp only at h
        split at h
        · cases h
          rw [emitState_stateId]
          refine Or.inl ?_
          congr 1
          split
          · rw [nextTurn_stateId, afterIncorrectChallenge_stateId]
            rfl
          · rw [afterIncorrectChallenge_stateId]
            rfl
        split at h
        · cases h
          rw [emitState_stateId]
          refine Or.inl ?_
          congr 1
          split
          · rw [nextTurn_stateId, afterSuccessfulChallenge_stateId]
            rfl
          · rw [afterSuccessfulChallenge_stateId]
            rfl
        · cases h
          rw [emitState_stateId]
          refine Or.inl ?_
          congr 1
          rw [nextTurn_stateId]
          rfl
    rw [if_neg hc6] at h
    by_cases hc7 : p.command = "block"
    · rw [if_pos hc7] at h
      split at h
      · cases h
      split at h
      · cases h
      split at h
      · cases h
      next action hact =>
        split at h
        · cases h
        split at h
        · cases h
        split at h
        · cases h
        split at h
        · cases h
        split at h
        · cases h
        cases h
        exact Or.inl rfl
    rw [if_neg hc7] at h
    by_cases hc8 : p.command = "allow"
    · rw [if_pos hc8] at h
      split at h
      · cases h
      split at h
      · cases h
      next g1 sc heq =>
        split at h
        · cases h
          rw [emitState_stateId, allow_stateId heq]
          exact Or.inl rfl
        · cases h
          exact Or.inr (Or.inl ⟨hc8, allow_stateId heq⟩)
    rw [if_neg hc8] at h
    by_cases hc9 : p.command = "exchange"
    · rw [if_pos hc9] at h
      split at h
      · cases h
      split at h
      · cases h
      split at h
      · cases h
      next roles hroles =>
        split at h
        · cases h
        split at h
        · cases h
        next unchosen hunch =>
          dsimp only at h
          cases h
          rw [emitState_stateId]
          refine Or.inl ?_
          congr 1
          rw [nextTurn_stateId]
          rfl
    rw [if_neg hc9] at h
    by_cases hc10 : p.command = "interrogate"
    · rw [if_pos hc10] at h
      split at h
      · cases h
      split at h
      · cases h
      split at h
      · dsimp only at h
        cases hscr : indexOfInfluence (getP g (g.st.target.getD 0))
            (g.st.confession.getD "undefined") with
        | none =>
          rw [hscr] at h
          cases h
        | some idx =>
          rw [hscr] at h
          dsimp only at h
          cases h
          rw [emitState_stateId]
          refine Or.inl ?_
          congr 1
          rw [nextTurn_stateId]
          rfl
      · cases h
        rw [emitState_stateId]
        refine Or.inl ?_
        congr 1
        rw [nextTurn_stateId]
    rw [if_neg hc10] at h
    cases h


theorem stateId_monotonic_witness :
    tA2.stateId ≤ tA3.stateId ∧
      (tA3.stateId = tA2.stateId + 1 ∨
        (pA3.command = "allow" ∧ tA3.stateId = tA2.stateId) ∨
        ((pA3.command = "add-ai" ∨ pA3.command = "remove-ai") ∧
          tA3.stateId = tA2.stateId + 2)) :=
  stateId_monotonic tA2 0 pA3 tA3 rfl


/-! ## Card conservation: definitions -/

def cardSum (g : Game) : Nat :=
  slotCount g + g.deck.length + drawnCount g

def activePlay (g : Game) : Prop :=
  g.st.name ≠ StateName.waitingForPlayers ∧ g.st.name ≠ StateName.destroyed ∧
    g.st.name ≠ StateName.gameWon

def okPlayer (q : PlayerState) : Prop :=
  (q.isObserver = true → q.influence = []) ∧
  (q.isObserver = false → q.influence.length = 2) ∧
  q.influenceCount = unrevealedOf q

def Inv (g : Game) : Prop :=
  (∀ q ∈ g.players, okPlayer q) ∧ nonObsCount g ≤ 6 ∧
    (g.st.name = StateName.destroyed → g.st.playerIdx = none) ∧
    (activePlay g → g.roles.length = 5 ∧ cardSum g = 15)

/-! ## List-level lemmas -/

theorem sum_map_set {α : Type} (f : α → Nat) (l : List α) (i : Nat) (x : α)
    (h : ∀ hi : i < l.length, f x = f l[i]) :
    ((l.set i x).map f).sum = (l.map f).sum := by
  induction l generalizing i with
  | nil => rfl
  | cons a l ih =>
    cases i with
    | zero =>
      simp only [List.set_cons_zero, List.map_cons, List.sum_cons]
      rw [h (by simp)]
      rfl
    | succ n =>
      simp only [List.set_cons_succ, List.map_cons, List.sum_cons]
      rw [ih n (fun hi => h (by simpa using Nat.succ_lt_succ hi))]

theorem filter_length_set {α : Type} (pr : α → Bool) (l : List α) (i : Nat) (x : α)
    (h : ∀ hi : i < l.length, pr x = pr l[i]) :
    ((l.set i x).filter pr).length = (l.filter pr).length := by
  induction l generalizing i with
  | nil => rfl
  | cons a l ih =>
    cases i with
    | zero =>
      have hx : pr x = pr a := h (by simp)
      simp only [List.set_cons_zero, List.filter_cons, hx]
      cases hpa : pr a <;> simp [hpa]
    | succ n =>
      simp only [List.set_cons_succ, List.filter_cons]
      have hr := ih n (fun hi => h (by simpa using Nat.succ_lt_succ hi))
      cases hpa : pr a <;> simp [hpa, hr]

theorem filter_length_set_off {α : Type} (pr : α → Bool) (l : List α) (i : Nat) (x : α)
    (hi : i < l.length) (hold : pr l[i] = true) (hnew : pr x = false) :
    ((l.set i x).filter pr).length + 1 = (l.filter pr).length := by
  induction l generalizing i with
  | nil => simp at hi
  | cons a l ih =>
    cases i with
    | zero =>
      simp only [List.getElem_cons_zero] at hold
      simp [List.set_cons_zero, List.filter_cons, hold, hnew]
    | succ n =>
      simp only [List.getElem_cons_succ] at hold
      simp only [List.set_cons_succ, List.filter_cons]
      have hr := ih n (by simpa using hi) hold
      cases hpa : pr a <;> simp [hpa] <;> omega

theorem sum_map_eraseIdx {α : Type} (f : α → Nat) (l : List α) (i : Nat)
    (h : ∀ hi : i < l.length, f l[i] = 0) :
    ((l.eraseIdx i).map f).sum = (l.map f).sum := by
  induction l generalizing i with
  | nil => rfl
  | cons a l ih =>
    cases i with
    | zero =>
      have h0 : f a = 0 := h (by simp)
      simp [List.eraseIdx_zero, h0]
    | succ n =>
      simp only [List.eraseIdx_cons_succ, List.map_cons, List.sum_cons]
      rw [ih n (fun hi => h (by simpa using Nat.succ_lt_succ hi))]

theorem set_oob {α : Type} (l : List α) (n : Nat) (x : α) (h : l.length ≤ n) :
    l.set n x = l := by
  induction l generalizing n with
  | nil => rfl
  | cons a l ih =>
    cases n with
    | zero => simp at h
    | succ m => rw [List.set_cons_succ, ih m (by simpa using h)]

theorem listModify_eq_set {α : Type} (l : List α) (i : Nat) (f : α → α) (hi : i < l.length) :
    listModify l i f = l.set i (f l[i]) := by
  unfold listModify
  rw [List.get?_eq_getElem?, List.getElem?_eq_getElem hi]

theorem listModify_oob {α : Type} (l : List α) (i : Nat) (f : α → α) (hi : l.length ≤ i) :
    listModify l i f = l := by
  unfold listModify
  rw [List.get?_eq_getElem?, List.getElem?_eq_none hi]

theorem sum_influence_eq (l : List PlayerState) (h : ∀ q ∈ l, okPlayer q) :
    (l.map fun p => p.influence.length).sum = 2 * (l.filter fun p => !p.isObserver).length := by
  induction l with
  | nil => rfl
  | cons a l ih =>
    have ha := h a (List.mem_cons_self a l)
    have hl := ih (fun q hq => h q (List.mem_cons_of_mem a hq))
    simp only [List.map_cons, List.sum_cons, List.filter_cons]
    cases hobs : a.isObserver with
    | true =>
      rw [ha.1 hobs]
      simp [hobs, hl]
    | false =>
      rw [ha.2.1 hobs]
      simp only [hobs, Bool.not_false, if_true, List.length_cons]
      omega

theorem popDeck_length {d : List Role} (h : d ≠ []) :
    (popDeck d).2.length = d.length - 1 := by
  unfold popDeck
  cases hl : d.getLast? with
  | none => exact absurd (List.getLast?_eq_none_iff.mp hl) h
  | some r => simp [List.length_dropLast]

theorem shuffleGo_length : ∀ (fuel : Nat) (rng : List Nat) (l : List Role),
    l.length = fuel → ((shuffleGo fuel rng l).1).length = fuel := by
  intro fuel
  induction fuel with
  | zero => intro rng l h; rfl
  | succ n ih =>
    intro rng l h
    match l with
    | [] => simp at h
    | x :: xs =>
      have hlen : (x :: xs).length = n + 1 := h
      unfold shuffleGo
      dsimp only
      rw [List.length_cons]
      congr 1
      refine ih _ _ ?_
      have hp : (randStep rng (x :: xs).length).1 < (x :: xs).length := by
        unfold randStep
        rw [if_neg (by simp)]
        exact Nat.mod_lt _ (by simp)
      rw [List.length_eraseIdx, if_pos hp, hlen]
      omega

theorem shuffleL_length (rng : List Nat) (l : List Role) :
    ((shuffleL rng l).1).length = l.length := shuffleGo_length _ _ _ rfl

theorem listModify_len {α : Type} (l : List α) (i : Nat) (f : α → α) :
    (listModify l i f).length = l.length := by
  unfold listModify
  cases h : l.get? i <;> simp

/-! ## Seat-record lemmas -/

theorem okPlayer_defaultPlayer : okPlayer defaultPlayer :=
  ⟨fun _ => rfl, fun h => absurd h (by decide), rfl⟩

theorem getP_cases (g : Game) (i : Nat) :
    getP g i ∈ g.players ∨ getP g i = defaultPlayer := by
  unfold getP
  rw [List.getD_eq_getElem?_getD]
  cases h : g.players[i]? with
  | none => exact Or.inr rfl
  | some q => exact Or.inl (List.getElem?_mem h)

theorem okPlayer_getP {g : Game} (hok : ∀ q ∈ g.players, okPlayer q) (i : Nat) :
    okPlayer (getP g i) := by
  rcases getP_cases g i with h | h
  · exact hok _ h
  · rw [h]
    exact okPlayer_defaultPlayer

theorem getP_oob {g : Game} {i : Nat} (h : g.players.length ≤ i) :
    getP g i = defaultPlayer := by
  unfold getP
  rw [List.getD_eq_getElem?_getD, List.getElem?_eq_none h, Option.getD_none]

theorem slotCount_setP {g : Game} {i : Nat} {x : PlayerState}
    (h : x.influence.length = (getP g i).influence.length) :
    slotCount (setP g i x) = slotCount g := by
  show ((g.players.set i x).map fun p => p.influence.length).sum =
    (g.players.map fun p => p.influence.length).sum
  refine sum_map_set _ _ _ _ (fun hi => ?_)
  rw [h]
  unfold getP
  rw [List.getD_eq_getElem?_getD, List.getElem?_eq_getElem hi, Option.getD_some]

theorem nonObsCount_setP {g : Game} {i : Nat} {x : PlayerState}
    (h : x.isObserver = (getP g i).isObserver) :
    nonObsCount (setP g i x) = nonObsCount g := by
  show ((g.players.set i x).filter fun p => !p.isObserver).length =
    (g.players.filter fun p => !p.isObserver).length
  refine filter_length_set _ _ _ _ (fun hi => ?_)
  rw [h]
  unfold getP
  rw [List.getD_eq_getElem?_getD, List.getElem?_eq_getElem hi, Option.getD_some]

theorem okPlayers_setP {g : Game} {i : Nat} {x : PlayerState}
    (hok : ∀ q ∈ g.players, okPlayer q) (hx : okPlayer x) :
    ∀ q ∈ (setP g i x).players, okPlayer q := by
  intro q hq
  rcases List.mem_or_eq_of_mem_set hq with h | h
  · exact hok q h
  · rw [h]; exact hx

theorem slotCount_eq_two_mul {g : Game} (hok : ∀ q ∈ g.players, okPlayer q) :
    slotCount g = 2 * nonObsCount g :=
  sum_influence_eq g.players hok

theorem getP_setP_count {g : Game} {a : Nat} {x : PlayerState}
    (hc : x.influenceCount = (getP g a).influenceCount) :
    (getP (setP g a x) a).influenceCount = (getP g a).influenceCount := by
  by_cases h : a < g.players.length
  · rw [getP_setP_self h]; exact hc
  · have h1 : getP (setP g a x) a = defaultPlayer := by
      refine getP_oob ?_
      rw [setP_players_length]
      omega
    have h2 : getP g a = defaultPlayer := getP_oob (by omega)
    rw [h1, h2]

theorem okPlayer_cash {p : PlayerState} (c : Nat) (h : okPlayer p) :
    okPlayer { p with cash := c } := h

/-! ## Measure lemmas -/

theorem drawnCount_zero {g : Game} (h : g.st.name ≠ StateName.exchange) :
    drawnCount g = 0 := by
  unfold drawnCount
  rw [if_neg h]

theorem cardSum_congr {g g' : Game} (hp : g'.players = g.players) (hd : g'.deck = g.deck)
    (hst : g'.st = g.st) : cardSum g' = cardSum g := by
  unfold cardSum slotCount drawnCount getP
  rw [hp, hd, hst]

/-! ## Reveal lemmas -/

theorem revealFirst_obs (p : PlayerState) :
    (revealFirstInfluence p).2.isObserver = p.isObserver := by
  unfold revealFirstInfluence
  split <;> rfl

theorem revealFirst_len (p : PlayerState) :
    (revealFirstInfluence p).2.influence.length = p.influence.length := by
  unfold revealFirstInfluence
  split
  · dsimp only
    exact listModify_len _ _ _
  · rfl

theorem okPlayer_revealFirst {p : PlayerState} (h : okPlayer p) :
    okPlayer (revealFirstInfluence p).2 := by
  by_cases h0 : unrevealedOf p = 0
  · have hnone : p.influence.findIdx? (fun s => !s.revealed) = none := by
      rw [List.findIdx?_eq_none_iff]
      intro x hx
      by_contra hxx
      have hmem : x ∈ p.influence.filter fun s => !s.revealed :=
        List.mem_filter.mpr ⟨hx, by revert hxx; cases (!x.revealed) <;> simp⟩
      have hne : (p.influence.filter fun s => !s.revealed).length ≠ 0 := by
        intro hlen
        rw [List.length_eq_zero] at hlen
        rw [hlen] at hmem
        cases hmem
      exact hne h0
    unfold revealFirstInfluence
    rw [hnone]
    exact h
  · obtain ⟨j, hj, hlen, hl⟩ := revealList p.influence h0
    unfold revealFirstInfluence
    rw [hj]
    dsimp only
    refine ⟨?_, ?_, ?_⟩
    · intro hobs
      rw [h.1 hobs]
      rfl
    · intro hobs
      rw [listModify_len]
      exact h.2.1 hobs
    · have h22 := h.2.2
      unfold unrevealedOf at h22 ⊢
      dsimp only
      rw [hlen, h22]

theorem unrev_reveal_all (l : List Influence) :
    (l.map fun s => { s with revealed := true }).filter (fun s => !s.revealed) = [] := by
  induction l with
  | nil => rfl
  | cons a l ih => simp [List.map_cons, List.filter_cons, ih]

theorem unrev_listModify_role (l : List Influence) (i : Nat) (r : Role) :
    ((listModify l i fun s => { s with role := r }).filter fun s => !s.revealed).length =
      (l.filter fun s => !s.revealed).length := by
  by_cases hi : i < l.length
  · rw [listModify_eq_set _ _ _ hi]
    exact filter_length_set _ _ _ _ (fun hi2 => rfl)
  · rw [listModify_oob _ _ _ (by omega)]

/-! ## Turn-machinery lemmas -/

theorem checkForGameEnd_cases (g : Game) :
    checkForGameEnd g = (g, false) ∨
      ∃ w, checkForGameEnd g =
        (setState g { name := StateName.gameWon, playerIdx := some w }, true) := by
  unfold checkForGameEnd
  dsimp only
  split
  · exact Or.inr ⟨_, rfl⟩
  · exact Or.inl rfl

theorem afterPlayerDeath_cases (g : Game) (i : Nat) :
    (∃ w, afterPlayerDeath g i =
        setState { g with adhocHistGroup := g.adhocHistGroup + 1 }
          { name := StateName.gameWon, playerIdx := some w }) ∨
      afterPlayerDeath g i = { g with adhocHistGroup := g.adhocHistGroup + 1 } := by
  unfold afterPlayerDeath
  rcases checkForGameEnd_cases { g with adhocHistGroup := g.adhocHistGroup + 1 } with h | ⟨w, h⟩
  · rw [h]
    exact Or.inr rfl
  · rw [h]
    exact Or.inl ⟨w, rfl⟩

theorem nextTurn_deck (g : Game) : (nextTurn g).deck = g.deck := by
  unfold nextTurn
  split <;> rfl

theorem nextTurn_roles (g : Game) : (nextTurn g).roles = g.roles := by
  unfold nextTurn
  split <;> rfl

theorem nextTurn_st (g : Game) :
    (nextTurn g).st.name = StateName.startOfTurn ∨
      (nextTurn g = g ∧ g.st.name = StateName.gameWon) := by
  unfold nextTurn
  split
  next h => exact Or.inl rfl
  next h => exact Or.inr ⟨rfl, not_not.mp h⟩

theorem cardSum_nextTurn {g : Game} (hd : drawnCount g = 0) :
    cardSum (nextTurn g) = cardSum g := by
  unfold nextTurn
  split
  · have h1 : drawnCount (setState { g with turnHistGroup := g.turnHistGroup + 1 }
        { name := StateName.startOfTurn, playerIdx := nextPlayerIdx g }) = 0 := by
      unfold drawnCount
      rw [if_neg (by intro hc; cases hc)]
    unfold cardSum
    rw [h1, hd]
    rfl
  · rfl

theorem swapRole_fields (g : Game) (r : Role) :
    (swapRole g r).2.players = g.players ∧ (swapRole g r).2.st = g.st ∧
      (swapRole g r).2.roles = g.roles ∧ (swapRole g r).2.deck.length = g.deck.length := by
  unfold swapRole
  cases hsh : shuffleL g.rng (g.deck ++ [r]) with
  | mk shuffled rng =>
    dsimp only
    cases hpd : popDeck shuffled with
    | mk r2 deck =>
      dsimp only
      have h2 : shuffled.length = g.deck.length + 1 := by
        have hlen := shuffleL_length g.rng (g.deck ++ [r])
        rw [hsh] at hlen
        simpa using hlen
      have h1 : deck.length = shuffled.length - 1 := by
        have hpl := @popDeck_length shuffled (by
          intro hnil
          rw [hnil] at h2
          simp at h2)
        rw [hpd] at hpl
        exact hpl
      refine ⟨rfl, rfl, rfl, ?_⟩
      omega

theorem getInfluence_length (p : PlayerState) :
    (getInfluence p).length = unrevealedOf p := by
  unfold getInfluence unrevealedOf
  rw [List.length_map]

/-! ## Exchange bookkeeping -/

theorem indexOf?_lt_length {l : List Role} {r : Role} {i : Nat}
    (h : l.indexOf? r = some i) : i < l.length := by
  induction l generalizing i with
  | nil => cases h
  | cons a l ih =>
    rw [List.indexOf?_cons] at h
    by_cases hb : (a == r) = true
    · rw [if_pos hb] at h
      cases h
      simp
    · rw [if_neg hb] at h
      cases hq : l.indexOf? r with
      | none => rw [hq] at h; cases h
      | some j =>
        rw [hq] at h
        cases h
        have := ih hq
        simp only [List.length_cons]
        omega

theorem arrayDifference_length : ∀ (s a u : List Role), arrayDifference a s = some u →
    u.length + s.length = a.length := by
  intro s
  induction s with
  | nil =>
    intro a u h
    unfold arrayDifference at h
    cases h
    simp
  | cons r rs ih =>
    intro a u h
    unfold arrayDifference at h
    cases hq : a.indexOf? r with
    | none => rw [hq] at h; cases h
    | some i =>
      rw [hq] at h
      have hi := indexOf?_lt_length hq
      have hrec := ih _ _ h
      rw [List.length_eraseIdx, if_pos hi] at hrec
      simp only [List.length_cons]
      omega

theorem assignRoles_spec : ∀ (l : List Influence) (rs : List Role),
    (assignRoles l rs).1.length = l.length ∧
      ((assignRoles l rs).1.filter fun s => !s.revealed).length =
        (l.filter fun s => !s.revealed).length := by
  intro l
  induction l with
  | nil => intro rs; exact ⟨rfl, rfl⟩
  | cons s ss ih =>
    intro rs
    unfold assignRoles
    by_cases hs : s.revealed = true
    · rw [if_pos hs]
      cases hA : assignRoles ss rs with
      | mk ss' rs' =>
        dsimp only
        obtain ⟨h1, h2⟩ := ih rs
        rw [hA] at h1 h2
        dsimp only at h1 h2
        refine ⟨by simp [h1], ?_⟩
        simp only [List.filter_cons, hs]
        simpa using h2
    · rw [if_neg hs]
      cases hA : assignRoles ss rs.dropLast with
      | mk ss' rs' =>
        dsimp only
        obtain ⟨h1, h2⟩ := ih rs.dropLast
        rw [hA] at h1 h2
        dsimp only at h1 h2
        have hsr : s.revealed = false := by revert hs; cases s.revealed <;> simp
        refine ⟨by simp [h1], ?_⟩
        simp only [List.filter_cons, hsr]
        simp [h2]

/-! ## Dealing -/

theorem dealPlayers_spec : ∀ (ps : List PlayerState) (d : List Role),
    (∀ q ∈ ps, okPlayer q) →
    2 * (ps.filter fun p => !p.isObserver).length ≤ d.length →
    (∀ q ∈ (dealPlayers ps d).1, okPlayer q) ∧
      ((dealPlayers ps d).1.map fun p => p.influence.length).sum =
        (ps.map fun p => p.influence.length).sum ∧
      ((dealPlayers ps d).1.filter fun p => !p.isObserver).length =
        (ps.filter fun p => !p.isObserver).length ∧
      (dealPlayers ps d).2.length =
        d.length - 2 * (ps.filter fun p => !p.isObserver).length := by
  intro ps
  induction ps with
  | nil =>
    intro d hok hle
    refine ⟨fun q hq => absurd hq (List.not_mem_nil q), rfl, rfl, by simp [dealPlayers]⟩
  | cons p ps ih =>
    intro d hok hle
    have hp := hok p (List.mem_cons_self p ps)
    have hok' : ∀ q ∈ ps, okPlayer q := fun q hq => hok q (List.mem_cons_of_mem p hq)
    unfold dealPlayers
    by_cases hobs : p.isObserver = true
    · rw [if_pos hobs]
      cases hD : dealPlayers ps d with
      | mk ps' d' =>
        dsimp only
        have hfe : List.filter (fun p => !p.isObserver) (p :: ps) =
            List.filter (fun p => !p.isObserver) ps := by
          simp [List.filter_cons, hobs]
        rw [hfe] at hle
        obtain ⟨h1, h2, h3, h4⟩ := ih d hok' hle
        rw [hD] at h1 h2 h3 h4
        dsimp only at h1 h2 h3 h4
        refine ⟨?_, ?_, ?_, ?_⟩
        · intro q hq
          rcases List.mem_cons.mp hq with h | h
          · rw [h]; exact hp
          · exact h1 q h
        · simp only [List.map_cons, List.sum_cons, h2]
        · rw [hfe]
          simp only [List.filter_cons, hobs]
          simpa using h3
        · rw [h4, hfe]
    · rw [if_neg hobs]
      cases hp0 : popDeck d with
      | mk r0 d0 =>
        dsimp only
        cases hp1 : popDeck d0 with
        | mk r1 d1 =>
          dsimp only
          cases hD : dealPlayers ps d1 with
          | mk ps' d' =>
            dsimp only
            have hobs' : p.isObserver = false := by
              revert hobs; cases p.isObserver <;> simp
            have hfl : (List.filter (fun p => !p.isObserver) (p :: ps)).length =
                (List.filter (fun p => !p.isObserver) ps).length + 1 := by
              simp [List.filter_cons, hobs']
            have hdlen : 2 * ((List.filter (fun p => !p.isObserver) ps).length + 1) ≤
                d.length := by
              rw [← hfl]; exact hle
            have hdne : d ≠ [] := by
              intro hnil; rw [hnil] at hdlen; simp at hdlen
            have hd0 : d0.length = d.length - 1 := by
              have hq := popDeck_length hdne
              rw [hp0] at hq; exact hq
            have hd0ne : d0 ≠ [] := by
              intro hnil
              rw [hnil] at hd0
              simp at hd0
              omega
            have hd1 : d1.length = d.length - 2 := by
              have hq := popDeck_length hd0ne
              rw [hp1] at hq
              dsimp only at hq
              omega
            have hle' : 2 * (ps.filter fun p => !p.isObserver).length ≤ d1.length := by
              omega
            obtain ⟨h1, h2, h3, h4⟩ := ih d1 hok' hle'
            rw [hD] at h1 h2 h3 h4
            dsimp only at h1 h2 h3 h4
            have hil : (listModify (listModify p.influence 0 fun s => { s with role := r0 }) 1
                fun s => { s with role := r1 }).length = p.influence.length := by
              rw [listModify_len, listModify_len]
            have hiu : ((listModify (listModify p.influence 0 fun s => { s with role := r0 }) 1
                fun s => { s with role := r1 }).filter fun s => !s.revealed).length =
                (p.influence.filter fun s => !s.revealed).length := by
              rw [unrev_listModify_role, unrev_listModify_role]
            refine ⟨?_, ?_, ?_, ?_⟩
            · intro q hq
              rcases List.mem_cons.mp hq with h | h
              · rw [h]
                refine ⟨fun hob => ?_, fun _ => ?_, ?_⟩
                · rw [hobs'] at hob; cases hob
                · show (listModify _ 1 _).length = 2
                  rw [hil]
                  exact hp.2.1 hobs'
                · show p.influenceCount = _
                  unfold unrevealedOf
                  dsimp only
                  rw [hiu]
                  exact hp.2.2
              · exact h1 q h
            · simp only [List.map_cons, List.sum_cons, h2]
              rw [hil]
            · rw [hfl]
              simp only [List.filter_cons, hobs']
              simp only [Bool.not_false, if_true, List.length_cons]
              rw [h3]
            · rw [h4, hfl]
              omega

/-! ## Congruence helpers -/

theorem okPlayers_congr {g g' : Game} (h : g'.players = g.players)
    (hok : ∀ q ∈ g.players, okPlayer q) : ∀ q ∈ g'.players, okPlayer q := by
  rw [h]; exact hok

theorem nonObsCount_congr {g g' : Game} (h : g'.players = g.players) :
    nonObsCount g' = nonObsCount g := by
  unfold nonObsCount; rw [h]

theorem cardSum_setP_len {g : Game} {i : Nat} {x : PlayerState}
    (hlen : x.influence.length = (getP g i).influence.length)
    (hst : g.st.name ≠ StateName.exchange) (hsum : cardSum g = 15) :
    cardSum (setP g i x) = 15 := by
  have h1 : drawnCount (setP g i x) = 0 := @drawnCount_zero (setP g i x) hst
  have h2 := drawnCount_zero hst
  unfold cardSum at hsum ⊢
  rw [slotCount_setP hlen, h1]
  rw [h2] at hsum
  exact hsum

theorem afterPlayerDeath_deck (g : Game) (i : Nat) :
    (afterPlayerDeath g i).deck = g.deck := by
  unfold afterPlayerDeath checkForGameEnd
  dsimp only
  split <;> rfl

theorem afterPlayerDeath_roles (g : Game) (i : Nat) :
    (afterPlayerDeath g i).roles = g.roles := by
  unfold afterPlayerDeath checkForGameEnd
  dsimp only
  split <;> rfl

theorem afterPlayerDeath_st (g : Game) (i : Nat) :
    (afterPlayerDeath g i).st = g.st ∨ (afterPlayerDeath g i).st.name = StateName.gameWon := by
  rcases afterPlayerDeath_cases g i with ⟨w, hw⟩ | hw <;> rw [hw]
  · exact Or.inr rfl
  · exact Or.inl rfl

theorem cardSum_afterPlayerDeath {g : Game} (i : Nat)
    (h : g.st.name ≠ StateName.exchange) :
    cardSum (afterPlayerDeath g i) = cardSum g := by
  rcases afterPlayerDeath_cases g i with ⟨w, hw⟩ | hw <;> rw [hw]
  · have h1 : drawnCount (setState { g with adhocHistGroup := g.adhocHistGroup + 1 }
        { name := StateName.gameWon, playerIdx := some w }) = 0 :=
      drawnCount_zero (by intro hc; cases hc)
    have h2 := drawnCount_zero h
    unfold cardSum
    rw [h1, h2]
    rfl
  · exact cardSum_congr rfl rfl rfl

theorem slotCount_congr {g g' : Game} (h : g'.players = g.players) :
    slotCount g' = slotCount g := by
  unfold slotCount
  rw [h]

theorem cardSum_st_swap {g g' : Game} (hp : g'.players = g.players) (hd : g'.deck = g.deck)
    (hs' : g'.st.name ≠ StateName.exchange) (hs : g.st.name ≠ StateName.exchange) :
    cardSum g' = cardSum g := by
  have h1 := drawnCount_zero hs'
  have h2 := drawnCount_zero hs
  unfold cardSum slotCount
  rw [hp, hd, h1, h2]

theorem cardSum_setState_setP {g : Game} {i : Nat} {x : PlayerState} {s : StateRec}
    (hlen : x.influence.length = (getP g i).influence.length)
    (hs : s.name ≠ StateName.exchange)
    (hst : g.st.name ≠ StateName.exchange) (hsum : cardSum g = 15) :
    cardSum (setState (setP g i x) s) = 15 := by
  have h1 : drawnCount (setState (setP g i x) s) = 0 := drawnCount_zero hs
  have h2 := drawnCount_zero hst
  have h3 : slotCount (setState (setP g i x) s) = slotCount g := by
    refine Eq.trans (slotCount_congr ?_) (slotCount_setP hlen)
    rfl
  unfold cardSum at hsum ⊢
  rw [h1, h3]
  rw [h2] at hsum
  exact hsum

theorem cardSum_setState_setP_rng {g : Game} {i : Nat} {x : PlayerState} {s : StateRec}
    {r : List Nat}
    (hlen : x.influence.length = (getP g i).influence.length)
    (hs : s.name ≠ StateName.exchange)
    (hst : g.st.name ≠ StateName.exchange) (hsum : cardSum g = 15) :
    cardSum (setState { setP g i x with rng := r } s) = 15 := by
  have h1 : drawnCount (setState { setP g i x with rng := r } s) = 0 := drawnCount_zero hs
  have h2 := drawnCount_zero hst
  have h3 : slotCount (setState { setP g i x with rng := r } s) = slotCount g := by
    refine Eq.trans (slotCount_congr ?_) (slotCount_setP hlen)
    rfl
  unfold cardSum at hsum ⊢
  rw [h1, h3]
  rw [h2] at hsum
  exact hsum

theorem cardSum_exchange2 (g : Game) (i : Nat) (x : PlayerState) (s : StateRec) (d2 : List Role)
    (hcnt : x.influenceCount = (getP g i).influenceCount)
    (hinfl : x.influence.length = (getP g i).influence.length)
    (hsname : s.name = StateName.exchange)
    (hpidx : s.playerIdx = g.st.playerIdx)
    (hax : g.st.playerIdx.getD 0 = i)
    (hd2 : d2.length + s.exchangeOptions.length = g.deck.length + (getP g i).influenceCount)
    (hck : (getP g i).influenceCount ≤ s.exchangeOptions.length)
    (hst : g.st.name ≠ StateName.exchange) (hsum : cardSum g = 15) :
    cardSum (setState { setP g i x with deck := d2 } s) = 15 := by
  have hdr0 := drawnCount_zero hst
  have h3 : slotCount (setState { setP g i x with deck := d2 } s) = slotCount g := by
    have hA1 : slotCount (setState { setP g i x with deck := d2 } s) =
        slotCount (setP g i x) := slotCount_congr rfl
    rw [hA1]
    exact slotCount_setP hinfl
  have hgp : getP (setState { setP g i x with deck := d2 } s)
      (s.playerIdx.getD 0) = getP (setP g i x) i := by
    rw [hpidx, hax]
    rfl
  have hcount : (getP (setState { setP g i x with deck := d2 } s)
      (s.playerIdx.getD 0)).influenceCount = (getP g i).influenceCount := by
    rw [hgp]
    exact getP_setP_count hcnt
  have hdrw : drawnCount (setState { setP g i x with deck := d2 } s) =
      s.exchangeOptions.length - (getP g i).influenceCount := by
    unfold drawnCount
    rw [if_pos (show (setState { setP g i x with deck := d2 } s).st.name =
      StateName.exchange from hsname)]
    show s.exchangeOptions.length -
      (getP (setState { setP g i x with deck := d2 } s) (s.playerIdx.getD 0)).influenceCount =
      s.exchangeOptions.length - (getP g i).influenceCount
    rw [hcount]
  have hdk : (setState { setP g i x with deck := d2 } s).deck = d2 := rfl
  have hfin : cardSum (setState { setP g i x with deck := d2 } s) =
      slotCount g + d2.length + (s.exchangeOptions.length - (getP g i).influenceCount) := by
    unfold cardSum
    rw [h3, hdrw, hdk]
  rw [hfin]
  have hsum2 : slotCount g + g.deck.length = 15 := by
    unfold cardSum at hsum
    rw [hdr0] at hsum
    omega
  omega

/-! ## playAction preserves the invariant -/

theorem playAction_inv (g : Game) (a : Nat) (aS : ActionState)
    (hok : ∀ q ∈ g.players, okPlayer q) (hmax : nonObsCount g ≤ 6)
    (hsum : cardSum g = 15)
    (hst : g.st.name ≠ StateName.exchange)
    (hax : aS.action = some "exchange" → g.st.playerIdx.getD 0 = a) :
    (∀ q ∈ (playAction g a aS).1.players, okPlayer q) ∧
      nonObsCount (playAction g a aS).1 = nonObsCount g ∧
      (playAction g a aS).1.roles = g.roles ∧
      cardSum (playAction g a aS).1 = 15 ∧
      ((playAction g a aS).2 = true →
        (playAction g a aS).1.st = g.st ∨
          (playAction g a aS).1.st.name = StateName.gameWon) := by
  have hokp : okPlayer (getP g a) := okPlayer_getP hok a
  unfold playAction
  dsimp only
  split
  next hA =>
    -- assassinate
    split
    next hc1 =>
      dsimp only
      have hokt : okPlayer (getP (setP g a { getP g a with
          cash := (getP g a).cash +
            ((actions (aS.action.getD "")).getD default).gain }) (aS.target.getD 0)) :=
        okPlayer_getP (okPlayers_setP hok (okPlayer_cash _ hokp)) _
      refine ⟨?_, ?_, ?_, ?_, ?_⟩
      · refine okPlayers_congr (afterPlayerDeath_players _ _) ?_
        exact okPlayers_setP (okPlayers_setP hok (okPlayer_cash _ hokp))
          (okPlayer_revealFirst hokt)
      · exact Eq.trans (nonObsCount_congr (afterPlayerDeath_players _ _))
          (Eq.trans (nonObsCount_setP (revealFirst_obs _)) (nonObsCount_setP rfl))
      · exact afterPlayerDeath_roles _ _
      · exact Eq.trans (cardSum_afterPlayerDeath _ hst)
          (cardSum_setP_len (revealFirst_len _) hst (cardSum_setP_len rfl hst hsum))
      · intro _
        exact afterPlayerDeath_st _ _
    next hc1 =>
      split
      next hc2 =>
        dsimp only
        refine ⟨?_, ?_, rfl, ?_, ?_⟩
        · exact okPlayers_setP hok (okPlayer_cash _ hokp)
        · exact nonObsCount_setP rfl
        · exact cardSum_setState_setP rfl (by intro hq; cases hq) hst hsum
        · intro hq
          cases hq
      next hc2 =>
        dsimp only
        refine ⟨?_, ?_, rfl, ?_, ?_⟩
        · exact okPlayers_setP hok (okPlayer_cash _ hokp)
        · exact nonObsCount_setP rfl
        · exact cardSum_setP_len rfl hst hsum
        · intro _
          exact Or.inl rfl
  next hA =>
    split
    next hC =>
      -- coup
      split
      next hc1 =>
        dsimp only
        have hokt : okPlayer (getP (setP g a { getP g a with
            cash := (getP g a).cash +
              ((actions (aS.action.getD "")).getD default).gain }) (aS.target.getD 0)) :=
          okPlayer_getP (okPlayers_setP hok (okPlayer_cash _ hokp)) _
        refine ⟨?_, ?_, ?_, ?_, ?_⟩
        · refine okPlayers_congr (afterPlayerDeath_players _ _) ?_
          exact okPlayers_setP (okPlayers_setP hok (okPlayer_cash _ hokp))
            (okPlayer_revealFirst hokt)
        · exact Eq.trans (nonObsCount_congr (afterPlayerDeath_players _ _))
            (Eq.trans (nonObsCount_setP (revealFirst_obs _)) (nonObsCount_setP rfl))
        · exact afterPlayerDeath_roles _ _
        · exact Eq.trans (cardSum_afterPlayerDeath _ hst)
            (cardSum_setP_len (revealFirst_len _) hst (cardSum_setP_len rfl hst hsum))
        · intro _
          exact afterPlayerDeath_st _ _
      next hc1 =>
        dsimp only
        refine ⟨?_, ?_, rfl, ?_, ?_⟩
        · exact okPlayers_setP hok (okPlayer_cash _ hokp)
        · exact nonObsCount_setP rfl
        · exact cardSum_setState_setP rfl (by intro hq; cases hq) hst hsum
        · intro hq
          cases hq
    next hC =>
      split
      next hS =>
        -- steal
        split
        next hc2 =>
          dsimp only
          refine ⟨?_, ?_, rfl, ?_, ?_⟩
          · refine okPlayers_setP ?h1 (okPlayer_cash _ (okPlayer_getP ?h1 _))
            case h1 =>
              exact okPlayers_setP (okPlayers_setP hok (okPlayer_cash _ hokp))
                (okPlayer_cash _ (okPlayer_getP (okPlayers_setP hok (okPlayer_cash _ hokp)) _))
          · exact Eq.trans (nonObsCount_setP rfl)
              (Eq.trans (nonObsCount_setP rfl) (nonObsCount_setP rfl))
          · exact cardSum_setP_len rfl hst
              (cardSum_setP_len rfl hst (cardSum_setP_len rfl hst hsum))
          · intro _
            exact Or.inl rfl
        next hc2 =>
          dsimp only
          refine ⟨?_, ?_, rfl, ?_, ?_⟩
          · refine okPlayers_setP ?h2 (okPlayer_cash _ (okPlayer_getP ?h2 _))
            case h2 =>
              exact okPlayers_setP (okPlayers_setP hok (okPlayer_cash _ hokp))
                (okPlayer_cash _ (okPlayer_getP (okPlayers_setP hok (okPlayer_cash _ hokp)) _))
          · exact Eq.trans (nonObsCount_setP rfl)
              (Eq.trans (nonObsCount_setP rfl) (nonObsCount_setP rfl))
          · exact cardSum_setP_len rfl hst
              (cardSum_setP_len rfl hst (cardSum_setP_len rfl hst hsum))
          · intro _
            exact Or.inl rfl
      next hS =>
        split
        next hE =>
          -- exchange: draws from the deck
          dsimp only
          have hslot12 : slotCount g ≤ 12 := by
            rw [slotCount_eq_two_mul hok]
            omega
          have hsum2 : slotCount g + g.deck.length = 15 := by
            have hdz := drawnCount_zero hst
            have hsum3 := hsum
            unfold cardSum at hsum3
            rw [hdz] at hsum3
            omega
          have hge : 3 ≤ g.deck.length := by omega
          have hdne : g.deck ≠ [] := by
            intro hnil
            rw [hnil] at hge
            simp at hge
          have hp1 : (popDeck g.deck).2.length = g.deck.length - 1 := popDeck_length hdne
          have hd1ne : (popDeck g.deck).2 ≠ [] := by
            intro hnil
            rw [hnil] at hp1
            simp at hp1
            omega
          have hp2 : (popDeck (popDeck g.deck).2).2.length = g.deck.length - 2 := by
            have hq := popDeck_length hd1ne
            omega
          split
          next hm =>
            dsimp only
            refine ⟨?_, ?_, rfl, ?_, ?_⟩
            · exact okPlayers_setP hok (okPlayer_cash _ hokp)
            · exact nonObsCount_setP rfl
            · refine cardSum_exchange2 g a _ _ _ rfl rfl rfl rfl (hax hE) ?_ ?_ hst hsum
              · show (popDeck (popDeck g.deck).2).2.length +
                  ((getInfluence (getP g a)).length + 1 + 1) =
                  g.deck.length + (getP g a).influenceCount
                rw [getInfluence_length, ← hokp.2.2]
                omega
              · show (getP g a).influenceCount ≤ (getInfluence (getP g a)).length + 1 + 1
                rw [getInfluence_length, ← hokp.2.2]
                omega
            · intro hq
              cases hq
          next hm =>
            dsimp only
            refine ⟨?_, ?_, rfl, ?_, ?_⟩
            · exact okPlayers_setP hok (okPlayer_cash _ hokp)
            · exact nonObsCount_setP rfl
            · refine cardSum_exchange2 g a _ _ _ rfl rfl rfl rfl (hax hE) ?_ ?_ hst hsum
              · show (popDeck g.deck).2.length + ((getInfluence (getP g a)).length + 1) =
                  g.deck.length + (getP g a).influenceCount
                rw [getInfluence_length, ← hokp.2.2]
                omega
              · show (getP g a).influenceCount ≤ (getInfluence (getP g a)).length + 1
                rw [getInfluence_length, ← hokp.2.2]
                omega
            · intro hq
              cases hq
        next hE =>
          split
          next hI =>
            dsimp only
            refine ⟨?_, ?_, rfl, ?_, ?_⟩
            · exact okPlayers_setP hok (okPlayer_cash _ hokp)
            · exact nonObsCount_setP rfl
            · exact cardSum_setState_setP_rng rfl (by intro hq; cases hq) hst hsum
            · intro hq
              cases hq
          next hI =>
            dsimp only
            refine ⟨?_, ?_, rfl, ?_, ?_⟩
            · exact okPlayers_setP hok (okPlayer_cash _ hokp)
            · exact nonObsCount_setP rfl
            · exact cardSum_setP_len rfl hst hsum
            · intro _
              exact Or.inl rfl

theorem cardSum_setState_15 {g : Game} {s : StateRec}
    (hs : s.name ≠ StateName.exchange)
    (hst : g.st.name ≠ StateName.exchange) (hsum : cardSum g = 15) :
    cardSum (setState g s) = 15 := by
  have h1 : drawnCount (setState g s) = 0 := drawnCount_zero hs
  have h2 := drawnCount_zero hst
  unfold cardSum at hsum ⊢
  rw [h1]
  rw [h2] at hsum
  exact hsum

/-! ## Destroyed-state transfer -/

theorem playAction_destroyed (g : Game) (a : Nat) (aS : ActionState) :
    (playAction g a aS).1.st.name = StateName.destroyed → (playAction g a aS).1.st = g.st := by
  unfold playAction
  dsimp only
  split
  next =>
    split
    next =>
      intro hq
      rcases afterPlayerDeath_st _ _ with h | h
      · exact h
      · rw [h] at hq
        cases hq
    next =>
      split
      next =>
        intro hq
        cases hq
      next =>
        intro _
        rfl
  next =>
    split
    next =>
      split
      next =>
        intro hq
        rcases afterPlayerDeath_st _ _ with h | h
        · exact h
        · rw [h] at hq
          cases hq
      next =>
        intro hq
        cases hq
    next =>
      split
      next =>
        split
        next =>
          intro _
          rfl
        next =>
          intro _
          rfl
      next =>
        split
        next =>
          intro hq
          cases hq
        next =>
          split
          next =>
            intro hq
            cases hq
          next =>
            intro _
            rfl

theorem afterSuccessfulChallenge_destroyed (g : Game) :
    (afterSuccessfulChallenge g).1.st.name = StateName.destroyed →
      (afterSuccessfulChallenge g).1.st = g.st := by
  unfold afterSuccessfulChallenge
  split
  · exact playAction_destroyed g _ _
  · intro _
    rfl

theorem afterIncorrectChallenge_destroyed (g : Game) :
    (afterIncorrectChallenge g).1.st.name = StateName.destroyed →
      (afterIncorrectChallenge g).1.st = g.st := by
  unfold afterIncorrectChallenge
  dsimp only
  split
  · intro _
    rfl
  · split
    · intro hq
      cases hq
    · exact playAction_destroyed g _ _

theorem nextTurn_not_destroyed {g : Game} (h : g.st.name ≠ StateName.destroyed) :
    (nextTurn g).st.name ≠ StateName.destroyed := by
  rcases nextTurn_st g with h1 | ⟨h1, h2⟩
  · rw [h1]
    intro hq
    cases hq
  · rw [h1]
    exact h

/-! ## Challenge-resolution helpers preserve the invariant -/

theorem afterSuccessfulChallenge_inv (g : Game)
    (hok : ∀ q ∈ g.players, okPlayer q) (hmax : nonObsCount g ≤ 6)
    (hsum : cardSum g = 15) (hst : g.st.name ≠ StateName.exchange) :
    (∀ q ∈ (afterSuccessfulChallenge g).1.players, okPlayer q) ∧
      nonObsCount (afterSuccessfulChallenge g).1 = nonObsCount g ∧
      (afterSuccessfulChallenge g).1.roles = g.roles ∧
      cardSum (afterSuccessfulChallenge g).1 = 15 ∧
      ((afterSuccessfulChallenge g).2 = true →
        (afterSuccessfulChallenge g).1.st = g.st ∨
          (afterSuccessfulChallenge g).1.st.name = StateName.gameWon) := by
  unfold afterSuccessfulChallenge
  split
  · exact playAction_inv g _ _ hok hmax hsum hst (fun _ => rfl)
  · exact ⟨hok, rfl, rfl, hsum, fun _ => Or.inl rfl⟩

theorem afterIncorrectChallenge_inv (g : Game)
    (hok : ∀ q ∈ g.players, okPlayer q) (hmax : nonObsCount g ≤ 6)
    (hsum : cardSum g = 15) (hst : g.st.name ≠ StateName.exchange) :
    (∀ q ∈ (afterIncorrectChallenge g).1.players, okPlayer q) ∧
      nonObsCount (afterIncorrectChallenge g).1 = nonObsCount g ∧
      (afterIncorrectChallenge g).1.roles = g.roles ∧
      cardSum (afterIncorrectChallenge g).1 = 15 ∧
      ((afterIncorrectChallenge g).2 = true →
        (afterIncorrectChallenge g).1.st = g.st ∨
          (afterIncorrectChallenge g).1.st.name = StateName.gameWon) := by
  unfold afterIncorrectChallenge
  dsimp only
  split
  · exact ⟨hok, rfl, rfl, hsum, fun _ => Or.inl rfl⟩
  · split
    · refine ⟨hok, rfl, rfl, ?_, ?_⟩
      · exact cardSum_setState_15 (by intro hq; cases hq) hst hsum
      · intro hq
        cases hq
    · exact playAction_inv g _ _ hok hmax hsum hst (fun _ => rfl)

/-! ## End-of-turn combinator -/

theorem end_turn_inv (g G : Game) (b : Bool)
    (hokG : ∀ q ∈ G.players, okPlayer q) (hnonG : nonObsCount G = nonObsCount g)
    (hrolesG : G.roles = g.roles)
    (hsumG : activePlay G → cardSum G = 15)
    (hP5 : b = true → G.st = g.st ∨ G.st.name = StateName.gameWon)
    (hdes : G.st.name = StateName.destroyed → G.st = g.st)
    (hact : activePlay g)
    (hst : g.st.name ≠ StateName.exchange) :
    (∀ q ∈ (if b = true then nextTurn G else G).players, okPlayer q) ∧
      nonObsCount (if b = true then nextTurn G else G) = nonObsCount g ∧
      (if b = true then nextTurn G else G).roles = g.roles ∧
      (activePlay (if b = true then nextTurn G else G) →
        cardSum (if b = true then nextTurn G else G) = 15) ∧
      (if b = true then nextTurn G else G).st.name ≠ StateName.destroyed := by
  cases b with
  | false =>
    rw [if_neg (by intro hq; cases hq)]
    refine ⟨hokG, hnonG, hrolesG, hsumG, ?_⟩
    intro hq
    rw [hdes hq] at hq
    exact hact.2.1 hq
  | true =>
    rw [if_pos rfl]
    rcases hP5 rfl with hGst | hGW
    · have hactG : activePlay G :=
        ⟨by rw [hGst]; exact hact.1, by rw [hGst]; exact hact.2.1,
          by rw [hGst]; exact hact.2.2⟩
      refine ⟨okPlayers_congr (nextTurn_players G) hokG,
        Eq.trans (nonObsCount_congr (nextTurn_players G)) hnonG,
        Eq.trans (nextTurn_roles G) hrolesG, ?_, ?_⟩
      · intro _
        exact Eq.trans (cardSum_nextTurn (drawnCount_zero (by rw [hGst]; exact hst)))
          (hsumG hactG)
      · exact nextTurn_not_destroyed (by rw [hGst]; exact hact.2.1)
    · have hnt : nextTurn G = G := by
        unfold nextTurn
        rw [if_neg (fun hh => hh hGW)]
      rw [hnt]
      refine ⟨hokG, hnonG, hrolesG, ?_, ?_⟩
      · intro hA
        exact absurd hGW hA.2.2
      · intro hq
        rw [hGW] at hq
        cases hq

/-! ## Package transformers -/

theorem reveal_setP_package {g g2 : Game} (i : Nat)
    (hok2 : ∀ q ∈ g2.players, okPlayer q) (hnon2 : nonObsCount g2 = nonObsCount g)
    (hroles2 : g2.roles = g.roles) (hsum2 : cardSum g2 = 15) (hst2 : g2.st = g.st)
    (hst : g.st.name ≠ StateName.exchange) :
    (∀ q ∈ (setP g2 i (revealFirstInfluence (getP g2 i)).2).players, okPlayer q) ∧
      nonObsCount (setP g2 i (revealFirstInfluence (getP g2 i)).2) = nonObsCount g ∧
      (setP g2 i (revealFirstInfluence (getP g2 i)).2).roles = g.roles ∧
      cardSum (setP g2 i (revealFirstInfluence (getP g2 i)).2) = 15 ∧
      (setP g2 i (revealFirstInfluence (getP g2 i)).2).st = g.st :=
  ⟨okPlayers_setP hok2 (okPlayer_revealFirst (okPlayer_getP hok2 i)),
    Eq.trans (nonObsCount_setP (revealFirst_obs _)) hnon2,
    hroles2,
    cardSum_setP_len (revealFirst_len _) (by rw [show g2.st = g.st from hst2]; exact hst) hsum2,
    hst2⟩

theorem won_reveal_package {g : Game} {c : Nat} {cp : PlayerState}
    (hget : g.players.get? c = some cp)
    (hok : ∀ q ∈ g.players, okPlayer q)
    (hsum : cardSum g = 15) (hst : g.st.name ≠ StateName.exchange) :
    (∀ q ∈ (setP g c (revealFirstInfluence cp).2).players, okPlayer q) ∧
      nonObsCount (setP g c (revealFirstInfluence cp).2) = nonObsCount g ∧
      (setP g c (revealFirstInfluence cp).2).roles = g.roles ∧
      cardSum (setP g c (revealFirstInfluence cp).2) = 15 ∧
      (setP g c (revealFirstInfluence cp).2).st = g.st := by
  have hgc : getP g c = cp := getP_of_get? hget
  exact ⟨okPlayers_setP hok (okPlayer_revealFirst (hok cp (List.get?_mem hget))),
    Eq.trans (nonObsCount_setP (by rw [hgc]; exact revealFirst_obs cp)) rfl,
    rfl,
    cardSum_setP_len (by rw [hgc]; exact revealFirst_len cp) hst hsum,
    rfl⟩

theorem death_package {g G : Game} (i : Nat)
    (hokG : ∀ q ∈ G.players, okPlayer q) (hnonG : nonObsCount G = nonObsCount g)
    (hrolesG : G.roles = g.roles) (hsumG : activePlay G → cardSum G = 15) :
    (∀ q ∈ (afterPlayerDeath G i).players, okPlayer q) ∧
      nonObsCount (afterPlayerDeath G i) = nonObsCount g ∧
      (afterPlayerDeath G i).roles = g.roles ∧
      (activePlay (afterPlayerDeath G i) → cardSum (afterPlayerDeath G i) = 15) ∧
      ((afterPlayerDeath G i).st = G.st ∨
        (afterPlayerDeath G i).st.name = StateName.gameWon) := by
  refine ⟨okPlayers_congr (afterPlayerDeath_players G i) hokG,
    Eq.trans (nonObsCount_congr (afterPlayerDeath_players G i)) hnonG,
    Eq.trans (afterPlayerDeath_roles G i) hrolesG, ?_, afterPlayerDeath_st G i⟩
  rcases afterPlayerDeath_cases G i with ⟨w, hw⟩ | hw
  · rw [hw]
    intro hA
    exact absurd rfl hA.2.2
  · rw [hw]
    intro hA
    refine Eq.trans (cardSum_congr rfl rfl rfl) (hsumG ?_)
    exact ⟨hA.1, hA.2.1, hA.2.2⟩

theorem death_package_ne_exchange {g G : Game} (i : Nat)
    (hokG : ∀ q ∈ G.players, okPlayer q) (hnonG : nonObsCount G = nonObsCount g)
    (hrolesG : G.roles = g.roles) (hsumG : cardSum G = 15)
    (hGex : G.st.name ≠ StateName.exchange) :
    (∀ q ∈ (afterPlayerDeath G i).players, okPlayer q) ∧
      nonObsCount (afterPlayerDeath G i) = nonObsCount g ∧
      (afterPlayerDeath G i).roles = g.roles ∧
      cardSum (afterPlayerDeath G i) = 15 ∧
      ((afterPlayerDeath G i).st = G.st ∨
        (afterPlayerDeath G i).st.name = StateName.gameWon) :=
  ⟨okPlayers_congr (afterPlayerDeath_players G i) hokG,
    Eq.trans (nonObsCount_congr (afterPlayerDeath_players G i)) hnonG,
    Eq.trans (afterPlayerDeath_roles G i) hrolesG,
    Eq.trans (cardSum_afterPlayerDeath i hGex) hsumG,
    afterPlayerDeath_st G i⟩

/-! ## challenge preserves the invariant -/

/-- The challenged player with the challenged slot silently replaced
(`challenge`, incorrect-challenge path). -/
def swapInfl (cp : PlayerState) (idx : Nat) (r : Role) : PlayerState :=
  { cp with influence := listModify cp.influence idx fun s => { s with role := r } }

theorem challenge_swap_inv {g : Game} {c : Nat} {cp : PlayerState} (idx : Nat) (old : Role)
    (hget : g.players.get? c = some cp)
    (hok : ∀ q ∈ g.players, okPlayer q)
    (hsum : cardSum g = 15) (hst : g.st.name ≠ StateName.exchange) :
    (∀ q ∈ (setP (swapRole g old).2 c (swapInfl cp idx (swapRole g old).1)).players,
      okPlayer q) ∧
      nonObsCount (setP (swapRole g old).2 c (swapInfl cp idx (swapRole g old).1)) =
        nonObsCount g ∧
      (setP (swapRole g old).2 c (swapInfl cp idx (swapRole g old).1)).roles = g.roles ∧
      cardSum (setP (swapRole g old).2 c (swapInfl cp idx (swapRole g old).1)) = 15 ∧
      (setP (swapRole g old).2 c (swapInfl cp idx (swapRole g old).1)).st = g.st := by
  obtain ⟨hswp, hsws, hswr, hswd⟩ := swapRole_fields g old
  have hokcp : okPlayer cp := hok cp (List.get?_mem hget)
  have hgpc : getP (swapRole g old).2 c = cp := by
    rw [getP_players_eq hswp]
    exact getP_of_get? hget
  have hcp2 : okPlayer (swapInfl cp idx (swapRole g old).1) := by
    refine ⟨?_, ?_, ?_⟩
    · intro hobs
      show listModify cp.influence idx _ = []
      rw [hokcp.1 hobs]
      rfl
    · intro hobs
      show (listModify cp.influence idx _).length = 2
      rw [listModify_len]
      exact hokcp.2.1 hobs
    · show cp.influenceCount = _
      unfold swapInfl unrevealedOf
      dsimp only
      rw [unrev_listModify_role]
      exact hokcp.2.2
  refine ⟨okPlayers_setP (okPlayers_congr hswp hok) hcp2, ?_, hswr, ?_, ?_⟩
  · refine Eq.trans (nonObsCount_setP ?_) (nonObsCount_congr hswp)
    rw [hgpc]
    rfl
  · have hslot : slotCount (setP (swapRole g old).2 c (swapInfl cp idx (swapRole g old).1)) =
        slotCount g := by
      refine Eq.trans (slotCount_setP ?_) (slotCount_congr hswp)
      rw [hgpc]
      show (listModify cp.influence idx _).length = cp.influence.length
      exact listModify_len _ _ _
    have hz1 : drawnCount (setP (swapRole g old).2 c (swapInfl cp idx (swapRole g old).1)) =
        0 := by
      refine drawnCount_zero ?_
      show (swapRole g old).2.st.name ≠ _
      rw [hsws]
      exact hst
    have hz0 := drawnCount_zero hst
    have hdl : (setP (swapRole g old).2 c
        (swapInfl cp idx (swapRole g old).1)).deck.length = g.deck.length := hswd
    unfold cardSum at hsum ⊢
    rw [hz1, hslot, hdl]
    rw [hz0] at hsum
    exact hsum
  · rw [setP_st]
    exact hsws

theorem challenge_inv {g : Game} {i c : Nat} {r : Role} {g1 : Game}
    (hok : ∀ q ∈ g.players, okPlayer q) (hmax : nonObsCount g ≤ 6)
    (hsum : cardSum g = 15)
    (hARBR : g.st.name = StateName.actionResponse ∨ g.st.name = StateName.blockResponse)
    (h : challenge g i c r = Except.ok g1) :
    (∀ q ∈ g1.players, okPlayer q) ∧ nonObsCount g1 = nonObsCount g ∧
      g1.roles = g.roles ∧ (activePlay g1 → cardSum g1 = 15) ∧
      g1.st.name ≠ StateName.destroyed := by
  have hact : activePlay g := by
    rcases hARBR with hh | hh <;>
      refine ⟨?_, ?_, ?_⟩ <;> rw [hh] <;> intro hq <;> cases hq
  have hst : g.st.name ≠ StateName.exchange := by
    rcases hARBR with hh | hh <;> rw [hh] <;> intro hq <;> cases hq
  unfold challenge at h
  split at h
  · cases h
  next cp hget =>
    split at h
    next idx hidx =>
      dsimp only at h
      obtain ⟨hok2, hnon2, hroles2, hsum2, hst2⟩ :=
        challenge_swap_inv idx ((cp.influence.getD idx ⟨"", false⟩)).role hget hok hsum hst
      split at h
      next hle =>
        cases h
        obtain ⟨hok3, hnon3, hroles3, hsum3, hst3⟩ :=
          reveal_setP_package i hok2 hnon2 hroles2 hsum2 hst2 hst
        obtain ⟨hokA, hnonA, hrolesA, hsumA, hP5A⟩ :=
          afterIncorrectChallenge_inv _ hok3 (by rw [hnon3]; exact hmax) hsum3
            (by rw [hst3]; exact hst)
        obtain ⟨hokD, hnonD, hrolesD, hsumD, hstD5⟩ :=
          death_package i hokA (Eq.trans hnonA hnon3) (Eq.trans hrolesA hroles3)
            (fun _ => hsumA)
        refine end_turn_inv g _ _ hokD hnonD hrolesD hsumD ?_ ?_ hact hst
        · intro hb
          rcases hstD5 with hD | hD
          · rcases hP5A hb with h5 | h5
            · exact Or.inl (hD.trans (h5.trans hst3))
            · exact Or.inr ((congrArg StateRec.name hD).trans h5)
          · exact Or.inr hD
        · intro hq
          rcases hstD5 with hD | hD
          · have h6 := afterIncorrectChallenge_destroyed _
              ((congrArg StateRec.name hD).symm.trans hq)
            exact hD.trans (h6.trans hst3)
          · exact absurd (hD.symm.trans hq) (by decide)
      next hle =>
        cases h
        refine ⟨hok2, hnon2, hroles2, ?_, ?_⟩
        · intro _
          exact cardSum_setState_15 (by intro hq; cases hq)
            (fun hq => hst ((congrArg StateRec.name hst2).symm.trans hq)) hsum2
        · intro hq
          cases hq
    next hnone =>
      dsimp only at h
      split at h
      next hwl =>
        by_cases hzero : (revealFirstInfluence cp).2.influenceCount = 0
        · rw [if_pos hzero] at h
          cases h
          obtain ⟨hokB, hnonB, hrolesB, hsumB, hstB⟩ := won_reveal_package hget hok hsum hst
          obtain ⟨hokD, hnonD, hrolesD, hsumD, hstD5⟩ :=
            death_package_ne_exchange c hokB hnonB hrolesB hsumB (by rw [hstB]; exact hst)
          obtain ⟨hokS, hnonS, hrolesS, hsumS, hP5S⟩ :=
            afterSuccessfulChallenge_inv _ hokD (by rw [hnonD]; exact hmax) hsumD (by
              rcases hstD5 with hD | hD
              · intro hq
                exact hst ((congrArg StateRec.name (hD.trans hstB)).symm.trans hq)
              · intro hq
                exact absurd (hD.symm.trans hq) (by decide))
          refine end_turn_inv g _ _ hokS (Eq.trans hnonS hnonD)
            (Eq.trans hrolesS hrolesD) (fun _ => hsumS) ?_ ?_ hact hst
          · intro hb
            rcases hP5S hb with h5 | h5
            · rcases hstD5 with hD | hD
              · exact Or.inl (h5.trans (hD.trans hstB))
              · exact Or.inr ((congrArg StateRec.name h5).trans hD)
            · exact Or.inr h5
          · intro hq
            have h6 := afterSuccessfulChallenge_destroyed _ hq
            rcases hstD5 with hD | hD
            · exact h6.trans (hD.trans hstB)
            · exact absurd (((congrArg StateRec.name h6).trans hD).symm.trans hq) (by decide)
        · rw [if_neg hzero] at h
          cases h
          obtain ⟨hokB, hnonB, hrolesB, hsumB, hstB⟩ := won_reveal_package hget hok hsum hst
          obtain ⟨hokS, hnonS, hrolesS, hsumS, hP5S⟩ :=
            afterSuccessfulChallenge_inv _ hokB (by rw [hnonB]; exact hmax) hsumB
              (by rw [hstB]; exact hst)
          refine end_turn_inv g _ _ hokS (Eq.trans hnonS hnonB)
            (Eq.trans hrolesS hrolesB) (fun _ => hsumS) ?_ ?_ hact hst
          · intro hb
            rcases hP5S hb with h5 | h5
            · exact Or.inl (h5.trans hstB)
            · exact Or.inr h5
          · intro hq
            have h6 := afterSuccessfulChallenge_destroyed _ hq
            exact h6.trans hstB
      next hwl =>
        cases h
        refine ⟨hok, rfl, rfl, ?_, ?_⟩
        · intro _
          exact cardSum_setState_15 (by intro hq; cases hq) hst hsum
        · intro hq
          cases hq

theorem allow_inv {g : Game} {j : Nat} {g1 : Game} {b : Bool}
    (hok : ∀ q ∈ g.players, okPlayer q) (hmax : nonObsCount g ≤ 6)
    (hsum : cardSum g = 15)
    (h : allow g j = Except.ok (g1, b)) :
    (∀ q ∈ g1.players, okPlayer q) ∧ nonObsCount g1 = nonObsCount g ∧
      g1.roles = g.roles ∧ (activePlay g1 → cardSum g1 = 15) ∧
      g1.st.name ≠ StateName.destroyed := by
  unfold allow at h
  split at h
  next hBR =>
    have hact : activePlay g := by
      refine ⟨?_, ?_, ?_⟩ <;> rw [hBR] <;> intro hq <;> cases hq
    have hst : g.st.name ≠ StateName.exchange := by
      rw [hBR]
      intro hq
      cases hq
    split at h
    · cases h
    next htg =>
      dsimp only at h
      split at h
      next hev =>
        cases h
        refine ⟨okPlayers_congr (nextTurn_players _) hok,
          Eq.trans (nonObsCount_congr (nextTurn_players _)) rfl,
          nextTurn_roles _, ?_, ?_⟩
        · intro _
          exact Eq.trans (cardSum_nextTurn (drawnCount_zero hst)) hsum
        · exact nextTurn_not_destroyed hact.2.1
      next hev =>
        cases h
        exact ⟨hok, rfl, rfl, fun _ => hsum, hact.2.1⟩
  next hnBR =>
    split at h
    next hARFAR =>
      split at h
      · cases h
      next hown =>
        split at h
        next hFAR =>
          have hact : activePlay g := by
            refine ⟨?_, ?_, ?_⟩ <;> rw [hFAR] <;> intro hq <;> cases hq
          have hst : g.st.name ≠ StateName.exchange := by
            rw [hFAR]
            intro hq
            cases hq
          split at h
          · cases h
          next htg2 =>
            dsimp only at h
            cases h
            obtain ⟨hokP, hnonP, hrolesP, hsumP, hP5P⟩ :=
              playAction_inv g (g.st.playerIdx.getD 0) g.st.toActionState hok hmax hsum hst
                (fun _ => rfl)
            exact end_turn_inv g _ _ hokP hnonP hrolesP (fun _ => hsumP) hP5P
              (playAction_destroyed g _ _) hact hst
        next hnFAR =>
          have hAR : g.st.name = StateName.actionResponse := by
            rcases hARFAR with hh | hh
            · exact hh
            · exact absurd hh hnFAR
          have hact : activePlay g := by
            refine ⟨?_, ?_, ?_⟩ <;> rw [hAR] <;> intro hq <;> cases hq
          have hst : g.st.name ≠ StateName.exchange := by
            rw [hAR]
            intro hq
            cases hq
          dsimp only at h
          split at h
          next hev =>
            cases h
            exact ⟨hok, rfl, rfl, fun _ => hsum, hact.2.1⟩
          next hev =>
            cases h
            obtain ⟨hokP, hnonP, hrolesP, hsumP, hP5P⟩ :=
              playAction_inv { g with allows := setAllow g.allows j }
                (g.st.playerIdx.getD 0) g.st.toActionState hok hmax hsum hst (fun _ => rfl)
            exact end_turn_inv g _ _ hokP hnonP hrolesP (fun _ => hsumP) hP5P
              (playAction_destroyed { g with allows := setAllow g.allows j } _ _) hact hst
    · cases h

theorem start_inv {g : Game} {gt : Option String} {g1 : Game}
    (hInv : Inv g) (h : start g gt = Except.ok g1) : Inv g1 := by
  obtain ⟨hok, hmax, hdes, hcons⟩ := hInv
  unfold start at h
  split at h
  · cases h
  next hW =>
    split at h
    next hge =>
      dsimp only at h
      cases h
      have hB15 : (buildDeck { g with roles := ["duke", "captain", "assassin", "contessa"] ++
          [if gt.getD "original" = "inquisitors" then "inquisitor" else "ambassador"] }).1.length
          = 15 := by
        show (shuffleL _ _).1.length = 15
        rw [shuffleL_length]
        rfl
      have hle : 2 * (g.players.filter fun p => !p.isObserver).length ≤
          (buildDeck { g with roles := ["duke", "captain", "assassin", "contessa"] ++
            [if gt.getD "original" = "inquisitors" then "inquisitor"
              else "ambassador"] }).1.length := by
        rw [hB15]
        have hh := hmax
        unfold nonObsCount at hh
        omega
      have hdeal := dealPlayers_spec g.players
        (buildDeck { g with roles := ["duke", "captain", "assassin", "contessa"] ++
          [if gt.getD "original" = "inquisitors" then "inquisitor" else "ambassador"] }).1
        hok hle
      refine ⟨hdeal.1, Nat.le_trans (Nat.le_of_eq hdeal.2.2.1) hmax, ?_, ?_⟩
      · intro hq
        cases hq
      · intro _
        refine ⟨rfl, ?_⟩
        have hsum15 : ((dealPlayers g.players
            (buildDeck { g with roles := ["duke", "captain", "assassin", "contessa"] ++
              [if gt.getD "original" = "inquisitors" then "inquisitor"
                else "ambassador"] }).1).1.map fun p => p.influence.length).sum
            + (dealPlayers g.players
            (buildDeck { g with roles := ["duke", "captain", "assassin", "contessa"] ++
              [if gt.getD "original" = "inquisitors" then "inquisitor"
                else "ambassador"] }).1).2.length + 0 = 15 := by
          rw [hdeal.2.1, hdeal.2.2.2, hB15, sum_influence_eq g.players hok]
          have hh := hmax
          unfold nonObsCount at hh
          omega
        exact hsum15
    next hge =>
      cases h
      exact ⟨hok, hmax, hdes, hcons⟩

/-! ## Joining -/

theorem getP_append_count (g : Game) (ps : PlayerState) (h0 : ps.influenceCount = 0)
    (i : Nat) :
    (getP { g with players := g.players ++ [ps] } i).influenceCount =
      (getP g i).influenceCount := by
  unfold getP
  dsimp only
  by_cases hlt : i < g.players.length
  · rw [List.getD_eq_getElem?_getD, List.getD_eq_getElem?_getD, List.getElem?_append,
      if_pos hlt]
  · have h1 : g.players[i]? = none := List.getElem?_eq_none (by omega)
    rw [List.getD_eq_getElem?_getD, List.getD_eq_getElem?_getD, h1]
    by_cases hi : i = g.players.length
    · subst hi
      rw [List.getElem?_append_right (Nat.le_refl _)]
      simp [h0]
      rfl
    · have h2 : (g.players ++ [ps])[i]? = none := by
        refine List.getElem?_eq_none ?_
        rw [List.length_append]
        simp
        omega
      rw [h2]

theorem drawnCount_append_obs (g : Game) (ps : PlayerState) (h0 : ps.influenceCount = 0) :
    drawnCount { g with players := g.players ++ [ps] } = drawnCount g := by
  unfold drawnCount
  dsimp only
  by_cases hE : g.st.name = StateName.exchange
  · rw [if_pos hE, if_pos hE, getP_append_count g ps h0]
  · rw [if_neg hE, if_neg hE]

/-- The observer seat record appended by `playerJoined` when the table is
closed. -/
def obsSeat (info : JoinInfo) : PlayerState :=
  { name := info.name, cash := 0, influenceCount := 0, influence := [],
    isObserver := true, ai := info.ai }

/-- The live seat record appended by `playerJoined` when the join succeeds. -/
def playSeat (info : JoinInfo) : PlayerState :=
  { name := info.name, cash := 2, influenceCount := 2,
    influence := [⟨"not dealt", false⟩, ⟨"not dealt", false⟩],
    isObserver := false, ai := info.ai }

theorem playerJoined_inv {g : Game} (info : JoinInfo) (hInv : Inv g) :
    Inv (playerJoined g info).1 := by
  obtain ⟨hok, hmax, hdes, hcons⟩ := hInv
  unfold playerJoined
  dsimp only
  by_cases hcj : canJoin g = true
  · rw [hcj]
    rw [if_neg (by decide)]
    have hq := hcj
    unfold canJoin at hq
    rw [Bool.and_eq_true] at hq
    refine ⟨?_, ?_, ?_, ?_⟩
    · intro q hqm
      rcases List.mem_append.mp hqm with hm | hm
      · exact hok q hm
      · rw [List.mem_singleton.mp hm]
        exact ⟨fun hh => Bool.noConfusion hh, fun _ => rfl, rfl⟩
    · show ((g.players ++ [playSeat info]).filter fun p => !p.isObserver).length ≤ 6
      rw [List.filter_append, List.length_append]
      have hlt : g.players.length < MAX_PLAYERS := of_decide_eq_true hq.2
      have hfl := List.length_filter_le (fun p => !p.isObserver) g.players
      have hone : (List.filter (fun p => !p.isObserver) [playSeat info]).length = 1 := rfl
      unfold MAX_PLAYERS at hlt
      omega
    · exact hdes
    · intro hA
      exact absurd (of_decide_eq_true hq.1) hA.1
  · have hcj' : canJoin g = false := by
      revert hcj
      cases canJoin g <;> simp
    rw [hcj']
    rw [if_pos (by decide)]
    refine ⟨?_, ?_, ?_, ?_⟩
    · intro q hqm
      rcases List.mem_append.mp hqm with hm | hm
      · exact hok q hm
      · rw [List.mem_singleton.mp hm]
        exact ⟨fun _ => rfl, fun hh => Bool.noConfusion hh, rfl⟩
    · show ((g.players ++ [obsSeat info]).filter fun p => !p.isObserver).length ≤ 6
      rw [List.filter_append, List.length_append]
      have hz : (List.filter (fun p => !p.isObserver) [obsSeat info]).length = 0 := rfl
      rw [hz]
      have hh := hmax
      unfold nonObsCount at hh
      omega
    · exact hdes
    · intro hA
      obtain ⟨hr5, hs15⟩ := hcons hA
      refine ⟨hr5, ?_⟩
      have hfin : ((g.players ++ [obsSeat info]).map fun p => p.influence.length).sum
          + g.deck.length + drawnCount { g with players := g.players ++ [obsSeat info] } =
          15 := by
        rw [drawnCount_append_obs g _ rfl]
        rw [List.map_append, List.sum_append]
        have hz2 : (([obsSeat info] : List PlayerState).map
            fun p => p.influence.length).sum = 0 := rfl
        rw [hz2]
        unfold cardSum slotCount at hs15
        omega
      exact hfin

/-! ## Leaving -/

theorem finish_inv {G : Game}
    (hokG : ∀ q ∈ G.players, okPlayer q) (hnonG : nonObsCount G ≤ 6)
    (hroles5 : activePlay G → G.roles.length = 5)
    (hsumG : activePlay G → cardSum G = 15)
    (hdesG : G.st.name = StateName.destroyed → G.st.playerIdx = none) :
    Inv (playerLeftFinish G) := by
  unfold playerLeftFinish
  dsimp only
  split
  next hai =>
    refine ⟨hokG, hnonG, ?_, ?_⟩
    · intro _
      rfl
    · intro hA
      exact absurd rfl hA.2.1
  next hai =>
    refine ⟨hokG, hnonG, hdesG, ?_⟩
    intro hA
    exact ⟨hroles5 hA, hsumG hA⟩

/-- The seat record after a live seat disconnects: everything revealed. -/
def deadSeat (p : PlayerState) : PlayerState :=
  { p with
    influence := p.influence.map (fun s => { s with revealed := true }),
    influenceCount := 0 }

theorem finish_nextTurn_inv (G : Game)
    (hok : ∀ q ∈ G.players, okPlayer q)
    (hnon : nonObsCount G ≤ 6)
    (hroles : G.roles.length = 5)
    (hsum : cardSum G = 15)
    (hdx : G.st.name ≠ StateName.exchange)
    (hdes : G.st.name = StateName.destroyed → G.st.playerIdx = none) :
    Inv (playerLeftFinish (nextTurn G)) := by
  refine finish_inv (okPlayers_congr (nextTurn_players G) hok) ?_ ?_ ?_ ?_
  · exact Nat.le_trans (Nat.le_of_eq (nonObsCount_congr (nextTurn_players G))) hnon
  · intro _
    rw [nextTurn_roles]
    exact hroles
  · intro _
    exact Eq.trans (cardSum_nextTurn (drawnCount_zero hdx)) hsum
  · rcases nextTurn_st G with h1 | ⟨h1, h2⟩
    · intro hq
      exact absurd (h1.symm.trans hq) (by decide)
    · rw [h1]
      exact hdes

theorem playerLeft_inv {g : Game} {i : Nat} {rj : Bool} {g1 : Game}
    (hInv : Inv g) (hstX : g.st.name ≠ StateName.exchange)
    (h : playerLeft g i rj = Except.ok g1) : Inv g1 := by
  obtain ⟨hok, hmax, hdes, hcons⟩ := hInv
  unfold playerLeft at h
  split at h
  · cases h
  next hge =>
    split at h
    · cases h
    next player hget =>
      split at h
      · cases h
      next conn hconn =>
        split at h
        next hwobs =>
          -- splice branch: the seat is removed outright
          cases h
          refine finish_inv (fun q hq => hok q ((List.eraseIdx_sublist _ i).subset hq))
            ?_ (fun hA => (hcons hA).1) ?_ hdes
          · exact Nat.le_trans
              (((List.eraseIdx_sublist g.players i).filter fun p => !p.isObserver).length_le)
              hmax
          · intro hA
            have hobs : player.isObserver = true := by
              rcases hwobs with hw | hw
              · exact absurd hw hA.1
              · exact hw
            have hinfl : player.influence = [] := (hok player (List.get?_mem hget)).1 hobs
            obtain ⟨hr5, hs15⟩ := hcons hA
            unfold cardSum slotCount drawnCount
            dsimp only
            rw [if_neg hstX]
            rw [sum_map_eraseIdx _ _ _ ?z]
            case z =>
              intro hi
              have hgp : g.players[i] = player := by
                have h2 := List.getElem?_eq_getElem hi
                rw [List.get?_eq_getElem?] at hget
                rw [hget] at h2
                exact (Option.some.inj h2).symm
              rw [hgp, hinfl]
              rfl
            unfold cardSum slotCount at hs15
            rw [drawnCount_zero hstX] at hs15
            omega
        next hwobs =>
          -- disconnect branch
          dsimp only at h
          have hpl : okPlayer player := hok player (List.get?_mem hget)
          have hobs' : player.isObserver = false := by
            cases hpo : player.isObserver
            · rfl
            · exact absurd (Or.inr hpo) hwobs
          have hnw : g.st.name ≠ StateName.waitingForPlayers := by
            intro hw
            exact hwobs (Or.inl hw)
          have hpl1 : okPlayer (deadSeat player) := by
            refine ⟨?_, ?_, ?_⟩
            · intro hh
              exact absurd (hobs'.symm.trans hh) (by decide)
            · intro _
              show (player.influence.map _).length = 2
              rw [List.length_map]
              exact hpl.2.1 hobs'
            · unfold deadSeat unrevealedOf
              dsimp only
              rw [unrev_reveal_all]
              rfl
          have hgpi : getP { g with conns := g.conns.set i none } i = player :=
            getP_of_get? hget
          have hlenX : (deadSeat player).influence.length =
              (getP { g with conns := g.conns.set i none } i).influence.length := by
            unfold deadSeat
            dsimp only
            rw [List.length_map, hgpi]
          have hobsX : (deadSeat player).isObserver =
              (getP { g with conns := g.conns.set i none } i).isObserver := by
            unfold deadSeat
            dsimp only
            rw [hgpi]
          have hok2 : ∀ q ∈ (setP { g with conns := g.conns.set i none } i
              (deadSeat player)).players, okPlayer q :=
            okPlayers_setP hok hpl1
          have hnon2 : nonObsCount (setP { g with conns := g.conns.set i none } i
              (deadSeat player)) = nonObsCount g :=
            nonObsCount_setP hobsX
          have hsum2 : activePlay g →
              cardSum (setP { g with conns := g.conns.set i none } i (deadSeat player)) =
              15 :=
            fun hA => cardSum_setP_len hlenX hstX (hcons hA).2
          split at h
          next hgw =>
            rcases checkForGameEnd_cases (setP { g with conns := g.conns.set i none } i
                { player with
                  influenceCount := 0,
                  influence := player.influence.map fun s => { s with revealed := true } })
              with hc | ⟨w, hc⟩
            · rw [hc] at h
              dsimp only at h
              rw [if_pos (fun hq => Bool.noConfusion hq)] at h
              split at h
              next hpidx =>
                cases h
                have hpidx' : g.st.playerIdx = some i := hpidx
                have hactg : activePlay g := by
                  refine ⟨hnw, ?_, hgw⟩
                  intro hd
                  rw [hdes hd] at hpidx'
                  cases hpidx'
                exact finish_nextTurn_inv
                  (setP { g with conns := g.conns.set i none } i (deadSeat player))
                  hok2 (Nat.le_trans (Nat.le_of_eq hnon2) hmax) (hcons hactg).1
                  (hsum2 hactg) hstX hdes
              next hpidx =>
                split at h
                next hrev =>
                  cases h
                  have hrev' : g.st.name = StateName.revealInfluence := hrev.1
                  have hactg : activePlay g := by
                    refine ⟨hnw, ?_, hgw⟩
                    intro hd
                    exact absurd (hd.symm.trans hrev') (by decide)
                  exact finish_nextTurn_inv
                    (setP { g with conns := g.conns.set i none } i (deadSeat player))
                    hok2 (Nat.le_trans (Nat.le_of_eq hnon2) hmax) (hcons hactg).1
                    (hsum2 hactg) hstX hdes
                next hrev =>
                  split at h
                  next harbr =>
                    have harbr' : g.st.name = StateName.actionResponse ∨
                        g.st.name = StateName.blockResponse := harbr.1
                    have hactg : activePlay g := by
                      refine ⟨hnw, ?_, hgw⟩
                      intro hd
                      rcases harbr' with hh | hh
                      · exact absurd (hd.symm.trans hh) (by decide)
                      · exact absurd (hd.symm.trans hh) (by decide)
                    split at h
                    · cases h
                    next g4 b4 hall =>
                      cases h
                      obtain ⟨hok4, hnon4, hroles4, hsum4, hdest4⟩ :=
                        allow_inv hok2 (Nat.le_trans (Nat.le_of_eq hnon2) hmax)
                          (hsum2 hactg) hall
                      refine finish_inv hok4 ?_ ?_ hsum4 ?_
                      · exact Nat.le_trans (Nat.le_of_eq (hnon4.trans hnon2)) hmax
                      · intro _
                        rw [hroles4]
                        exact (hcons hactg).1
                      · intro hq
                        exact absurd hq hdest4
                  next harbr =>
                    cases h
                    refine finish_inv hok2 ?_ ?_ hsum2 hdes
                    · exact Nat.le_trans (Nat.le_of_eq hnon2) hmax
                    · intro hA
                      exact (hcons hA).1
            · rw [hc] at h
              dsimp only at h
              rw [if_neg (fun hq => hq rfl)] at h
              cases h
              refine finish_inv hok2 ?_ ?_ ?_ ?_
              · exact Nat.le_trans (Nat.le_of_eq hnon2) hmax
              · intro hA
                exact absurd rfl hA.2.2
              · intro hA
                exact absurd rfl hA.2.2
              · intro hq
                exact absurd (show StateName.gameWon = StateName.destroyed from hq)
                  (by decide)
          next hgw =>
            cases h
            have hgww : g.st.name = StateName.gameWon := not_not.mp hgw
            refine finish_inv hok hmax (fun hA => absurd hgww hA.2.2)
              (fun hA => absurd hgww hA.2.2) hdes

/-! ## Command-level helpers -/

theorem Inv_emitState {G : Game} (h : Inv G) : Inv (emitState G) := h

theorem active_of_name {g : Game} {n : StateName} (h : g.st.name = n)
    (h1 : n ≠ StateName.waitingForPlayers) (h2 : n ≠ StateName.destroyed)
    (h3 : n ≠ StateName.gameWon) : activePlay g :=
  ⟨fun hq => h1 (h.symm.trans hq), fun hq => h2 (h.symm.trans hq),
    fun hq => h3 (h.symm.trans hq)⟩

theorem findIdx?_spec {α : Type} (pr : α → Bool) :
    ∀ (l : List α) (i : Nat), l.findIdx? pr = some i →
      ∃ h : i < l.length, pr (l.get ⟨i, h⟩) = true := by
  intro l
  induction l with
  | nil =>
    intro i h
    cases h
  | cons a l ih =>
    intro i h
    rw [List.findIdx?_cons] at h
    by_cases hpa : pr a = true
    · rw [if_pos hpa] at h
      cases h
      exact ⟨by simp, hpa⟩
    · rw [if_neg hpa, List.findIdx?_succ] at h
      cases hq : List.findIdx? pr l with
      | none =>
        rw [hq] at h
        cases h
      | some k =>
        rw [hq, Option.map_some'] at h
        cases h
        obtain ⟨h1, h2⟩ := ih k hq
        exact ⟨by simpa using Nat.succ_lt_succ h1, h2⟩

theorem okPlayer_revealAt {p : PlayerState} {i : Nat} (hok : okPlayer p)
    (hobs : p.isObserver = false) (hi : i < p.influence.length)
    (hunrev : (p.influence.get ⟨i, hi⟩).revealed = false) :
    okPlayer { p with
      influence := listModify p.influence i fun s => { s with revealed := true },
      influenceCount := p.influenceCount - 1 } := by
  refine ⟨?_, ?_, ?_⟩
  · intro hh
    exact absurd (hobs.symm.trans hh) (by decide)
  · intro _
    show (listModify p.influence i _).length = 2
    rw [listModify_len]
    exact hok.2.1 hobs
  · have hoff := filter_length_set_off (fun s => !s.revealed) p.influence i
      { p.influence[i] with revealed := true } hi
      (by show (!(p.influence.get ⟨i, hi⟩).revealed) = true; rw [hunrev]; rfl)
      (by show (!(true : Bool)) = false; rfl)
    have h22 : p.influenceCount = (p.influence.filter fun s => !s.revealed).length :=
      hok.2.2
    show p.influenceCount - 1 = unrevealedOf { p with
      influence := listModify p.influence i fun s => { s with revealed := true },
      influenceCount := p.influenceCount - 1 }
    unfold unrevealedOf
    dsimp only
    rw [listModify_eq_set _ _ _ hi]
    show p.influenceCount - 1 =
      ((p.influence.set i { p.influence[i] with revealed := true }).filter
        fun s => !s.revealed).length
    omega

theorem cardSum_nextTurn_eq {g : Game} (h : g.st.name ≠ StateName.gameWon) :
    cardSum (nextTurn g) = slotCount g + g.deck.length := by
  unfold nextTurn
  rw [if_pos h]
  unfold cardSum
  rw [drawnCount_zero (by intro hq; cases hq)]
  rfl

theorem removeAiPlayer_inv {g : Game} {g1 : Game} (hInv : Inv g)
    (hstX : g.st.name ≠ StateName.exchange) (h : removeAiPlayer g = Except.ok g1) :
    Inv g1 := by
  unfold removeAiPlayer at h
  split at h
  next i hfind => exact playerLeft_inv hInv hstX h
  next =>
    cases h
    exact hInv

theorem nextTurn_cmd_inv (g : Game) (hInv : Inv g) (hact : activePlay g)
    (hx : g.st.name ≠ StateName.exchange) : Inv (emitState (nextTurn g)) := by
  obtain ⟨hok, hmax, hdes, hcons⟩ := hInv
  refine ⟨okPlayers_congr (nextTurn_players g) hok,
    Nat.le_trans (Nat.le_of_eq (nonObsCount_congr (nextTurn_players g))) hmax, ?_, ?_⟩
  · intro hq
    exact absurd hq (nextTurn_not_destroyed hact.2.1)
  · intro _
    exact ⟨Eq.trans (congrArg List.length (nextTurn_roles g)) (hcons hact).1,
      Eq.trans (cardSum_nextTurn (drawnCount_zero hx)) (hcons hact).2⟩

theorem run_playAction_inv (G : Game) (a : Nat) (aS : ActionState)
    (hok : ∀ q ∈ G.players, okPlayer q) (hmax : nonObsCount G ≤ 6)
    (hroles : G.roles.length = 5) (hsum : cardSum G = 15)
    (hact : activePlay G) (hst : G.st.name ≠ StateName.exchange)
    (hax : aS.action = some "exchange" → G.st.playerIdx.getD 0 = a) :
    Inv (if (playAction G a aS).2 = true
      then nextTurn (playAction G a aS).1 else (playAction G a aS).1) := by
  obtain ⟨hok1, hnon1, hroles1, hsum1, hP5⟩ := playAction_inv G a aS hok hmax hsum hst hax
  obtain ⟨hokE, hnonE, hrolesE, hsumE, hdesE⟩ :=
    end_turn_inv G (playAction G a aS).1 (playAction G a aS).2 hok1 hnon1 hroles1
      (fun _ => hsum1) hP5 (playAction_destroyed G a aS) hact hst
  exact ⟨hokE, Nat.le_trans (Nat.le_of_eq hnonE) hmax, fun hq => absurd hq hdesE,
    fun hA => ⟨Eq.trans (congrArg List.length hrolesE) hroles, hsumE hA⟩⟩

theorem run_afterIC_inv (G : Game)
    (hok : ∀ q ∈ G.players, okPlayer q) (hmax : nonObsCount G ≤ 6)
    (hroles : G.roles.length = 5) (hsum : cardSum G = 15)
    (hact : activePlay G) (hst : G.st.name ≠ StateName.exchange) :
    Inv (if (afterIncorrectChallenge G).2 = true
      then nextTurn (afterIncorrectChallenge G).1 else (afterIncorrectChallenge G).1) := by
  obtain ⟨hok1, hnon1, hroles1, hsum1, hP5⟩ := afterIncorrectChallenge_inv G hok hmax hsum hst
  obtain ⟨hokE, hnonE, hrolesE, hsumE, hdesE⟩ :=
    end_turn_inv G (afterIncorrectChallenge G).1 (afterIncorrectChallenge G).2 hok1 hnon1
      hroles1 (fun _ => hsum1) hP5 (afterIncorrectChallenge_destroyed G) hact hst
  exact ⟨hokE, Nat.le_trans (Nat.le_of_eq hnonE) hmax, fun hq => absurd hq hdesE,
    fun hA => ⟨Eq.trans (congrArg List.length hrolesE) hroles, hsumE hA⟩⟩

theorem run_afterSC_inv (G : Game)
    (hok : ∀ q ∈ G.players, okPlayer q) (hmax : nonObsCount G ≤ 6)
    (hroles : G.roles.length = 5) (hsum : cardSum G = 15)
    (hact : activePlay G) (hst : G.st.name ≠ StateName.exchange) :
    Inv (if (afterSuccessfulChallenge G).2 = true
      then nextTurn (afterSuccessfulChallenge G).1 else (afterSuccessfulChallenge G).1) := by
  obtain ⟨hok1, hnon1, hroles1, hsum1, hP5⟩ := afterSuccessfulChallenge_inv G hok hmax hsum hst
  obtain ⟨hokE, hnonE, hrolesE, hsumE, hdesE⟩ :=
    end_turn_inv G (afterSuccessfulChallenge G).1 (afterSuccessfulChallenge G).2 hok1 hnon1
      hroles1 (fun _ => hsum1) hP5 (afterSuccessfulChallenge_destroyed G) hact hst
  exact ⟨hokE, Nat.le_trans (Nat.le_of_eq hnonE) hmax, fun hq => absurd hq hdesE,
    fun hA => ⟨Eq.trans (congrArg List.length hrolesE) hroles, hsumE hA⟩⟩

theorem allow_state {g : Game} {j : Nat} {r : Game × Bool}
    (h : allow g j = Except.ok r) :
    g.st.name = StateName.blockResponse ∨ g.st.name = StateName.actionResponse ∨
      g.st.name = StateName.finalActionResponse := by
  unfold allow at h
  split at h
  next hbr => exact Or.inl hbr
  next hbr =>
    split at h
    next har => exact Or.inr har
    next har => cases h

theorem enter_response_inv (g : Game) (i : Nat) (x : PlayerState) (s : StateRec) (j : Nat)
    (hok : ∀ q ∈ g.players, okPlayer q) (hmax : nonObsCount g ≤ 6)
    (hroles : g.roles.length = 5) (hsum : cardSum g = 15)
    (hokx : okPlayer x)
    (hobsx : x.isObserver = (getP g i).isObserver)
    (hlenx : x.influence.length = (getP g i).influence.length)
    (hs : s.name = StateName.actionResponse ∨ s.name = StateName.blockResponse)
    (hst : g.st.name ≠ StateName.exchange) :
    Inv (emitState (resetAllows (setState (setP g i x) s) j)) := by
  refine ⟨okPlayers_setP hok hokx,
    Nat.le_trans (Nat.le_of_eq (nonObsCount_setP hobsx)) hmax, ?_, ?_⟩
  · intro hq
    have hq' : s.name = StateName.destroyed := hq
    rcases hs with hh | hh <;> exact absurd (hh.symm.trans hq') (by decide)
  · intro _
    refine ⟨hroles, ?_⟩
    exact @cardSum_setState_setP g i x s hlenx
      (by rcases hs with hh | hh <;> rw [hh] <;> decide) hst hsum

theorem enter_block_inv (g : Game) (s : StateRec) (j : Nat)
    (hok : ∀ q ∈ g.players, okPlayer q) (hmax : nonObsCount g ≤ 6)
    (hroles : g.roles.length = 5) (hsum : cardSum g = 15)
    (hs : s.name = StateName.blockResponse)
    (hst : g.st.name ≠ StateName.exchange) :
    Inv (emitState (resetAllows (setState g s) j)) := by
  refine ⟨hok, hmax, ?_, ?_⟩
  · intro hq
    have hq' : s.name = StateName.destroyed := hq
    exact absurd (hs.symm.trans hq') (by decide)
  · intro _
    exact ⟨hroles, @cardSum_setState_15 g s (by rw [hs]; decide) hst hsum⟩

theorem exchange_cmd_inv (g : Game) (j : Nat) (player x : PlayerState)
    (rs unchosen d2 : List Role) (r2 : List Nat)
    (hInv : Inv g)
    (hget : g.players.get? j = some player)
    (hxobs : x.isObserver = player.isObserver)
    (hxlen : x.influence.length = player.influence.length)
    (hxcnt : x.influenceCount = player.influenceCount)
    (hxunrev : (x.influence.filter fun s => !s.revealed).length =
      (player.influence.filter fun s => !s.revealed).length)
    (hst : g.st.name = StateName.exchange)
    (hwho : g.st.playerIdx = some j)
    (hnum : rs.length = player.influenceCount)
    (hdiff : arrayDifference g.st.exchangeOptions rs = some unchosen)
    (hd2 : d2.length = g.deck.length + unchosen.length) :
    Inv (emitState (nextTurn { setP g j x with deck := d2, rng := r2 })) := by
  obtain ⟨hok, hmax, hdes, hcons⟩ := hInv
  have hgp : getP g j = player := getP_of_get? hget
  have hpl : okPlayer player := hok player (List.get?_mem hget)
  have hactg : activePlay g := active_of_name hst (by decide) (by decide) (by decide)
  have hokx : okPlayer x := by
    refine ⟨?_, ?_, ?_⟩
    · intro hh
      have hpe : player.influence = [] := hpl.1 (hxobs.symm.trans hh)
      have hl0 : x.influence.length = 0 := by
        rw [hxlen, hpe]
        rfl
      exact List.length_eq_zero.mp hl0
    · intro hh
      rw [hxlen]
      exact hpl.2.1 (hxobs.symm.trans hh)
    · rw [hxcnt, hpl.2.2]
      exact hxunrev.symm
  have hok2 : ∀ q ∈ ({ setP g j x with deck := d2, rng := r2 } : Game).players, okPlayer q :=
    okPlayers_setP hok hokx
  have hnon2 : nonObsCount ({ setP g j x with deck := d2, rng := r2 } : Game) =
      nonObsCount g :=
    nonObsCount_setP (by rw [hgp]; exact hxobs)
  have hgw2 : ({ setP g j x with deck := d2, rng := r2 } : Game).st.name ≠
      StateName.gameWon := by
    intro hq
    exact absurd (hst.symm.trans (show g.st.name = StateName.gameWon from hq)) (by decide)
  refine ⟨okPlayers_congr (nextTurn_players _) hok2,
    Nat.le_trans (Nat.le_of_eq
      (Eq.trans (nonObsCount_congr (nextTurn_players _)) hnon2)) hmax, ?_, ?_⟩
  · intro hq
    rcases nextTurn_st ({ setP g j x with deck := d2, rng := r2 } : Game) with h1 | ⟨h1, h2⟩
    · exact absurd (h1.symm.trans hq) (by decide)
    · exact absurd h2 hgw2
  · intro _
    refine ⟨Eq.trans (congrArg List.length (nextTurn_roles _)) ((hcons hactg).1), ?_⟩
    have hE : cardSum (nextTurn ({ setP g j x with deck := d2, rng := r2 } : Game)) = 15 := by
      rw [cardSum_nextTurn_eq hgw2]
      have hslot : slotCount ({ setP g j x with deck := d2, rng := r2 } : Game) =
          slotCount g :=
        Eq.trans (slotCount_congr rfl) (slotCount_setP (by rw [hgp]; exact hxlen))
      have hdeck : ({ setP g j x with deck := d2, rng := r2 } : Game).deck = d2 := rfl
      rw [hslot, hdeck, hd2]
      have h15 := (hcons hactg).2
      unfold cardSum drawnCount at h15
      rw [if_pos hst, hwho, Option.getD_some, hgp] at h15
      have hlen2 := arrayDifference_length rs g.st.exchangeOptions unchosen hdiff
      omega
    exact hE

/-- The interrogated seat after a forced exchange: the confessed slot's
role is replaced by the swapped-in card. -/
def interrSeat (g : Game) (t idx : Nat) (conf : Role) : PlayerState :=
  { getP g t with
    influence := listModify (getP g t).influence idx fun s =>
      { s with role := (swapRole g conf).1 } }

theorem interrogate_cmd_inv (g : Game) (t idx : Nat) (conf : Role)
    (hInv : Inv g) (hst : g.st.name = StateName.interrogate) :
    Inv (emitState (nextTurn
      (setP (swapRole g conf).2 t (interrSeat g t idx conf)))) := by
  obtain ⟨hok, hmax, hdes, hcons⟩ := hInv
  obtain ⟨hpl2, hst2, hroles2, hdeck2⟩ := swapRole_fields g conf
  have hT : okPlayer (getP g t) := okPlayer_getP hok t
  have hactg : activePlay g := active_of_name hst (by decide) (by decide) (by decide)
  have hokx : okPlayer (interrSeat g t idx conf) := by
    refine ⟨?_, ?_, ?_⟩
    · intro hh
      have hpe : (getP g t).influence = [] := hT.1 hh
      show listModify (getP g t).influence idx _ = []
      rw [hpe]
      exact listModify_oob _ _ _ (by simp)
    · intro hh
      show (listModify (getP g t).influence idx _).length = 2
      rw [listModify_len]
      exact hT.2.1 hh
    · show (getP g t).influenceCount = unrevealedOf (interrSeat g t idx conf)
      unfold unrevealedOf interrSeat
      dsimp only
      rw [unrev_listModify_role]
      exact hT.2.2
  have hok1 : ∀ q ∈ (swapRole g conf).2.players, okPlayer q := okPlayers_congr hpl2 hok
  have hok2 : ∀ q ∈ (setP (swapRole g conf).2 t (interrSeat g t idx conf)).players,
      okPlayer q := okPlayers_setP hok1 hokx
  have hobsx2 : (interrSeat g t idx conf).isObserver =
      (getP (swapRole g conf).2 t).isObserver := by
    show (getP g t).isObserver = (getP (swapRole g conf).2 t).isObserver
    rw [getP_players_eq hpl2 t]
  have hnon2 : nonObsCount (setP (swapRole g conf).2 t (interrSeat g t idx conf)) =
      nonObsCount g :=
    Eq.trans (nonObsCount_setP hobsx2) (nonObsCount_congr hpl2)
  have hgw2 : (setP (swapRole g conf).2 t (interrSeat g t idx conf)).st.name ≠
      StateName.gameWon := by
    intro hq
    have hq2 : (swapRole g conf).2.st.name = StateName.gameWon := hq
    exact absurd (hst.symm.trans ((congrArg StateRec.name hst2).symm.trans hq2)) (by decide)
  refine ⟨okPlayers_congr (nextTurn_players _) hok2,
    Nat.le_trans (Nat.le_of_eq
      (Eq.trans (nonObsCount_congr (nextTurn_players _)) hnon2)) hmax, ?_, ?_⟩
  · intro hq
    rcases nextTurn_st (setP (swapRole g conf).2 t (interrSeat g t idx conf)) with
      h1 | ⟨h1, h2⟩
    · exact absurd (h1.symm.trans hq) (by decide)
    · exact absurd h2 hgw2
  · intro _
    have hr : (setP (swapRole g conf).2 t (interrSeat g t idx conf)).roles = g.roles :=
      hroles2
    refine ⟨Eq.trans (congrArg List.length (nextTurn_roles _))
      (Eq.trans (congrArg List.length hr) ((hcons hactg).1)), ?_⟩
    have hE : cardSum (nextTurn (setP (swapRole g conf).2 t (interrSeat g t idx conf))) =
        15 := by
      rw [cardSum_nextTurn_eq hgw2]
      have hslot : slotCount (setP (swapRole g conf).2 t (interrSeat g t idx conf)) =
          slotCount g := by
        refine Eq.trans (slotCount_setP ?_) (slotCount_congr hpl2)
        show (listModify (getP g t).influence idx _).length = _
        rw [listModify_len, getP_players_eq hpl2 t]
      have hdl : (setP (swapRole g conf).2 t (interrSeat g t idx conf)).deck.length =
          g.deck.length := hdeck2
      have h15 := (hcons hactg).2
      unfold cardSum at h15
      rw [drawnCount_zero (by rw [hst]; decide)] at h15
      rw [hslot, hdl]
      omega
    exact hE

/-- The seat record after revealing the chosen influence slot. -/
def revSeat (player : PlayerState) (idx : Nat) : PlayerState :=
  { player with
    influence := listModify player.influence idx fun s => { s with revealed := true },
    influenceCount := player.influenceCount - 1 }

set_option maxHeartbeats 4000000 in
theorem command_inv {g : Game} {j : Nat} {p : Payload} {g1 : Game}
    (hInv : Inv g) (h : command g j p = Except.ok g1) : Inv g1 := by
  have hInv2 := hInv
  obtain ⟨hok, hmax, hdes, hcons⟩ := hInv2
  unfold command at h
  split at h
  · cases h
  next player hget =>
    by_cases hsid : p.stateId ≠ some g.stateId
    · rw [if_pos hsid] at h
      cases h
    rw [if_neg hsid] at h
    by_cases hc1 : p.command = "start"
    · rw [if_pos hc1] at h
      split at h
      · cases h
      next G hstart =>
        cases h
        exact Inv_emitState (start_inv hInv hstart)
    rw [if_neg hc1] at h
    by_cases hc2 : p.command = "add-ai"
    · rw [if_pos hc2] at h
      split at h
      · cases h
      next hwait =>
        cases h
        exact Inv_emitState (playerJoined_inv _ hInv)
    rw [if_neg hc2] at h
    by_cases hc3 : p.command = "remove-ai"
    · rw [if_pos hc3] at h
      split at h
      · cases h
      next hwait =>
        have hwn : g.st.name = StateName.waitingForPlayers := not_not.mp hwait
        split at h
        · cases h
        next G hrm =>
          cases h
          exact Inv_emitState (removeAiPlayer_inv hInv (by rw [hwn]; decide) hrm)
    rw [if_neg hc3] at h
    by_cases hc4 : p.command = "play-action"
    · rw [if_pos hc4] at h
      split at h
      · cases h
      next hsot =>
        have hsot2 : g.st.name = StateName.startOfTurn := not_not.mp hsot
        have hactg : activePlay g :=
          active_of_name hsot2 (by decide) (by decide) (by decide)
        have hstX : g.st.name ≠ StateName.exchange := by
          rw [hsot2]
          decide
        split at h
        · cases h
        next hturn =>
          have hturn2 : g.st.playerIdx = some j := not_not.mp hturn
          split at h
          · cases h
          next action hactA =>
            split at h
            · cases h
            next =>
              split at h
              · cases h
              next =>
                split at h
                · cases h
                next =>
                  split at h
                  · cases h
                  next =>
                    split at h
                    · cases h
                    next =>
                      split at h
                      · cases h
                      next =>
                        dsimp only at h
                        have hgp := getP_of_get? hget
                        have hpl : okPlayer player := hok player (List.get?_mem hget)
                        have hokx : okPlayer
                            { player with cash := player.cash - action.cost } :=
                          okPlayer_cash _ hpl
                        have hobsx : ({ player with
                            cash := player.cash - action.cost } :
                            PlayerState).isObserver = (getP g j).isObserver := by
                          rw [hgp]
                        have hlenx : ({ player with
                            cash := player.cash - action.cost } :
                            PlayerState).influence.length =
                            (getP g j).influence.length := by
                          rw [hgp]
                        split at h
                        next hplain =>
                          cases h
                          exact Inv_emitState (run_playAction_inv
                            (setP g j { player with cash := player.cash - action.cost })
                            j p.toActionState
                            (okPlayers_setP hok hokx)
                            (Nat.le_trans (Nat.le_of_eq (nonObsCount_setP hobsx)) hmax)
                            ((hcons hactg).1)
                            (cardSum_setP_len hlenx hstX ((hcons hactg).2))
                            hactg hstX
                            (fun _ => by
                              show g.st.playerIdx.getD 0 = j
                              rw [hturn2]
                              rfl))
                        next hplain =>
                          cases h
                          exact enter_response_inv g j
                            { player with cash := player.cash - action.cost }
                            { name := StateName.actionResponse,
                              playerIdx := some j, action := p.action,
                              target := p.target,
                              message := actionAttemptMessage j p } j
                            hok hmax ((hcons hactg).1) ((hcons hactg).2)
                            hokx hobsx hlenx (Or.inl rfl) hstX
    rw [if_neg hc4] at h
    by_cases hc5 : p.command = "challenge"
    · rw [if_pos hc5] at h
      split at h
      · cases h
      next hdead =>
        split at h
        next hAR =>
          split at h
          · cases h
          next hown =>
            split at h
            · cases h
            next action2 hactB =>
              split at h
              · cases h
              next hrn =>
                split at h
                · cases h
                next G hchal =>
                  cases h
                  have hactg := active_of_name hAR (by decide) (by decide) (by decide)
                  obtain ⟨hok1, hnon1, hroles1, hsum1, hne1⟩ :=
                    challenge_inv hok hmax ((hcons hactg).2) (Or.inl hAR) hchal
                  exact Inv_emitState ⟨hok1,
                    Nat.le_trans (Nat.le_of_eq hnon1) hmax,
                    fun hq => absurd hq hne1,
                    fun hA => ⟨Eq.trans (congrArg List.length hroles1)
                      ((hcons hactg).1), hsum1 hA⟩⟩
        next hAR =>
          split at h
          next hBR =>
            split at h
            · cases h
            next hown =>
              split at h
              · cases h
              next G hchal =>
                cases h
                have hactg := active_of_name hBR (by decide) (by decide) (by decide)
                obtain ⟨hok1, hnon1, hroles1, hsum1, hne1⟩ :=
                  challenge_inv hok hmax ((hcons hactg).2) (Or.inr hBR) hchal
                exact Inv_emitState ⟨hok1,
                  Nat.le_trans (Nat.le_of_eq hnon1) hmax,
                  fun hq => absurd hq hne1,
                  fun hA => ⟨Eq.trans (congrArg List.length hroles1)
                    ((hcons hactg).1), hsum1 hA⟩⟩
          next hBR =>
            cases h
    rw [if_neg hc5] at h
    by_cases hc6 : p.command = "reveal"
    · rw [if_pos hc6] at h
      split at h
      · cases h
      next hrev =>
        have hrevN : g.st.name = StateName.revealInfluence := not_not.mp hrev
        have hactg := active_of_name hrevN (by decide) (by decide) (by decide)
        have hstX : g.st.name ≠ StateName.exchange := by
          rw [hrevN]
          decide
        split at h
        · cases h
        next hwho =>
          split at h
          · cases h
          next idx hfind =>
            dsimp only at h
            obtain ⟨hi, hpred⟩ := findIdx?_spec _ _ _ hfind
            have hgp := getP_of_get? hget
            have hpl : okPlayer player := hok player (List.get?_mem hget)
            have hobs : player.isObserver = false := by
              cases hpo : player.isObserver
              · rfl
              · exact absurd hi (by rw [hpl.1 hpo]; simp)
            have hunrev : (player.influence.get ⟨idx, hi⟩).revealed = false := by
              have h2 := ((Bool.and_eq_true _ _).mp hpred).2
              cases hrv : (player.influence.get ⟨idx, hi⟩).revealed
              · rfl
              · rw [hrv] at h2
                cases h2
            have hokx : okPlayer (revSeat player idx) :=
              okPlayer_revealAt hpl hobs hi hunrev
            have hobsx : (revSeat player idx).isObserver = (getP g j).isObserver := by
              rw [hgp]
              rfl
            have hlenx : (revSeat player idx).influence.length =
                (getP g j).influence.length := by
              show (listModify player.influence idx _).length = _
              rw [listModify_len, hgp]
            split at h
            next hIC =>
              cases h
              exact Inv_emitState (run_afterIC_inv
                (setP g j (revSeat player idx))
                (okPlayers_setP hok hokx)
                (Nat.le_trans (Nat.le_of_eq (nonObsCount_setP hobsx)) hmax)
                ((hcons hactg).1)
                (cardSum_setP_len hlenx hstX ((hcons hactg).2))
                hactg hstX)
            next hIC =>
              split at h
              next hSC =>
                cases h
                exact Inv_emitState (run_afterSC_inv
                  (setP g j (revSeat player idx))
                  (okPlayers_setP hok hokx)
                  (Nat.le_trans (Nat.le_of_eq (nonObsCount_setP hobsx)) hmax)
                  ((hcons hactg).1)
                  (cardSum_setP_len hlenx hstX ((hcons hactg).2))
                  hactg hstX)
              next hSC =>
                cases h
                exact nextTurn_cmd_inv (setP g j (revSeat player idx))
                  ⟨okPlayers_setP hok hokx,
                    Nat.le_trans (Nat.le_of_eq (nonObsCount_setP hobsx)) hmax,
                    hdes,
                    fun _ => ⟨(hcons hactg).1,
                      cardSum_setP_len hlenx hstX ((hcons hactg).2)⟩⟩
                  hactg hstX
    rw [if_neg hc6] at h
    by_cases hc7 : p.command = "block"
    · rw [if_pos hc7] at h
      split at h
      · cases h
      next hdead2 =>
        split at h
        · cases h
        next hstates =>
          have hstAF : g.st.name = StateName.actionResponse ∨
              g.st.name = StateName.finalActionResponse := by
            rcases not_and_or.mp hstates with hh | hh
            · exact Or.inl (not_not.mp hh)
            · exact Or.inr (not_not.mp hh)
          have hactg : activePlay g := by
            rcases hstAF with hh | hh <;>
              exact active_of_name hh (by decide) (by decide) (by decide)
          have hstX : g.st.name ≠ StateName.exchange := by
            rcases hstAF with hh | hh <;> rw [hh] <;> decide
          split at h
          · cases h
          next action3 hactC =>
            split at h
            · cases h
            next =>
              split at h
              · cases h
              next =>
                split at h
                · cases h
                next =>
                  split at h
                  · cases h
                  next =>
                    split at h
                    · cases h
                    next =>
                      dsimp only at h
                      cases h
                      exact enter_block_inv g
                        { name := StateName.blockResponse,
                          playerIdx := g.st.playerIdx,
                          action := g.st.action, target := some j,
                          blockingRole := p.blockingRole,
                          message := toString j ++ " attempted to block with " ++
                            p.blockingRole.getD "" } j
                        hok hmax ((hcons hactg).1) ((hcons hactg).2)
                        rfl hstX
    rw [if_neg hc7] at h
    by_cases hc8 : p.command = "allow"
    · rw [if_pos hc8] at h
      split at h
      · cases h
      next hdead3 =>
        split at h
        · cases h
        next G1 sc hallow =>
          have hnames := allow_state hallow
          have hactg : activePlay g := by
            rcases hnames with hh | hh | hh <;>
              exact active_of_name hh (by decide) (by decide) (by decide)
          obtain ⟨hok1, hnon1, hroles1, hsum1, hne1⟩ :=
            allow_inv hok hmax ((hcons hactg).2) hallow
          have hI : Inv G1 := ⟨hok1,
            Nat.le_trans (Nat.le_of_eq hnon1) hmax,
            fun hq => absurd hq hne1,
            fun hA => ⟨Eq.trans (congrArg List.length hroles1)
              ((hcons hactg).1), hsum1 hA⟩⟩
          split at h
          · cases h
            exact Inv_emitState hI
          · cases h
            exact hI
    rw [if_neg hc8] at h
    by_cases hc9 : p.command = "exchange"
    · rw [if_pos hc9] at h
      split at h
      · cases h
      next hexch =>
        have hexN : g.st.name = StateName.exchange := not_not.mp hexch
        split at h
        · cases h
        next hturn3 =>
          have hturn4 : g.st.playerIdx = some j := not_not.mp hturn3
          split at h
          · cases h
          next roles hrs =>
            split at h
            · cases h
            next hnum =>
              have hnum2 : roles.length = player.influenceCount := not_not.mp hnum
              split at h
              · cases h
              next unchosen hdiff =>
                dsimp only at h
                cases h
                exact exchange_cmd_inv g j player
                  { player with influence := (assignRoles player.influence roles).1 }
                  roles unchosen
                  (shuffleL (setP g j { player with influence :=
                      (assignRoles player.influence roles).1 }).rng
                    ((setP g j { player with influence :=
                      (assignRoles player.influence roles).1 }).deck ++ unchosen)).1
                  (shuffleL (setP g j { player with influence :=
                      (assignRoles player.influence roles).1 }).rng
                    ((setP g j { player with influence :=
                      (assignRoles player.influence roles).1 }).deck ++ unchosen)).2
                  hInv hget rfl
                  ((assignRoles_spec player.influence roles).1) rfl
                  ((assignRoles_spec player.influence roles).2)
                  hexN hturn4 hnum2 hdiff
                  (by rw [shuffleL_length, List.length_append]; rfl)
    rw [if_neg hc9] at h
    by_cases hc10 : p.command = "interrogate"
    · rw [if_pos hc10] at h
      split at h
      · cases h
      next hint =>
        have hintN : g.st.name = StateName.interrogate := not_not.mp hint
        split at h
        · cases h
        next hturn5 =>
          split at h
          next hforce =>
            dsimp only at h
            split at h
            · cases h
            next idx hidxf =>
              cases h
              exact interrogate_cmd_inv g (g.st.target.getD 0) idx
                (g.st.confession.getD "undefined") hInv hintN
          next hforce =>
            cases h
            exact nextTurn_cmd_inv g hInv
              (active_of_name hintN (by decide) (by decide) (by decide))
              (by rw [hintN]; decide)
    rw [if_neg hc10] at h
    cases h

/-! ## Establishment and preservation over reachable histories -/

theorem Inv_initGame (rng : List Nat) (fp : Option Nat) : Inv (initGame rng fp) := by
  refine ⟨?_, ?_, ?_, ?_⟩
  · intro q hq
    exact absurd hq (List.not_mem_nil q)
  · exact Nat.zero_le 6
  · intro hq
    exact absurd (show StateName.waitingForPlayers = StateName.destroyed from hq) (by decide)
  · intro hA
    exact absurd rfl hA.1

theorem Inv_step {g g' : Game} (hInv : Inv g) (h : StepNX g g') : Inv g' := by
  cases h with
  | join info => exact playerJoined_inv info hInv
  | leave i rejoined g' hst hpl => exact playerLeft_inv hInv hst hpl
  | cmd i p g' hcmd => exact command_inv hInv hcmd

theorem Inv_reachable {g : Game} (h : ReachableNX g) : Inv g := by
  induction h with
  | init rng fp => exact Inv_initGame rng fp
  | step hr hstep ih => exact Inv_step ih hstep

theorem reachNX_tA3 : ReachableNX tA3 := by
  have h0 : ReachableNX (initGame [] none) := ReachableNX.init [] none
  have h1 : ReachableNX tA1 := h0.step (StepNX.join (initGame [] none) ⟨"P0", false⟩)
  have h2 : ReachableNX tA2 := h1.step (StepNX.join tA1 ⟨"P1", false⟩)
  exact h2.step (StepNX.cmd tA2 0 pA3 tA3 rfl)

/-- C1: in every reachable in-play state of a started game, along histories
with no disconnect during an open exchange offer, the influence slots across
all seats plus the deck plus the cards drawn into an open exchange offer
account for exactly 3 copies of each role in play. -/
theorem card_conservation {g : Game} (hr : ReachableNX g)
    (hw : g.st.name ≠ StateName.waitingForPlayers)
    (hwon : g.st.name ≠ StateName.gameWon)
    (hdes : g.st.name ≠ StateName.destroyed) :
    slotCount g + g.deck.length + drawnCount g = 3 * g.roles.length := by
  obtain ⟨hr5, h15⟩ := (Inv_reachable hr).2.2.2 ⟨hw, hdes, hwon⟩
  rw [hr5]
  unfold cardSum at h15
  exact h15

theorem card_conservation_witness :
    tA3.st.name ≠ StateName.waitingForPlayers ∧ tA3.st.name ≠ StateName.gameWon ∧
      tA3.st.name ≠ StateName.destroyed ∧
      slotCount tA3 + tA3.deck.length + drawnCount tA3 = 3 * tA3.roles.length :=
  ⟨by decide, by decide, by decide,
    card_conservation reachNX_tA3 (by decide) (by decide) (by decide)⟩

end Treason
